import Mathlib

/-!
# Verification of the constellation-evolution simulation core

A shallow embedding, in Lean 4, of the entity–component simulation engine of
the `constellation-evolution` repository, together with theorems checking the
natural-language specification against the code.

Modelling conventions, used throughout:

* JavaScript numbers are modelled by `ℚ` in the code paths that (in any real
  run) only ever manipulate finite values.  The `P15` physics variant, whose
  whole point is its handling of `NaN`/`Infinity`, is modelled separately by
  the four-class type `JSNum` that carries the IEEE special values and their
  propagation rules (finite-arithmetic overflow to infinity is not modelled;
  no claim below depends on it).
* `Math.random()` is modelled by an oracle stream `ℕ → ℚ` together with a
  cursor (`Rng`); `validRng` states that every draw lies in `[0, 1)`, which is
  the guarantee `Math.random` gives.
* `Math.sqrt`, `Math.cos` and `Math.sin` are irrational on almost all inputs,
  so they are modelled by oracle functions `ℚ → ℚ` collected in `MathEnv`.
  Theorems quantify over the oracle; hypotheses (`env.sqrt 0 = 0`, boundedness
  of `cos`/`sin`) are added exactly where a claim's truth depends on a
  property the real functions have.
* JavaScript `Map` objects (insertion ordered) are modelled by association
  lists; `Map.set` replaces in place or appends, as in JS.
* Component reads that the JS code performs without a presence check would
  throw on a malformed world.  Where a claim is about such a crash
  (`EvolutionSystem.createNextGeneration` with zero survivors) the embedding
  returns `Option` and the crash is `none`.  Where a claim only concerns
  well-formed worlds, such reads are modelled with a default value and the
  theorems carry the corresponding well-formedness hypotheses, so the default
  is never exercised in the theorems' scope.
-/

namespace CE

/-- A random-number generator: the oracle stream of `Math.random()` results
together with a cursor into it. -/
structure Rng where
  stream : ℕ → ℚ
  k : ℕ

/-- Draw one `Math.random()` value. -/
def Rng.next (r : Rng) : ℚ × Rng :=
  (r.stream r.k, ⟨r.stream, r.k + 1⟩)

/-- Every value the oracle can produce lies in `[0, 1)`, as for
`Math.random()`. -/
def validRng (r : Rng) : Prop := ∀ n, 0 ≤ r.stream n ∧ r.stream n < 1

/-- Oracles for the irrational math library functions, plus the (finite)
value of `Math.PI`. -/
structure MathEnv where
  sqrt : ℚ → ℚ
  cos : ℚ → ℚ
  sin : ℚ → ℚ
  pi : ℚ

/-- `src/simulation/ecs/utils/Vector2.js` is not part of the snapshot (only
its callers are).  Modelled from the spec: a 2-D vector with the standard
componentwise operations used by the systems (`add`, `subtract`, `multiply`
by a scalar, Euclidean `distanceTo` and `normalize`). -/
structure Vec2 where
  x : ℚ
  y : ℚ
deriving DecidableEq, Repr

namespace Vec2

def add (a b : Vec2) : Vec2 := ⟨a.x + b.x, a.y + b.y⟩

def sub (a b : Vec2) : Vec2 := ⟨a.x - b.x, a.y - b.y⟩

def smul (a : Vec2) (c : ℚ) : Vec2 := ⟨a.x * c, a.y * c⟩

/-- `distanceTo`: Euclidean distance, via the `sqrt` oracle. -/
def distanceTo (env : MathEnv) (a b : Vec2) : ℚ :=
  env.sqrt ((a.x - b.x) ^ 2 + (a.y - b.y) ^ 2)

/-- `normalize`: divide by the length (no zero-length guard is visible in the
snapshot; over `ℚ`, division by `0` yields `0`). -/
def normalize (env : MathEnv) (a : Vec2) : Vec2 :=
  let len := env.sqrt (a.x ^ 2 + a.y ^ 2)
  ⟨a.x / len, a.y / len⟩

end Vec2

/-! ## Components (`src/simulation/ecs/components/*.js`) -/

/-- `PositionComponent`. -/
structure PositionComponent where
  position : Vec2
deriving DecidableEq, Repr

/-- `VelocityComponent` (constructed with `(0, 0)` by the factory). -/
structure VelocityComponent where
  velocity : Vec2
deriving DecidableEq, Repr

/-- `PhysicsComponent`: accumulated force, mass, stiffness, damping. -/
structure PhysicsComponent where
  force : Vec2
  mass : ℚ
  stiffness : ℚ
  damping : ℚ
deriving DecidableEq, Repr

/-- `JointComponent`: parent organism id, anchor flag, connection ids and the
insertion-ordered rest-length map. -/
structure JointComponent where
  organismId : ℕ
  isAnchored : Bool
  connections : List ℕ
  restLengths : List (ℕ × ℚ)
  radius : ℚ
  defaultRestLength : ℚ
deriving DecidableEq, Repr

/-- `Map.set` on the insertion-ordered association list modelling
`restLengths`: replace the existing binding in place, else append. -/
def mapSet (m : List (ℕ × ℚ)) (k : ℕ) (v : ℚ) : List (ℕ × ℚ) :=
  match m with
  | [] => [(k, v)]
  | (k', v') :: rest =>
      if k' = k then (k, v) :: rest else (k', v') :: mapSet rest k v

/-- `Map.get`. -/
def mapGet (m : List (ℕ × ℚ)) (k : ℕ) : Option ℚ :=
  match m with
  | [] => none
  | (k', v') :: rest => if k' = k then some v' else mapGet rest k

/-- `OrganismComponent`. -/
structure OrganismComponent where
  jointIds : List ℕ
deriving DecidableEq, Repr

/-- `FitnessComponent`. -/
structure FitnessComponent where
  fitness : ℚ
  foodEaten : ℕ
deriving DecidableEq, Repr

/-- The eight-parameter `GeneticComponent` used by `EvolutionSystem`,
`StateSystem` and `JointConnectionSystem`.  Its class file is missing from the
snapshot (only callers remain); the fields are modelled from the spec's data
model: `{sensorDistance, moveThreshold, anchorThreshold, anchorRatio,
movementMagnitude, movementFrequency, movementBias, rotationalForce}`. -/
structure GeneticComponent where
  sensorDistance : ℚ
  moveThreshold : ℚ
  anchorThreshold : ℚ
  anchorRatio : ℚ
  movementMagnitude : ℚ
  movementFrequency : ℚ
  movementBias : ℚ
  rotationalForce : ℚ
deriving DecidableEq, Repr

/-- `FoodComponent` (marker; radius only). -/
structure FoodComponent where
  radius : ℚ
deriving DecidableEq, Repr

/-- `RenderComponent` (rendering hint only). -/
structure RenderComponent where
  renderType : String
  color : String
  radius : ℚ
deriving DecidableEq, Repr

/-- An entity: its id plus at most one component of each class, mirroring the
string-keyed component map of `Entity.js`. -/
structure Entity where
  id : ℕ
  position : Option PositionComponent := none
  velocity : Option VelocityComponent := none
  physics : Option PhysicsComponent := none
  joint : Option JointComponent := none
  organism : Option OrganismComponent := none
  fitness : Option FitnessComponent := none
  genetics : Option GeneticComponent := none
  food : Option FoodComponent := none
  render : Option RenderComponent := none
deriving DecidableEq, Repr

/-- `World.js`: the insertion-ordered entity map and the id allocator. -/
structure World where
  entities : List Entity
  nextEntityId : ℕ
deriving DecidableEq, Repr

namespace World

/-- `createEntity`. -/
def createEntity (w : World) : Entity × World :=
  let e : Entity := { id := w.nextEntityId }
  (e, ⟨w.entities ++ [e], w.nextEntityId + 1⟩)

/-- `removeEntity`. -/
def removeEntity (w : World) (entityId : ℕ) : World :=
  ⟨w.entities.filter (fun e => e.id ≠ entityId), w.nextEntityId⟩

/-- `getEntity`. -/
def getEntity (w : World) (entityId : ℕ) : Option Entity :=
  w.entities.find? (fun e => e.id = entityId)

/-- Replace the stored entity with id `entityId` by `f` applied to it
(modelling in-place mutation of a component through an entity reference). -/
def modifyEntity (w : World) (entityId : ℕ) (f : Entity → Entity) : World :=
  ⟨w.entities.map (fun e => if e.id = entityId then f e else e), w.nextEntityId⟩

/-- `getEntitiesWithComponent`, as the id list of the matching entities in
insertion order. -/
def idsWith (w : World) (p : Entity → Bool) : List ℕ :=
  (w.entities.filter p).map (·.id)

/-- Ids of the entities that carry an `OrganismComponent`. -/
def organismIds (w : World) : List ℕ := w.idsWith (·.organism.isSome)

/-- Ids of the entities that carry a `FoodComponent`. -/
def foodIds (w : World) : List ℕ := w.idsWith (·.food.isSome)

/-- Ids of the entities that carry a `JointComponent`. -/
def jointEntityIds (w : World) : List ℕ := w.idsWith (·.joint.isSome)

/-- Number of organism entities. -/
def organismCount (w : World) : ℕ := (w.entities.filter (·.organism.isSome)).length

/-- Number of food entities. -/
def foodCount (w : World) : ℕ := (w.entities.filter (·.food.isSome)).length

/-- The empty world (`clear()` resets to this). -/
def empty : World := ⟨[], 1⟩

end World

/-! ## Constants (`src/simulation/constants.js`) -/

def CANVAS_WIDTH : ℚ := 800
def CANVAS_HEIGHT : ℚ := 500
def MIN_JOINT_COUNT : ℕ := 3
def MAX_JOINT_COUNT : ℕ := 8
def JOINT_RADIUS : ℚ := 5
def JOINT_REST_LENGTH : ℚ := 30
def JOINT_STIFFNESS : ℚ := 6/5
def JOINT_DAMPING : ℚ := 49/50
def FOOD_RADIUS : ℚ := 4
def EATING_DISTANCE : ℚ := 15
def FOOD_VALUE : ℚ := 10

/-! ## `EntityFactory` (`src/simulation/ecs/EntityFactory.js`)

`createOrganism` dispatches on the joint count: a triangle for `numJoints ≤ 3`,
a star for `4 ≤ numJoints ≤ 5`, a chain with branches for larger counts.
`connectJoints` records the connection and its rest length on both joints; its
reposition branch (`distance > maxRestLength * 1.5`) references `Vector2`,
which this file does not import, so reaching it throws a `ReferenceError` —
modelled as `none`. -/

namespace EntityFactory

/-- `createFood`. -/
def createFood (w : World) (x y : ℚ) : ℕ × World :=
  let (e, w1) := w.createEntity
  let e' : Entity := { e with
    position := some ⟨⟨x, y⟩⟩,
    food := some ⟨FOOD_RADIUS⟩,
    render := some ⟨"food", "#ffff00", FOOD_RADIUS⟩ }
  (e.id, w1.modifyEntity e.id (fun _ => e'))

/-- The entity `createFood` appends (for stating its reduction). -/
def foodEnt (n : ℕ) (x y : ℚ) : Entity :=
  { id := n,
    position := some ⟨⟨x, y⟩⟩,
    food := some ⟨FOOD_RADIUS⟩,
    render := some ⟨"food", "#ffff00", FOOD_RADIUS⟩ }

/-- `createJoint`. -/
def createJoint (w : World) (x y : ℚ) (organismId : ℕ) (isAnchored : Bool := false) :
    ℕ × World :=
  let (e, w1) := w.createEntity
  let e' : Entity := { e with
    position := some ⟨⟨x, y⟩⟩,
    velocity := some ⟨⟨0, 0⟩⟩,
    physics := some ⟨⟨0, 0⟩, 1, JOINT_STIFFNESS, JOINT_DAMPING⟩,
    joint := some ⟨organismId, isAnchored, [], [], JOINT_RADIUS, JOINT_REST_LENGTH⟩,
    render := some ⟨"joint", "#ffffff", JOINT_RADIUS⟩ }
  (e.id, w1.modifyEntity e.id (fun _ => e'))

/-- `connectJoints`: compute the rest length (the oracle distance clamped to
`[10, 50]`) and record the connection symmetrically.  The
`distance > 50 * 1.5` branch would throw (`Vector2` is not imported in this
file), hence `none`. -/
def connectJoints (env : MathEnv) (w : World) (aId bId : ℕ) : Option World := do
  let ea ← w.getEntity aId
  let eb ← w.getEntity bId
  let ja ← ea.joint
  let jb ← eb.joint
  let pa ← ea.position
  let pb ← eb.position
  let distance := Vec2.distanceTo env pa.position pb.position
  let restLength := max 10 (min 50 distance)
  if distance > 50 * (3/2) then
    none
  else
    let w1 := w.modifyEntity aId (fun e => { e with joint := some { ja with
      connections := ja.connections ++ [bId],
      restLengths := mapSet ja.restLengths bId restLength } })
    let w2 := w1.modifyEntity bId (fun e => { e with joint := some { jb with
      connections := jb.connections ++ [aId],
      restLengths := mapSet jb.restLengths aId restLength } })
    some w2

/-- `createTriangleStructure`: a centre joint plus two joints at angles
`0 · π` and `1 · π` on a circle of radius 25, connected pairwise. -/
def createTriangleStructure (env : MathEnv) (w : World) (x y : ℚ) (orgId : ℕ) :
    Option (List ℕ × World) := do
  let radius : ℚ := 25
  let (c, w1) := createJoint w x y orgId
  let (j1, w2) := createJoint w1 (x + env.cos ((0 / 2) * env.pi * 2) * radius)
      (y + env.sin ((0 / 2) * env.pi * 2) * radius) orgId
  let (j2, w3) := createJoint w2 (x + env.cos ((1 / 2) * env.pi * 2) * radius)
      (y + env.sin ((1 / 2) * env.pi * 2) * radius) orgId
  let w4 ← connectJoints env w3 c j1
  let w5 ← connectJoints env w4 j1 j2
  let w6 ← connectJoints env w5 j2 c
  some ([c, j1, j2], w6)

/-- `createStarStructure`: a centre joint plus `numJoints - 1` joints on a
circle of radius 25; the centre is connected to every outer joint, and outer
joint `i` to outer joint `(i % (len - 1)) + 1`. -/
def createStarStructure (env : MathEnv) (w : World) (x y : ℚ) (orgId : ℕ)
    (numJoints : ℕ) : Option (List ℕ × World) := do
  let radius : ℚ := 25
  let (c, w1) := createJoint w x y orgId
  let (ids, w2) := (List.range (numJoints - 1)).foldl
    (fun (acc : List ℕ × World) (i : ℕ) =>
      let angle : ℚ := ((i : ℚ) / ((numJoints : ℚ) - 1)) * env.pi * 2
      let (j, w') := createJoint acc.2 (x + env.cos angle * radius)
        (y + env.sin angle * radius) orgId
      (acc.1 ++ [j], w'))
    ([c], w1)
  let w3 ← (List.range' 1 (ids.length - 1)).foldlM
    (fun wAcc i => connectJoints env wAcc c (ids.getD i 0)) w2
  let w4 ← (List.range' 1 (ids.length - 1)).foldlM
    (fun wAcc i =>
      let nextIndex := (i % (ids.length - 1)) + 1
      connectJoints env wAcc (ids.getD i 0) (ids.getD nextIndex 0)) w3
  some (ids, w4)

/-- First branch loop of `createChainStructure`: branch upward off every other
backbone joint while joints remain to allocate. -/
def chainBranchLoop1 (env : MathEnv) (x y : ℚ) (orgId : ℕ) (spacing : ℚ)
    (chainLength : ℕ) : ℕ → ℕ → List ℕ → World → Option (List ℕ × World)
  | 0, _, ids, w => some (ids, w)
  | remaining + 1, branchIndex, ids, w =>
    if branchIndex < chainLength then do
      let baseJoint := ids.getD (branchIndex + 1) 0
      let (branchJoint, w1) := createJoint w (x + ((branchIndex : ℚ) + 1) * spacing)
        (y - spacing) orgId
      let w2 ← connectJoints env w1 baseJoint branchJoint
      chainBranchLoop1 env x y orgId spacing chainLength remaining (branchIndex + 2)
        (ids ++ [branchJoint]) w2
    else
      some (ids, w)

/-- Second branch loop of `createChainStructure`: stack second-level branches
20 units above their base joints until all joints are allocated.  The base
joint's position is read through the world (the JS code reads its
`PositionComponent` without a check; every joint this loop can reach was
created with a position, so the default is never exercised on the loop's
actual inputs). -/
def chainBranchLoop2 (env : MathEnv) (orgId : ℕ) (spacing : ℚ)
    (chainLength : ℕ) : ℕ → ℕ → List ℕ → World → Option (List ℕ × World)
  | 0, _, ids, w => some (ids, w)
  | remaining + 1, branchIndex, ids, w =>
    if branchIndex < ids.length - chainLength - 1 then do
      let baseJoint := ids.getD (chainLength + 1 + branchIndex) 0
      let basePos := (((w.getEntity baseJoint).bind (·.position)).map
        (·.position)).getD ⟨0, 0⟩
      let (branchJoint, w1) := createJoint w basePos.x (basePos.y - spacing) orgId
      let w2 ← connectJoints env w1 baseJoint branchJoint
      chainBranchLoop2 env orgId spacing chainLength remaining (branchIndex + 1)
        (ids ++ [branchJoint]) w2
    else
      some (ids, w)

/-- Backbone loop of `createChainStructure`. -/
def chainBackbone (env : MathEnv) (x y : ℚ) (orgId : ℕ) (spacing : ℚ) :
    ℕ → ℕ → ℕ → List ℕ → World → Option (List ℕ × World)
  | 0, _, _, ids, w => some (ids, w)
  | steps + 1, i, prevJoint, ids, w => do
    let (j, w1) := createJoint w (x + ((i : ℚ) + 1) * spacing) y orgId
    let w2 ← connectJoints env w1 prevJoint j
    chainBackbone env x y orgId spacing steps (i + 1) j (ids ++ [j]) w2

/-- `createChainStructure`: a backbone chain of up to 5 extra joints, then the
two branch loops. -/
def createChainStructure (env : MathEnv) (w : World) (x y : ℚ) (orgId : ℕ)
    (numJoints : ℕ) : Option (List ℕ × World) := do
  let chainLength := min 5 (numJoints - 1)
  let spacing : ℚ := 20
  let (firstJoint, w1) := createJoint w x y orgId
  let (ids, w2) ← chainBackbone env x y orgId spacing chainLength 0 firstJoint
    [firstJoint] w1
  let remaining := numJoints - ids.length
  let (ids3, w3) ← chainBranchLoop1 env x y orgId spacing chainLength remaining 0 ids w2
  let remaining2 := remaining - (ids3.length - ids.length)
  let (ids4, w4) ← chainBranchLoop2 env orgId spacing chainLength remaining2 0 ids3 w3
  some (ids4, w4)

/-- `createOrganism`: create the organism entity (organism, fitness and
genetic components), build the joint structure selected by `numJoints`, and
record the joint ids on the `OrganismComponent`.  The JS code pushes each
joint id as it is created and nothing reads `jointIds` during construction,
so recording the final list once is equivalent.  All callers in the modelled
flows pass a genetic component, so the `geneticComponent = null` default is
not modelled. -/
def createOrganism (env : MathEnv) (w : World) (x y : ℚ) (numJoints : ℕ)
    (genetics : GeneticComponent) : Option (ℕ × World) := do
  let (orgE, w1) := w.createEntity
  let orgId := orgE.id
  let w2 := w1.modifyEntity orgId (fun e => { e with
    organism := some ⟨[]⟩, fitness := some ⟨0, 0⟩, genetics := some genetics })
  let (ids, w3) ←
    if numJoints ≤ 3 then createTriangleStructure env w2 x y orgId
    else if numJoints ≤ 5 then createStarStructure env w2 x y orgId numJoints
    else createChainStructure env w2 x y orgId numJoints
  some (orgId, w3.modifyEntity orgId (fun e => { e with organism := some ⟨ids⟩ }))

end EntityFactory

/-! ## `FoodSystem` (`src/simulation/ecs/systems/FoodSystem.js`)

Per update: accumulate `deltaTime`; for each organism, award the survival
bonus when the accumulated time has crossed one second (the code resets the
accumulator inside the per-organism loop), then test every not-yet-eaten food
against every living joint of the organism and consume those within
`EATING_DISTANCE`; finally remove the eaten food entities and return their
count. -/

namespace FoodSystem

/-- The system's own state: the foods eaten in the last update and the
survival-bonus accumulator. -/
structure State where
  foodsEaten : ℕ
  accumulatedTime : ℚ
deriving DecidableEq, Repr

/-- The loop accumulator of one `update` call: the world (carrying the
fitness mutations), the time accumulator, the deferred-removal list and the
running eaten count. -/
structure Acc where
  w : World
  accTime : ℚ
  toRemove : List ℕ
  eaten : ℕ

/-- Is the joint entity `jid` alive and within `EATING_DISTANCE` of
`foodPos`?  (A missing joint entity is skipped, as in the JS `continue`;
a joint entity without a position would throw in JS and is read as
out-of-range here — the theorems' well-formedness hypotheses exclude it.) -/
def jointNear (env : MathEnv) (w : World) (foodPos : Vec2) (jid : ℕ) : Bool :=
  match w.getEntity jid with
  | none => false
  | some je =>
    match je.position with
    | none => false
    | some p => Vec2.distanceTo env p.position foodPos < EATING_DISTANCE

/-- Add `dv` to an organism's fitness and `de` to its eaten count (the JS
code mutates the fetched `FitnessComponent`; a missing component would throw
and is modelled from `⟨0, 0⟩` here — excluded by well-formedness). -/
def addFitness (w : World) (orgId : ℕ) (dv : ℚ) (de : ℕ) : World :=
  w.modifyEntity orgId (fun e => { e with fitness := some (
    match e.fitness with
    | some f => ⟨f.fitness + dv, f.foodEaten + de⟩
    | none => ⟨dv, de⟩) })

/-- One food test for one organism: skip if already marked, otherwise eat it
if any of the organism's joints is in range (the JS inner loop breaks after
the first such joint, so one food is credited at most once). -/
def foodStep (env : MathEnv) (jointIds : List ℕ) (orgId : ℕ) (acc : Acc)
    (f : ℕ × Vec2) : Acc :=
  if f.1 ∈ acc.toRemove then acc
  else if jointIds.any (fun jid => jointNear env acc.w f.2 jid) then
    { acc with
      w := addFitness acc.w orgId FOOD_VALUE 1,
      toRemove := acc.toRemove ++ [f.1],
      eaten := acc.eaten + 1 }
  else acc

/-- One organism's pass: the survival-bonus check (note the accumulator reset
happens inside this per-organism step, as in the source), then the food
loop. -/
def orgStep (env : MathEnv) (foods : List (ℕ × Vec2)) (acc : Acc) (orgId : ℕ) :
    Acc :=
  let acc1 :=
    if acc.accTime > 1 then
      { acc with w := addFitness acc.w orgId (1/10) 0, accTime := 0 }
    else acc
  let jointIds := (((acc1.w.getEntity orgId).bind (·.organism)).map (·.jointIds)).getD []
  foods.foldl (foodStep env jointIds orgId) acc1

/-- The food snapshot taken at the start of `update`: id and position of
every food entity (positions are not mutated during the update). -/
def foodSnapshot (w : World) : List (ℕ × Vec2) :=
  (w.entities.filter (·.food.isSome)).map
    (fun e => (e.id, ((e.position.map (·.position)).getD ⟨0, 0⟩)))

/-- The state of the loops after all organisms are processed. -/
def updateAcc (env : MathEnv) (dt : ℚ) (w : World) (st : State) : Acc :=
  (w.organismIds).foldl (orgStep env (foodSnapshot w))
    ⟨w, st.accumulatedTime + dt, [], 0⟩

/-- `FoodSystem.update`: returns the updated world, the updated system state
and the number of foods eaten. -/
def update (env : MathEnv) (dt : ℚ) (w : World) (st : State) :
    World × State × ℕ :=
  let acc := updateAcc env dt w st
  let w' := acc.toRemove.foldl World.removeEntity acc.w
  (w', ⟨acc.eaten, acc.accTime⟩, acc.eaten)

end FoodSystem

/-! ## `Gene` (`src/simulation/models/Gene.js`) -/

/-- The four-parameter gene of the model-layer organism. -/
structure Gene where
  sensorDistance : ℚ
  moveThreshold : ℚ
  anchorThreshold : ℚ
  anchorRatio : ℚ
deriving DecidableEq, Repr

/-- `Gene.mutate(rate)`: perturb each field by `(random() * 2 - 1)` scaled
per-field, then clamp to the documented ranges. -/
def Gene.mutate (g : Gene) (rate : ℚ) (r : Rng) : Gene × Rng :=
  let (q1, r1) := r.next
  let (q2, r2) := r1.next
  let (q3, r3) := r2.next
  let (q4, r4) := r3.next
  let ng : Gene := {
    sensorDistance := max 10 (min 200 (g.sensorDistance + (q1 * 2 - 1) * rate * 50)),
    moveThreshold := max (1/10) (min (9/10) (g.moveThreshold + (q2 * 2 - 1) * rate * (3/10))),
    anchorThreshold := max (1/10) (min (9/10) (g.anchorThreshold + (q3 * 2 - 1) * rate * (3/10))),
    anchorRatio := max (1/10) (min (7/10) (g.anchorRatio + (q4 * 2 - 1) * rate * (1/5))) }
  (ng, r4)

/-! ## The pattern-based `GeneticComponent`
(`src/simulation/ecs/components/GeneticComponent.js`)

Binary joint/limb patterns, a cycling speed and a body-plan seed.  `mutate`
flips pattern bits with probability `rate`, occasionally removes or inserts a
step, and perturbs-and-clamps the two numeric fields. -/

namespace PatternGenetics

/-- The pattern-based genetic component (pattern entries are JS numbers,
modelled as `ℤ`). -/
structure GeneticComponent where
  jointPatterns : List (List ℤ)
  limbPatterns : List (List ℤ)
  patternSpeed : ℚ
  bodyPlanSeed : ℚ
deriving DecidableEq, Repr

/-- `Math.floor` of a nonnegative rational, as a list index. -/
def floorIdx (q : ℚ) : ℕ := (⌊q⌋).toNat

/-- The bit-flip loop over one pattern: each entry is replaced by `1 - entry`
with probability `rate`. -/
def flipEntries (rate : ℚ) : List ℤ → Rng → List ℤ × Rng
  | [], r => ([], r)
  | e :: rest, r =>
    let (q, r1) := r.next
    let e' := if q < rate then 1 - e else e
    let (rest', r2) := flipEntries rate rest r1
    (e' :: rest', r2)

/-- The add/remove-a-step branch of the pattern mutation: with probability
`rate * 0.5`, either erase a random index (when a coin lands below one half
and the pattern is longer than 4) or insert a fresh random bit. -/
def splicePattern (rate : ℚ) (p : List ℤ) (r : Rng) : List ℤ × Rng :=
  let (q1, r1) := r.next
  if q1 < rate * (1/2) then
    let (q2, r2) := r1.next
    if q2 < 1/2 ∧ 4 < p.length then
      let (q3, r3) := r2.next
      (p.eraseIdx (floorIdx (q3 * p.length)), r3)
    else
      let (q3, r3) := r2.next
      let (q4, r4) := r3.next
      (p.insertIdx (floorIdx (q3 * p.length)) (if q4 < 1/2 then 0 else 1), r4)
  else (p, r1)

/-- Mutation across a pattern list: flip bits, then maybe splice, pattern by
pattern. -/
def mutatePatterns (rate : ℚ) : List (List ℤ) → Rng → List (List ℤ) × Rng
  | [], r => ([], r)
  | p :: ps, r =>
    let (p1, r1) := flipEntries rate p r
    let (p2, r2) := splicePattern rate p1 r1
    let (ps', r3) := mutatePatterns rate ps r2
    (p2 :: ps', r3)

/-- `GeneticComponent.mutate(rate)`: mutate both pattern families, then
perturb `patternSpeed` (clamped to `[0.2, 2.0]`) and `bodyPlanSeed` (clamped
to `[0, 1]`). -/
def GeneticComponent.mutate (g : GeneticComponent) (rate : ℚ) (r : Rng) :
    GeneticComponent × Rng :=
  let (jp, r1) := mutatePatterns rate g.jointPatterns r
  let (lp, r2) := mutatePatterns rate g.limbPatterns r1
  let (q1, r3) := r2.next
  let newPatternSpeed := max (1/5) (min 2 (g.patternSpeed + (q1 * 2 - 1) * rate))
  let (q2, r4) := r3.next
  let newBodyPlanSeed := max 0 (min 1 (g.bodyPlanSeed + (q2 * 2 - 1) * rate * (1/5)))
  (⟨jp, lp, newPatternSpeed, newBodyPlanSeed⟩, r4)

end PatternGenetics

/-! ## `StateSystem` (threshold-policy variant of
`src/simulation/ecs/systems/StateSystem.js`)

Per joint: find the closest food; if it is within `sensorDistance`, compare
the normalized distance against `anchorThreshold` and `moveThreshold`; anchor,
probabilistically anchor, or move (adding a weak `0.1`-scaled pull toward the
food in the middle branch); with no food in range, anchor exactly while the
organism's anchored ratio is below `anchorRatio`. -/

namespace StateSystem

/-- `Number.MAX_VALUE`, the initial closest-food distance. -/
def NUMBER_MAX_VALUE : ℚ := (2 ^ 53 - 1) * 2 ^ 971

/-- The closest-food fold: distance and position of the strictly nearest food
seen so far. -/
def closestFood (env : MathEnv) (pos : Vec2) (foods : List Vec2) :
    ℚ × Option Vec2 :=
  foods.foldl (fun (acc : ℚ × Option Vec2) fp =>
    let d := Vec2.distanceTo env pos fp
    if d < acc.1 then (d, some fp) else acc) (NUMBER_MAX_VALUE, none)

/-- Number of currently anchored joints among `jointIds`. -/
def anchoredCount (w : World) (jointIds : List ℕ) : ℕ :=
  (jointIds.filter (fun jid =>
    match (w.getEntity jid).bind (·.joint) with
    | some j => j.isAnchored
    | none => false)).length

/-- Write a joint's anchor flag. -/
def setAnchored (w : World) (jid : ℕ) (b : Bool) : World :=
  w.modifyEntity jid (fun e =>
    match e.joint with
    | some j => { e with joint := some { j with isAnchored := b } }
    | none => e)

/-- The move-toward-food outcome of the middle branch: unanchor and, when the
joint has a physics component, add the normalized food direction scaled by
`0.1` to its force. -/
def addFoodPull (env : MathEnv) (w : World) (jid : ℕ) (pos foodPos : Vec2) :
    World :=
  let w1 := setAnchored w jid false
  w1.modifyEntity jid (fun e =>
    match e.physics with
    | some ph => { e with physics := some { ph with
        force := ph.force.add ((Vec2.normalize env (Vec2.sub foodPos pos)).smul (1/10)) } }
    | none => e)

/-- Processing of one joint: the sensing, ratio computation and the
threshold policy.  Missing organism/genetic components are read with defaults
(the JS reads are unchecked; the theorems' hypotheses supply them). -/
def jointStep (env : MathEnv) (foods : List Vec2) (w : World) (r : Rng)
    (jid : ℕ) : World × Rng :=
  match w.getEntity jid with
  | none => (w, r)
  | some je =>
    match je.joint with
    | none => (w, r)
    | some joint =>
      let pos := (je.position.map (·.position)).getD ⟨0, 0⟩
      match w.getEntity joint.organismId with
      | none => (w, r)
      | some oe =>
        let organism := oe.organism.getD ⟨[]⟩
        let genetics := oe.genetics.getD ⟨0, 0, 0, 0, 0, 0, 0, 0⟩
        let (cd, cp) := closestFood env pos foods
        let ratio : ℚ := (anchoredCount w organism.jointIds : ℚ) /
          (organism.jointIds.length : ℚ)
        match cp with
        | some foodPos =>
          if cd < genetics.sensorDistance then
            let nd := cd / genetics.sensorDistance
            if nd < genetics.anchorThreshold then
              (setAnchored w jid true, r)
            else if nd < genetics.moveThreshold then
              if ratio < genetics.anchorRatio then
                let (q, r1) := r.next
                if q < 7/10 then (setAnchored w jid true, r1)
                else (addFoodPull env w jid pos foodPos, r1)
              else (addFoodPull env w jid pos foodPos, r)
            else
              (setAnchored w jid (decide (ratio < genetics.anchorRatio)), r)
          else
            (setAnchored w jid (decide (ratio < genetics.anchorRatio)), r)
        | none => (setAnchored w jid (decide (ratio < genetics.anchorRatio)), r)

/-- Food positions, snapshotted at the start of the update. -/
def foodPositions (w : World) : List Vec2 :=
  (w.entities.filter (·.food.isSome)).map
    (fun e => (e.position.map (·.position)).getD ⟨0, 0⟩)

/-- `StateSystem.update` (`deltaTime` is unused by this variant). -/
def update (env : MathEnv) (dt : ℚ) (w : World) (r : Rng) : World × Rng :=
  let _ := dt
  (w.jointEntityIds).foldl
    (fun acc jid => jointStep env (foodPositions w) acc.1 acc.2 jid) (w, r)

end StateSystem

/-! ## `PhysicsSystem` (`src/simulation/ecs/systems/PhysicsSystem.js`)

Semi-implicit Euler over every entity holding position, velocity and physics
components; anchored joints short-circuit to zero velocity and force.  The
finite-real fragment is modelled over `ℚ` (this variant has no non-finite
guard; the variant that does is modelled separately below). -/

namespace PhysicsSystem

/-- The non-anchored integration path: random jitter force, acceleration,
damping, the minimum- and maximum-speed adjustments, position update, and the
boundary bounce. -/
def integrateFree (env : MathEnv) (sd : ℚ) (e : Entity) (pc : PositionComponent)
    (vc : VelocityComponent) (ph : PhysicsComponent) (r : Rng) : Entity × Rng :=
  let (qa, r1) := r.next
  let (qb, r2) := r1.next
  let force1 := ph.force.add ⟨(qa * 2 - 1) * (1/5), (qb * 2 - 1) * (1/5)⟩
  let accel := force1.smul (1 / ph.mass)
  let v1 := vc.velocity.add (accel.smul (sd * (3/2)))
  let v2 := v1.smul ph.damping
  let currentSpeed := env.sqrt (v2.x * v2.x + v2.y * v2.y)
  let v3 := if currentSpeed < 1/100 ∧ currentSpeed > 0
    then v2.smul ((1/100) / currentSpeed) else v2
  let v4 := if currentSpeed > 8 then v3.smul (8 / currentSpeed) else v3
  let p1 := pc.position.add (v4.smul (sd * (6/5)))
  let xb := if p1.x < 0 then (0, v4.x * (-(4/5))) else (p1.x, v4.x)
  let xc := if xb.1 > CANVAS_WIDTH then (CANVAS_WIDTH, xb.2 * (-(4/5))) else xb
  let yb := if p1.y < 0 then (0, v4.y * (-(4/5))) else (p1.y, v4.y)
  let yc := if yb.1 > CANVAS_HEIGHT then (CANVAS_HEIGHT, yb.2 * (-(4/5))) else yb
  ({ e with
      position := some ⟨⟨xc.1, yc.1⟩⟩,
      velocity := some ⟨⟨xc.2, yc.2⟩⟩,
      physics := some { ph with force := ⟨0, 0⟩ } }, r2)

/-- Per-entity step: entities lacking any of the three components are left
untouched; anchored joints get zero velocity and force and skip
integration. -/
def integrate (env : MathEnv) (sd : ℚ) (e : Entity) (r : Rng) : Entity × Rng :=
  match e.position, e.velocity, e.physics with
  | some pc, some vc, some ph =>
    match e.joint with
    | some j =>
      if j.isAnchored then
        ({ e with velocity := some ⟨⟨0, 0⟩⟩,
                  physics := some { ph with force := ⟨0, 0⟩ } }, r)
      else integrateFree env sd e pc vc ph r
    | none => integrateFree env sd e pc vc ph r
  | _, _, _ => (e, r)

/-- The entity loop, threading the random stream in iteration order. -/
def runEntities (env : MathEnv) (sd : ℚ) : List Entity → Rng → List Entity × Rng
  | [], r => ([], r)
  | e :: es, r =>
    let (e', r1) := integrate env sd e r
    let (es', r2) := runEntities env sd es r1
    (e' :: es', r2)

/-- `PhysicsSystem.update`: clamp `deltaTime` up to the minimum `0.05`, then
integrate every entity. -/
def update (env : MathEnv) (dt : ℚ) (w : World) (r : Rng) : World × Rng :=
  let res := runEntities env (max dt (1/20)) w.entities r
  (⟨res.1, w.nextEntityId⟩, res.2)

end PhysicsSystem

/-! ## `EvolutionSystem` (`src/simulation/ecs/systems/EvolutionSystem.js`)

`createNextGeneration`: rank organisms by fitness, compute statistics, select
survivors (top 70 % in the first ten generations, top 50 % later, at least 2,
plus up to three random extras), mark all old organisms and joints for
removal, create one elite child of the best survivor at a fifth of the
mutation rate, fill the population by fitness-weighted parent selection and
mutated reproduction, then remove the marked entities and all food and create
the next generation's food. -/

namespace EvolutionSystem

/-- The externally set parameters plus the generation counter. -/
structure Params where
  foodAmount : ℕ
  populationSize : ℕ
  mutationRate : ℚ
  generationCount : ℕ
deriving DecidableEq, Repr

/-- Generation statistics (`averageFitness`/`avgJoints` are kept as exact
rationals; the JS `toFixed(1)` string formatting is presentation only). -/
structure Stats where
  bestFitness : ℚ
  averageFitness : ℚ
  minJoints : ℕ
  maxJoints : ℕ
  avgJoints : ℚ
deriving DecidableEq, Repr

/-- An organism's fitness, read through the world (the JS sort comparator
reads it unchecked; well-formedness hypotheses supply it). -/
def fitnessOfD (w : World) (i : ℕ) : ℚ :=
  (((w.getEntity i).bind (·.fitness)).map (·.fitness)).getD 0

/-- An organism's joint-id list, read through the world. -/
def jointIdsOfD (w : World) (i : ℕ) : List ℕ :=
  (((w.getEntity i).bind (·.organism)).map (·.jointIds)).getD []

/-- The fitness sort: descending, stable (as V8's `Array.prototype.sort`). -/
def sortByFitness (w : World) (ids : List ℕ) : List ℕ :=
  ids.mergeSort (fun a b => fitnessOfD w b ≤ fitnessOfD w a)

/-- `calculateStats` (on the empty list: all zeros). -/
def calculateStats (w : World) (orgIds : List ℕ) : Stats :=
  if orgIds.isEmpty then ⟨0, 0, 0, 0, 0⟩
  else
    let fits := orgIds.map (fitnessOfD w)
    let counts := orgIds.map (fun oid => (jointIdsOfD w oid).length)
    { bestFitness := fits.foldl max 0,
      averageFitness := fits.sum / (orgIds.length : ℚ),
      minJoints := counts.foldl min (counts.headD 0),
      maxJoints := counts.foldl max 0,
      avgJoints := ((counts.sum : ℚ)) / (orgIds.length : ℚ) }

/-- The diversity loop appending up to three random non-survivor organisms to
the survivor list. -/
def survivorExtras (sortedIds : List ℕ) (numSurvivors : ℕ) :
    ℕ → List ℕ → Rng → List ℕ × Rng
  | 0, survivors, r => (survivors, r)
  | k + 1, survivors, r =>
    let (q, r1) := r.next
    let randomIndex := numSurvivors +
      PatternGenetics.floorIdx (q * ((sortedIds.length - numSurvivors : ℕ) : ℚ))
    let survivors' :=
      if randomIndex < sortedIds.length ∧ sortedIds.getD randomIndex 0 ∉ survivors
      then survivors ++ [sortedIds.getD randomIndex 0] else survivors
    survivorExtras sortedIds numSurvivors k survivors' r1

/-- Ids marked for removal: every old organism and all of its joints,
collected before any child is created. -/
def removalIds (w : World) (orgIds : List ℕ) : List ℕ :=
  orgIds.foldl (fun acc oid => acc ++ jointIdsOfD w oid ++ [oid]) []

/-- The running-total walk of `selectParentWeighted`. -/
def weightedWalk (w : World) (sp : ℚ) : List ℕ → ℚ → Option ℕ
  | [], _ => none
  | oid :: rest, running =>
    let running' := running + max (1/10) (fitnessOfD w oid)
    if running' ≥ sp then some oid else weightedWalk w sp rest running'

/-- `selectParentWeighted`: fitness-proportional selection with a `0.1`
floor per organism; on an all-zero total, a uniformly random pick.  On an
empty list the JS indexing yields `undefined` — here `none`. -/
def selectParentWeighted (w : World) (organisms : List ℕ) (r : Rng) :
    Option ℕ × Rng :=
  let totalFitness := (organisms.map (fun oid => max (1/10) (fitnessOfD w oid))).sum
  if totalFitness ≤ 0 then
    let (q, r1) := r.next
    (organisms.get? (PatternGenetics.floorIdx (q * (organisms.length : ℚ))), r1)
  else
    let (q, r1) := r.next
    let sp := q * totalFitness
    (match weightedWalk w sp organisms 0 with
     | some oid => some oid
     | none => organisms.getLast?, r1)

/-- Modelled from the spec: the eight-field `GeneticComponent.mutate(rate)`
(the class file of the eight-parameter component is missing from the
snapshot; the spec says each numeric field is independently mutable).  Each
field is perturbed by `(random() * 2 - 1) * rate`; reproduction treats the
result opaquely, so none of the claims depends on its exact shape. -/
def mutate8 (g : GeneticComponent) (rate : ℚ) (r : Rng) :
    GeneticComponent × Rng :=
  let (q1, r1) := r.next
  let (q2, r2) := r1.next
  let (q3, r3) := r2.next
  let (q4, r4) := r3.next
  let (q5, r5) := r4.next
  let (q6, r6) := r5.next
  let (q7, r7) := r6.next
  let (q8, r8) := r7.next
  ({ sensorDistance := g.sensorDistance + (q1 * 2 - 1) * rate,
     moveThreshold := g.moveThreshold + (q2 * 2 - 1) * rate,
     anchorThreshold := g.anchorThreshold + (q3 * 2 - 1) * rate,
     anchorRatio := g.anchorRatio + (q4 * 2 - 1) * rate,
     movementMagnitude := g.movementMagnitude + (q5 * 2 - 1) * rate,
     movementFrequency := g.movementFrequency + (q6 * 2 - 1) * rate,
     movementBias := g.movementBias + (q7 * 2 - 1) * rate,
     rotationalForce := g.rotationalForce + (q8 * 2 - 1) * rate }, r8)

/-- `getOrganismPosition`: the mean position of the organism's living joints,
`(0, 0)` when none remain. -/
def getOrganismPosition (w : World) (oid : ℕ) : Vec2 :=
  let pts := (jointIdsOfD w oid).filterMap (fun jid =>
    (w.getEntity jid).map (fun e => (e.position.map (·.position)).getD ⟨0, 0⟩))
  if pts.length = 0 then ⟨0, 0⟩
  else ⟨(pts.map (·.x)).sum / (pts.length : ℚ), (pts.map (·.y)).sum / (pts.length : ℚ)⟩

/-- `reproduceOrganism`: offset-and-clamp a child position near the parent,
mutate the parent's genetics, occasionally mutate the joint count (clamped to
`[MIN_JOINT_COUNT, MAX_JOINT_COUNT]`), and build the child through the
factory.  A `none` parent models the `undefined` produced by selection over
an empty survivor list: the component read on it throws. -/
def reproduceOrganism (env : MathEnv) (w : World) (gen : ℕ) (parent : Option ℕ)
    (mutationRate : ℚ) (r : Rng) : Option (ℕ × World × Rng) := do
  let oid ← parent
  let ge ← (w.getEntity oid).bind (·.genetics)
  let position := getOrganismPosition w oid
  let (qx, r1) := r.next
  let (qy, r2) := r1.next
  let cx := max 10 (min (CANVAS_WIDTH - 10) (position.x + (qx * 40 - 20)))
  let cy := max 10 (min (CANVAS_HEIGHT - 10) (position.y + (qy * 40 - 20)))
  let (childGenetics, r3) := mutate8 ge mutationRate r2
  let baseCount := (jointIdsOfD w oid).length
  let jointMutationChance : ℚ := if gen ≤ 5 then 1/5 else 1/10
  let (qm, r4) := r3.next
  let (childJointCount, r5) :=
    if qm < jointMutationChance then
      let (qj, r6) := r4.next
      (((max (MIN_JOINT_COUNT : ℤ) (min (MAX_JOINT_COUNT : ℤ)
          ((baseCount : ℤ) + (PatternGenetics.floorIdx (qj * 3) : ℤ) - 1))).toNat), r6)
    else (baseCount, r4)
  let res ← EntityFactory.createOrganism env w cx cy childJointCount childGenetics
  some (res.1, res.2, r5)

/-- The population-fill loop: weighted parent selection then reproduction,
until `populationSize` children exist. -/
def fillLoop (env : MathEnv) (gen : ℕ) (rate : ℚ) (survivors : List ℕ) :
    ℕ → World → Rng → Option (World × Rng)
  | 0, w, r => some (w, r)
  | need + 1, w, r => do
    let (parent, r1) := selectParentWeighted w survivors r
    let (_, w', r2) ← reproduceOrganism env w gen parent rate r1
    fillLoop env gen rate survivors need w' r2

/-- `createFoodEntity`: one food at a random canvas position. -/
def createFoodEntity (w : World) (r : Rng) : World × Rng :=
  let (qx, r1) := r.next
  let (qy, r2) := r1.next
  ((EntityFactory.createFood w (qx * CANVAS_WIDTH) (qy * CANVAS_HEIGHT)).2, r2)

/-- `initializeFood`: `foodAmount` random foods. -/
def initializeFood : ℕ → World → Rng → World × Rng
  | 0, w, r => (w, r)
  | n + 1, w, r =>
    let (w', r') := createFoodEntity w r
    initializeFood n w' r'

/-- `createNextGeneration`. -/
def createNextGeneration (env : MathEnv) (p : Params) (w : World) (r : Rng) :
    Option (World × Params × Stats × Rng) := do
  let gen := p.generationCount + 1
  let orgIds := w.organismIds
  let sortedIds := sortByFitness w orgIds
  let stats := calculateStats w sortedIds
  let earlyGenerations := gen ≤ 10
  let len := sortedIds.length
  let numSurvivors := max 2 (if earlyGenerations then (7 * len) / 10 else len / 2)
  let survivors0 := sortedIds.take numSurvivors
  let (survivors, r1) :=
    if numSurvivors < len then
      survivorExtras sortedIds numSurvivors (min 3 (len / 10)) survivors0 r
    else (survivors0, r)
  let toRemove := removalIds w orgIds
  let elite ←
    match survivors with
    | [] => some (w, 0, r1)
    | best :: _ => do
      let (_, w', r') ← reproduceOrganism env w gen (some best) (p.mutationRate * (1/5)) r1
      some (w', 1, r')
  let adjustedRate := if earlyGenerations then p.mutationRate * (3/2) else p.mutationRate
  let (w2, r3) ← fillLoop env gen adjustedRate survivors
    (p.populationSize - elite.2.1) elite.1 elite.2.2
  let w3 := toRemove.foldl World.removeEntity w2
  let w4 := (w3.foodIds).foldl World.removeEntity w3
  let (w5, r4) := initializeFood p.foodAmount w4 r3
  some (w5, { p with generationCount := gen }, stats, r4)

end EvolutionSystem

/-! ## JavaScript numbers with special values

The chaotic `PhysicsSystem` variant exists to survive `NaN`/`Infinity`, so it
is modelled over a number type carrying them.  `JSNum` is a finite rational
or one of the three special values, with the IEEE-754 propagation rules JS
uses (`0 * Infinity = NaN`, comparisons with `NaN` are false, `Math.max`
propagates `NaN`, …).  Overflow of finite arithmetic to infinity is not
modelled; no conclusion below depends on it. -/

inductive JSNum where
  | fin : ℚ → JSNum
  | inf : JSNum
  | ninf : JSNum
  | nan : JSNum
deriving DecidableEq, Repr

namespace JSNum

def isNaN : JSNum → Bool
  | nan => true
  | _ => false

def isFinite : JSNum → Bool
  | fin _ => true
  | _ => false

def neg : JSNum → JSNum
  | fin q => fin (-q)
  | inf => ninf
  | ninf => inf
  | nan => nan

def add : JSNum → JSNum → JSNum
  | nan, _ => nan
  | _, nan => nan
  | fin a, fin b => fin (a + b)
  | fin _, inf => inf
  | fin _, ninf => ninf
  | inf, fin _ => inf
  | ninf, fin _ => ninf
  | inf, inf => inf
  | ninf, ninf => ninf
  | inf, ninf => nan
  | ninf, inf => nan

def sub (a b : JSNum) : JSNum := add a (neg b)

def mul : JSNum → JSNum → JSNum
  | nan, _ => nan
  | _, nan => nan
  | fin a, fin b => fin (a * b)
  | fin a, inf => if a > 0 then inf else if a < 0 then ninf else nan
  | fin a, ninf => if a > 0 then ninf else if a < 0 then inf else nan
  | inf, fin b => if b > 0 then inf else if b < 0 then ninf else nan
  | ninf, fin b => if b > 0 then ninf else if b < 0 then inf else nan
  | inf, inf => inf
  | ninf, ninf => inf
  | inf, ninf => ninf
  | ninf, inf => ninf

def div : JSNum → JSNum → JSNum
  | nan, _ => nan
  | _, nan => nan
  | fin a, fin b =>
    if b = 0 then (if a > 0 then inf else if a < 0 then ninf else nan)
    else fin (a / b)
  | fin _, inf => fin 0
  | fin _, ninf => fin 0
  | inf, fin b => if b ≥ 0 then inf else ninf
  | ninf, fin b => if b ≥ 0 then ninf else inf
  | inf, inf => nan
  | inf, ninf => nan
  | ninf, inf => nan
  | ninf, ninf => nan

/-- `Math.sqrt` over `JSNum`: negative finite arguments and `-Infinity` give
`NaN`; nonnegative finite arguments go through the oracle. -/
def sqrtJ (sq : ℚ → ℚ) : JSNum → JSNum
  | fin q => if q < 0 then nan else fin (sq q)
  | inf => inf
  | ninf => nan
  | nan => nan

def absJ : JSNum → JSNum
  | fin q => fin |q|
  | inf => inf
  | ninf => inf
  | nan => nan

/-- `<` (false whenever `NaN` is involved). -/
def lt : JSNum → JSNum → Bool
  | nan, _ => false
  | _, nan => false
  | fin a, fin b => a < b
  | fin _, inf => true
  | fin _, ninf => false
  | inf, fin _ => false
  | ninf, fin _ => true
  | inf, inf => false
  | ninf, ninf => false
  | inf, ninf => false
  | ninf, inf => true

/-- `≤` (false whenever `NaN` is involved). -/
def le : JSNum → JSNum → Bool
  | nan, _ => false
  | _, nan => false
  | fin a, fin b => a ≤ b
  | fin _, inf => true
  | fin _, ninf => false
  | inf, fin _ => false
  | ninf, fin _ => true
  | inf, inf => true
  | ninf, ninf => true
  | inf, ninf => false
  | ninf, inf => true

def gt (a b : JSNum) : Bool := lt b a

/-- `Math.max` (propagates `NaN`). -/
def maxJ (a b : JSNum) : JSNum :=
  if a.isNaN ∨ b.isNaN then nan else if lt a b then b else a

/-- `Math.min` (propagates `NaN`). -/
def minJ (a b : JSNum) : JSNum :=
  if a.isNaN ∨ b.isNaN then nan else if lt b a then b else a

end JSNum

/-! ## The chaotic `PhysicsSystem` variant (with the NaN safety check)

The per-entity pipeline of that file: per-entity chaos level bookkeeping,
random forces, random impulses, integration, random damping, occasional
velocity boosts, a velocity cap, position integration, the `NaN` reset
guard, hard position clamps, four bounce blocks and an occasional random
kick.  Only entities holding position, velocity and physics components are
processed; this view models exactly those entities (the others are left
untouched by the loop). -/

namespace ChaosPhysics

/-- Oracles for this model: `Math.sqrt` on nonnegative finite arguments, and
`Math.PI`. -/
structure Env where
  sq : ℚ → ℚ
  pi : ℚ

/-- A 2-D vector of JS numbers. -/
structure Vec2J where
  x : JSNum
  y : JSNum
deriving DecidableEq, Repr

def Vec2J.addJ (a b : Vec2J) : Vec2J := ⟨a.x.add b.x, a.y.add b.y⟩

def Vec2J.smulJ (a : Vec2J) (c : JSNum) : Vec2J := ⟨a.x.mul c, a.y.mul c⟩

/-- `Vector2.normalize` (no zero-length guard is visible in the snapshot; a
zero-length input produces `NaN` components, which the pipeline's own guard
then absorbs). -/
def Vec2J.normalizeJ (env : Env) (a : Vec2J) : Vec2J :=
  let len := JSNum.sqrtJ env.sq ((a.x.mul a.x).add (a.y.mul a.y))
  ⟨a.x.div len, a.y.div len⟩

/-- An entity as this system sees it: the three required components plus the
anchored-joint flag. -/
structure EntityP where
  id : ℕ
  pos : Vec2J
  vel : Vec2J
  force : Vec2J
  mass : JSNum
  anchoredJoint : Bool
deriving DecidableEq, Repr

/-- One entry of `entityChaosLevels` (`level` and `phase` are only ever
written from `Math.random()` arithmetic, hence finite and typed `ℚ`; the
timer absorbs `deltaTime` and stays a JS number). -/
structure ChaosData where
  level : ℚ
  timer : JSNum
  phase : ℚ
deriving DecidableEq, Repr

/-- Association-list read, as `Map.get`. -/
def alGet {α : Type} (m : List (ℕ × α)) (k : ℕ) : Option α :=
  (m.find? (fun p => p.1 = k)).map (·.2)

/-- Association-list write, as `Map.set`. -/
def alSet {α : Type} (m : List (ℕ × α)) (k : ℕ) (v : α) : List (ℕ × α) :=
  match m with
  | [] => [(k, v)]
  | (k', v') :: rest => if k' = k then (k, v) :: rest else (k', v') :: alSet rest k v

/-- The system's internal state: the two per-entity maps. -/
structure SysState where
  chaos : List (ℕ × ChaosData)
  impulses : List (ℕ × JSNum)
deriving DecidableEq, Repr

/-- The random-force tiers and the force accumulation. -/
def forceStage (level : ℚ) (force : Vec2J) (r : Rng) : Vec2J × Rng :=
  let (rf, r3) := r.next
  let (mag0, r4) :=
    if rf < 3/5 then let (q, ra) := r3.next; (q * 5, ra)
    else if rf < 17/20 then let (q, ra) := r3.next; (5 + q * 10, ra)
    else if rf < 19/20 then let (q, ra) := r3.next; (15 + q * 15, ra)
    else let (q, ra) := r3.next; (30 + q * 30, ra)
  let mag := mag0 * level
  let (qfx, r5) := r4.next
  let (qfy, r6) := r5.next
  (force.addJ ⟨.fin ((qfx * 2 - 1) * mag), .fin ((qfy * 2 - 1) * mag)⟩, r6)

/-- The impulse-timer bookkeeping and the occasional sudden impulse. -/
def impulseStage (env : Env) (dt : JSNum) (level : ℚ) (id : ℕ) (vel : Vec2J)
    (st : SysState) (r : Rng) : Vec2J × SysState × Rng :=
  let (it0, st3, r7) :=
    match alGet st.impulses id with
    | some t => (t, st, r)
    | none =>
      let (q, ra) := r.next
      (JSNum.fin q, { st with impulses := alSet st.impulses id (JSNum.fin q) }, ra)
  let it1 := it0.sub dt
  let (vel1, it2, r8) :=
    if it1.le (.fin 0) then
      let (qm, ra) := r7.next
      let impulseMagnitude := 15 + qm * 25 * level
      let (qdx, rb) := ra.next
      let (qdy, rc) := rb.next
      let dir := Vec2J.normalizeJ env ⟨.fin (qdx * 2 - 1), .fin (qdy * 2 - 1)⟩
      let (qt, rd) := rc.next
      (vel.addJ (dir.smulJ (.fin impulseMagnitude)), JSNum.fin (1/10 + qt * (19/10)), rd)
    else (vel, it1, r7)
  (vel1, { st3 with impulses := alSet st3.impulses id it2 }, r8)

/-- The random damping factor. -/
def dampStage (vel2 : Vec2J) (r : Rng) : Vec2J × Rng :=
  let (qd, r9) := r.next
  let (damping, r10) :=
    if qd < 4/5 then let (q, ra) := r9.next; (97/100 + q * (3/100), ra)
    else let (q, ra) := r9.next; (9/10 + q * (7/100), ra)
  (vel2.smulJ (.fin damping), r10)

/-- The occasional random velocity boost. -/
def boostStage (vel3 : Vec2J) (r : Rng) : Vec2J × Rng :=
  let (qb, r11) := r.next
  if qb < 2/25 then
    let (q1, ra) := r11.next
    let (q2, rb) := ra.next
    ((⟨vel3.x.mul (.fin (3/10 + q1 * (27/10))),
       vel3.y.mul (.fin (3/10 + q2 * (27/10)))⟩ : Vec2J), rb)
  else (vel3, r11)

/-- The velocity cap. -/
def capStage (env : Env) (level : ℚ) (vel4 : Vec2J) (r : Rng) : Vec2J × Rng :=
  let (qc, r13) := r.next
  let maxVelocity : ℚ := if qc < 9/10 then 30 * level else 60 * level
  let currentSpeed := JSNum.sqrtJ env.sq ((vel4.x.mul vel4.x).add (vel4.y.mul vel4.y))
  (if currentSpeed.gt (.fin maxVelocity)
    then vel4.smulJ ((JSNum.fin maxVelocity).div currentSpeed) else vel4, r13)

/-- Position integration and the `NaN` safety check. -/
def guardStage (pos vel5 : Vec2J) (dt : JSNum) (r : Rng) :
    Vec2J × Vec2J × Rng :=
  let pos1 := pos.addJ (vel5.smulJ dt)
  if pos1.x.isNaN ∨ pos1.y.isNaN then
    let (qx, ra) := r.next
    let (qy, rb) := ra.next
    ((⟨.fin (qx * 800), .fin (qy * 500)⟩ : Vec2J), (⟨.fin 0, .fin 0⟩ : Vec2J), rb)
  else (pos1, vel5, r)

/-- The left-edge bounce block. -/
def bounceXLow (px : JSNum) (vel : Vec2J) (r : Rng) :
    (JSNum × Vec2J) × Rng :=
  if px.le (.fin 10) then
    let (q1, ra) := r.next
    let vx1 := vel.x.mul (JSNum.neg (.fin (1/2 + q1 * (7/10))))
    let (q2, rb) := ra.next
    if q2 < 1/5 then
      let (q3, rc) := rb.next
      let (q4, rd) := rc.next
      (((JSNum.fin 10),
        (⟨(vx1.absJ).mul (.fin (1/2 + q3 * (1/2))),
          (JSNum.fin (q4 * 2 - 1)).mul vx1.absJ⟩ : Vec2J)), rd)
    else (((JSNum.fin 10), (⟨vx1, vel.y⟩ : Vec2J)), rb)
  else ((px, vel), r)

/-- The right-edge bounce block. -/
def bounceXHigh (px : JSNum) (vel : Vec2J) (r : Rng) :
    (JSNum × Vec2J) × Rng :=
  if JSNum.le (.fin 790) px then
    let (q1, ra) := r.next
    let vx1 := vel.x.mul (JSNum.neg (.fin (1/2 + q1 * (7/10))))
    let (q2, rb) := ra.next
    if q2 < 1/5 then
      let (q3, rc) := rb.next
      let (q4, rd) := rc.next
      (((JSNum.fin 790),
        (⟨JSNum.neg ((vx1.absJ).mul (.fin (1/2 + q3 * (1/2)))),
          (JSNum.fin (q4 * 2 - 1)).mul vx1.absJ⟩ : Vec2J)), rd)
    else (((JSNum.fin 790), (⟨vx1, vel.y⟩ : Vec2J)), rb)
  else ((px, vel), r)

/-- The top-edge bounce block. -/
def bounceYLow (py : JSNum) (vel : Vec2J) (r : Rng) :
    (JSNum × Vec2J) × Rng :=
  if py.le (.fin 10) then
    let (q1, ra) := r.next
    let vy1 := vel.y.mul (JSNum.neg (.fin (1/2 + q1 * (7/10))))
    let (q2, rb) := ra.next
    if q2 < 1/5 then
      let (q3, rc) := rb.next
      let (q4, rd) := rc.next
      (((JSNum.fin 10),
        (⟨(JSNum.fin (q4 * 2 - 1)).mul vy1.absJ,
          (vy1.absJ).mul (.fin (1/2 + q3 * (1/2)))⟩ : Vec2J)), rd)
    else (((JSNum.fin 10), (⟨vel.x, vy1⟩ : Vec2J)), rb)
  else ((py, vel), r)

/-- The bottom-edge bounce block. -/
def bounceYHigh (py : JSNum) (vel : Vec2J) (r : Rng) :
    (JSNum × Vec2J) × Rng :=
  if JSNum.le (.fin 490) py then
    let (q1, ra) := r.next
    let vy1 := vel.y.mul (JSNum.neg (.fin (1/2 + q1 * (7/10))))
    let (q2, rb) := ra.next
    if q2 < 1/5 then
      let (q3, rc) := rb.next
      let (q4, rd) := rc.next
      (((JSNum.fin 490),
        (⟨(JSNum.fin (q4 * 2 - 1)).mul vy1.absJ,
          JSNum.neg ((vy1.absJ).mul (.fin (1/2 + q3 * (1/2))))⟩ : Vec2J)), rd)
    else (((JSNum.fin 490), (⟨vel.x, vy1⟩ : Vec2J)), rb)
  else ((py, vel), r)

/-- The occasional random teleportation kick. -/
def kickStage (level : ℚ) (vel : Vec2J) (r : Rng) : Vec2J × Rng :=
  let (qk, r19) := r.next
  if qk < 1/50 then
    let (q1, ra) := r19.next
    let (q2, rb) := ra.next
    ((⟨.fin ((q1 * 2 - 1) * 50 * level), .fin ((q2 * 2 - 1) * 50 * level)⟩ : Vec2J), rb)
  else (vel, r19)

/-- The non-anchored part of the pipeline, from the random-force block to the
final force reset.  `level` is the entity's current chaos level. -/
def stepFree (env : Env) (dt : JSNum) (level : ℚ) (e : EntityP)
    (st : SysState) (r : Rng) : EntityP × SysState × Rng :=
  let (force1, r6) := forceStage level e.force r
  let (vel1, st4, r8) := impulseStage env dt level e.id e.vel st r6
  let invMass := (JSNum.fin 1).div e.mass
  let accel := force1.smulJ invMass
  let vel2 := vel1.addJ (accel.smulJ dt)
  let (vel3, r10) := dampStage vel2 r8
  let (vel4, r12) := boostStage vel3 r10
  let (vel5, r13) := capStage env level vel4 r12
  let (pos2, vel6, r14) := guardStage e.pos vel5 dt r13
  let px1 := JSNum.maxJ (.fin 10) (JSNum.minJ (.fin 790) pos2.x)
  let py1 := JSNum.maxJ (.fin 10) (JSNum.minJ (.fin 490) pos2.y)
  let (bx, r15) := bounceXLow px1 vel6 r14
  let (bx2, r16) := bounceXHigh bx.1 bx.2 r15
  let (by1, r17) := bounceYLow py1 bx2.2 r16
  let (by2, r18) := bounceYHigh by1.1 by1.2 r17
  let (velF, r20) := kickStage level by2.2 r18
  ({ e with pos := ⟨bx2.1, by2.1⟩, vel := velF, force := ⟨.fin 0, .fin 0⟩ }, st4, r20)

/-- One entity's full step: the chaos-level bookkeeping, then either the
anchored short-circuit or the free pipeline. -/
def stepEntity (env : Env) (dt : JSNum) (e : EntityP) (st : SysState) (r : Rng) :
    EntityP × SysState × Rng :=
  let (cd0, st1, r1) :=
    match alGet st.chaos e.id with
    | some cd => (cd, st, r)
    | none =>
      let (q1, ra) := r.next
      let (q2, rb) := ra.next
      let (q3, rc) := rb.next
      let cd : ChaosData := ⟨1/2 + q1 * (3/2), JSNum.fin (q2 * 3), q3 * env.pi * 2⟩
      (cd, { st with chaos := alSet st.chaos e.id cd }, rc)
  let timer1 := cd0.timer.sub dt
  let (cd1, r2) :=
    if timer1.le (.fin 0) then
      let (q1, ra) := r1.next
      let (q2, rb) := ra.next
      ((⟨1/2 + q1 * (5/2),
         (JSNum.fin (1/2 + q2 * (5/2))).add (JSNum.fin (((e.id % 10 : ℕ) : ℚ) * (1/10))),
         cd0.phase⟩ : ChaosData), rb)
    else ({ cd0 with timer := timer1 }, r1)
  let st2 := { st1 with chaos := alSet st1.chaos e.id cd1 }
  if e.anchoredJoint then
    ({ e with vel := ⟨.fin 0, .fin 0⟩, force := ⟨.fin 0, .fin 0⟩ }, st2, r2)
  else
    stepFree env dt cd1.level e st2 r2

/-- The entity loop of one update. -/
def runEntitiesP (env : Env) (dt : JSNum) :
    List EntityP → SysState → Rng → List EntityP × SysState × Rng
  | [], st, r => ([], st, r)
  | e :: es, st, r =>
    let (e', st1, r1) := stepEntity env dt e st r
    let (es', st2, r2) := runEntitiesP env dt es st1 r1
    (e' :: es', st2, r2)

end ChaosPhysics

/-! ## Concrete instances used by witnesses and counterexamples -/

/-- An oracle environment whose `sqrt` is the identity (so `sqrt 0 = 0`). -/
def envId : MathEnv := ⟨id, fun _ => 1, fun _ => 0, 3⟩

/-- A constant-zero random stream at cursor 0. -/
def rng0 : Rng := ⟨fun _ => 0, 0⟩

/-- A constant one-half random stream at cursor 0. -/
def rngHalf : Rng := ⟨fun _ => 1/2, 0⟩

/-- The anchored joint entity of the C9 witness. -/
def c9e : Entity :=
  { id := 1,
    position := some ⟨⟨7, 8⟩⟩,
    velocity := some ⟨⟨3, 4⟩⟩,
    physics := some ⟨⟨100, -200⟩, 1, JOINT_STIFFNESS, JOINT_DAMPING⟩,
    joint := some ⟨2, true, [], [], JOINT_RADIUS, JOINT_REST_LENGTH⟩ }

/-- The one-entity world of the C9 witness. -/
def c9w : World := ⟨[c9e], 2⟩

/-- The projection of an entity that the state decision reads: organism
component, genetics and position (the state system only ever writes anchor
flags and forces). -/
def stateReads (e : Entity) : Option OrganismComponent × Option GeneticComponent × Option PositionComponent :=
  (e.organism, e.genetics, e.position)

/-- Oracle environment of the C8 instance: the only distance ever taken is
`sqrt 900 = 30`. -/
def envC8 : MathEnv := ⟨fun _ => 30, fun _ => 1, fun _ => 0, 3⟩

/-- C8 instance: the organism entity (`sensorDistance 100`,
`moveThreshold 0.7`, `anchorThreshold 0.5`, `anchorRatio 0.3`). -/
def c8org : Entity :=
  { id := 1, organism := some ⟨[2]⟩,
    genetics := some ⟨100, 7/10, 1/2, 3/10, 0, 0, 0, 0⟩ }

/-- The C8 joint component before the update. -/
def c8jc : JointComponent := ⟨1, false, [], [], JOINT_RADIUS, JOINT_REST_LENGTH⟩

/-- C8 instance: the joint at the origin with zero accumulated force. -/
def c8joint : Entity :=
  { id := 2,
    position := some ⟨⟨0, 0⟩⟩,
    velocity := some ⟨⟨0, 0⟩⟩,
    physics := some ⟨⟨0, 0⟩, 1, JOINT_STIFFNESS, JOINT_DAMPING⟩,
    joint := some c8jc }

/-- C8 instance: the food at `(30, 0)`. -/
def c8food : Entity :=
  { id := 3, position := some ⟨⟨30, 0⟩⟩, food := some ⟨FOOD_RADIUS⟩ }

/-- C8 instance: one organism with one joint, one food at distance 30 —
within sensor range, normalized distance `0.3 < anchorThreshold = 0.5`. -/
def c8w : World := ⟨[c8org, c8joint, c8food], 4⟩

/-- C8 counterexample instance: the same organism but with a nonzero
`movementBias` of `1/2`, so the claimed bias-scaled pull would be nonzero
here if it existed. -/
def c8orgB : Entity :=
  { id := 1, organism := some ⟨[2]⟩,
    genetics := some ⟨100, 7/10, 1/2, 3/10, 0, 0, 1/2, 0⟩ }

/-- C8 counterexample world: as `c8w` but with the nonzero-bias organism. -/
def c8wB : World := ⟨[c8orgB, c8joint, c8food], 4⟩

/-- C6 failing input: first organism (zero fitness, no joints). -/
def c6o1 : Entity := { id := 1, organism := some ⟨[]⟩, fitness := some ⟨0, 0⟩ }

/-- C6 failing input: second organism (zero fitness, no joints). -/
def c6o2 : Entity := { id := 2, organism := some ⟨[]⟩, fitness := some ⟨0, 0⟩ }

/-- C6 failing input: two organisms, no food, survival-bonus accumulator
about to cross one second. -/
def c6w : World := ⟨[c6o1, c6o2], 3⟩

/-- Entity relation: `b` agrees with `a` on every field except the fitness
component (what one `FoodSystem.update` may change about a surviving
entity). -/
def fitnessOnly (a b : Entity) : Prop :=
  b.id = a.id ∧ b.position = a.position ∧ b.velocity = a.velocity ∧
  b.physics = a.physics ∧ b.joint = a.joint ∧ b.organism = a.organism ∧
  b.genetics = a.genetics ∧ b.food = a.food ∧ b.render = a.render

/-- Does some living joint among `js` lie within eating range of `fpos`? -/
def orgEats (env : MathEnv) (w : World) (js : List ℕ) (fpos : Vec2) : Bool :=
  js.any (fun jid => FoodSystem.jointNear env w fpos jid)

/-- Is the food at `fpos` within eating range of some organism of `w`?  (The
food-consumption claim's antecedent.) -/
def eatenPred (env : MathEnv) (w : World) (fpos : Vec2) : Bool :=
  (w.organismIds).any (fun oid => orgEats env w (EvolutionSystem.jointIdsOfD w oid) fpos)

/-- An organism's eaten-food count, read through the world. -/
def foodEatenOfD (w : World) (i : ℕ) : ℕ :=
  (((w.getEntity i).bind (·.fitness)).map (·.foodEaten)).getD 0

/-- C2 counterexample input: a world with zero organism entities. -/
def c2w : World := ⟨[], 1⟩

/-- C2 counterexample parameters: `populationSize = 1`. -/
def c2p : EvolutionSystem.Params := ⟨0, 1, 1/10, 0⟩

/-- C3 witness organism: id 1, one joint (id 2), zero ledger. -/
def c3org : Entity := { id := 1, organism := some ⟨[2]⟩, fitness := some ⟨0, 0⟩ }

/-- C3 witness joint entity at the origin. -/
def c3joint : Entity := { id := 2, position := some ⟨⟨0, 0⟩⟩ }

/-- C3 witness food entity at the origin. -/
def c3food : Entity := { id := 3, position := some ⟨⟨0, 0⟩⟩, food := some ⟨3⟩ }

/-- C3 witness world: the spec's scenario (one organism with a joint at
`(0, 0)`, one food at `(0, 0)`). -/
def c3w : World := ⟨[c3org, c3joint, c3food], 4⟩

/-- The entity `createJoint` stores: a joint with empty connection data at
the given position. -/
def jointEntity (i : ℕ) (x y : ℚ) (organismId : ℕ) (isAnchored : Bool) :
    Entity :=
  { id := i,
    position := some ⟨⟨x, y⟩⟩,
    velocity := some ⟨⟨0, 0⟩⟩,
    physics := some ⟨⟨0, 0⟩, 1, JOINT_STIFFNESS, JOINT_DAMPING⟩,
    joint := some ⟨organismId, isAnchored, [], [], JOINT_RADIUS,
      JOINT_REST_LENGTH⟩,
    render := some ⟨"joint", "#ffffff", JOINT_RADIUS⟩ }

/-- Two entities that agree on everything except (possibly) the joint
component. -/
def jointOnly (a b : Entity) : Prop :=
  b.id = a.id ∧ b.position = a.position ∧ b.velocity = a.velocity ∧
  b.physics = a.physics ∧ b.organism = a.organism ∧ b.fitness = a.fitness ∧
  b.genetics = a.genetics ∧ b.food = a.food ∧ b.render = a.render

/-- Joint entity `a` lists `b` among its connections. -/
def connectedIn (w : World) (a b : ℕ) : Prop :=
  ∃ e ∈ w.entities, e.id = a ∧ ∃ j, e.joint = some j ∧ b ∈ j.connections

/-- The undirected joint graph of a world. -/
def adjIn (w : World) (a b : ℕ) : Prop := connectedIn w a b ∨ connectedIn w b a

/-- Reachability in the joint graph. -/
def reachIn (w : World) : ℕ → ℕ → Prop := Relation.ReflTransGen (adjIn w)

/-- The rest length joint `a` records for joint `b`. -/
def restOf (w : World) (a b : ℕ) : Option ℚ :=
  ((w.getEntity a).bind (·.joint)).bind (fun j => mapGet j.restLengths b)

/-- Entity ids are duplicate-free and below the allocator. -/
def wfIds (w : World) : Prop :=
  (w.entities.map (·.id)).Nodup ∧ ∀ e ∈ w.entities, e.id < w.nextEntityId

/-- Every recorded connection id is below the allocator. -/
def connBounded (w : World) : Prop :=
  ∀ e ∈ w.entities, ∀ j, e.joint = some j → ∀ c ∈ j.connections,
    c < w.nextEntityId

/-- Claim C4's invariant: `connections` and `restLengths` are symmetric.  If
joint `a` lists `b` then joint `b` lists `a`, and both record the same rest
length for each other. -/
def symWorld (w : World) : Prop :=
  ∀ a ∈ w.entities, ∀ ja, a.joint = some ja →
    ∀ b ∈ w.entities, ∀ jb, b.joint = some jb →
      ((b.id ∈ ja.connections ↔ a.id ∈ jb.connections) ∧
        (b.id ∈ ja.connections →
          mapGet ja.restLengths b.id = mapGet jb.restLengths a.id))

/-- The well-formedness the factory preserves. -/
def wfWorld (w : World) : Prop := wfIds w ∧ connBounded w ∧ symWorld w

/-- The bounds the real `Math` oracles satisfy on the factory's inputs:
`sqrt` maps `[0, 5625]` into `[0, 75]` and `cos`/`sin` stay in `[-1, 1]`.
Under them no `connectJoints` call reaches the crashing reposition branch. -/
def envBounds (env : MathEnv) : Prop :=
  (∀ q : ℚ, 0 ≤ q → q ≤ 5625 → 0 ≤ env.sqrt q ∧ env.sqrt q ≤ 75) ∧
  (∀ q : ℚ, |env.cos q| ≤ 1) ∧ (∀ q : ℚ, |env.sin q| ≤ 1)

/-- A bounded oracle environment for the factory witnesses: `sqrt` is
constantly 25, `cos` constantly 1, `sin` constantly 0. -/
def c4env : MathEnv := ⟨fun _ => 25, fun _ => 1, fun _ => 0, 3⟩

/-- A one-organism world for the generation-turnover witness: a single
organism entity with genetics and no joints yet. -/
def c1org : Entity :=
  { id := 0,
    organism := some ⟨[]⟩,
    fitness := some ⟨0, 0⟩,
    genetics := some ⟨100, 1/2, 1/5, 1/2, 1, 1, 0, 0⟩ }

/-- The witness world holding just `c1org`. -/
def c1w : World := ⟨[c1org], 1⟩

/-- Witness parameters: no food, population one, generation zero. -/
def c1p : EvolutionSystem.Params := ⟨0, 1, 1/10, 0⟩

/-- A constant random stream for the witness. -/
def c1r : Rng := ⟨fun _ => 1/2, 0⟩

/-- A chaotic-physics oracle environment: identity `sqrt`, `pi := 3`. -/
def c7env : ChaosPhysics.Env := ⟨id, 3⟩

/-- A free entity whose position is already `NaN`, exercising the guard. -/
def c7ent : ChaosPhysics.EntityP :=
  ⟨0, ⟨JSNum.nan, JSNum.fin 0⟩, ⟨JSNum.fin 0, JSNum.fin 0⟩,
   ⟨JSNum.fin 0, JSNum.fin 0⟩, JSNum.fin 1, false⟩

/-- The clamped rest length `connectJoints` computes. -/
def connClamp (env : MathEnv) (pa pb : Vec2) : ℚ :=
  max 10 (min 50 (Vec2.distanceTo env pa pb))

/-- The update `connectJoints` applies to one of the two joints. -/
def connUpd (other : ℕ) (rl : ℚ) (j : JointComponent) : JointComponent :=
  { j with
    connections := j.connections ++ [other],
    restLengths := mapSet j.restLengths other rl }

/-- An entity's recorded position, read through the world. -/
def posOf (w : World) (i : ℕ) : Option Vec2 :=
  ((w.getEntity i).bind (·.position)).map (·.position)

/-- Id `i` resolves to an entity with both a joint and a position. -/
def jointNode (w : World) (i : ℕ) : Prop :=
  ∃ e, w.getEntity i = some e ∧ (∃ j, e.joint = some j) ∧
    ∃ p, e.position = some p

/-- The factory-builder invariant over the base world `w0`: `m` fresh joint
entities were added (ids `lo, …, lo + m - 1`), each a joint node whose
position lies in the 25-box of `(x, y)`, with everything of `w0` intact and
no organism or food component added. -/
def starInv (w0 : World) (x y : ℚ) (lo m : ℕ) (w : World) : Prop :=
  wfWorld w ∧ w.nextEntityId = lo + m ∧
  (∀ i e, w0.getEntity i = some e → w.getEntity i = some e) ∧
  (∀ i, lo ≤ i → i < lo + m → jointNode w i ∧
    ∃ p, posOf w i = some p ∧ |p.x - x| ≤ 25 ∧ |p.y - y| ≤ 25) ∧
  w.entities.map (·.organism) =
    w0.entities.map (·.organism) ++ List.replicate m none ∧
  w.entities.map (·.food) =
    w0.entities.map (·.food) ++ List.replicate m none

/-- The organism entity as `createOrganism` first builds it (empty joint
list; the final list is written at the end of the call). -/
def orgEntity (i : ℕ) (g : GeneticComponent) : Entity :=
  { id := i, organism := some ⟨[]⟩, fitness := some ⟨0, 0⟩,
    genetics := some g }

/-- The chain-builder invariant: like `starInv` but without the position
box (the chain spreads out; each connect call is between points exactly 20
apart). -/
def chainInv (w0 : World) (lo m : ℕ) (w : World) : Prop :=
  wfWorld w ∧ w.nextEntityId = lo + m ∧
  (∀ i e, w0.getEntity i = some e → w.getEntity i = some e) ∧
  (∀ i, lo ≤ i → i < lo + m → jointNode w i) ∧
  w.entities.map (·.organism) =
    w0.entities.map (·.organism) ++ List.replicate m none ∧
  w.entities.map (·.food) =
    w0.entities.map (·.food) ++ List.replicate m none

/-- The entity-wise effect of one `connectJoints` call (for `a ≠ b`). -/
def connMap (a b : ℕ) (rl : ℚ) (ja jb : JointComponent) (e : Entity) :
    Entity :=
  if e.id = b then { e with joint := some (connUpd a rl jb) }
  else if e.id = a then { e with joint := some (connUpd b rl ja) }
  else e

/-- The foods an organism's food loop newly marks, given the marks already
made: not yet marked and within range of one of its joints. -/
def newlyEaten (env : MathEnv) (W : World) (jointIds : List ℕ)
    (toRemove : List ℕ) (foods : List (ℕ × Vec2)) : List (ℕ × Vec2) :=
  foods.filter (fun f => decide (f.1 ∉ toRemove) && orgEats env W jointIds f.2)

/-! ## Theorems -/

/-! ### World lemmas -/

/-- List form of `getEntity_modifyEntity_ne`. -/
theorem find?_map_id_ne (f : Entity → Entity) (hf : ∀ e, (f e).id = e.id)
    (i jid : ℕ) (hne : jid ≠ i) :
    ∀ l : List Entity,
      (l.map (fun e => if e.id = i then f e else e)).find? (fun e => e.id = jid)
        = l.find? (fun e => e.id = jid)
  | [] => rfl
  | a :: rest => by
    have hid : (if a.id = i then f a else a).id = a.id := by
      split
      · exact hf a
      · rfl
    by_cases haj : a.id = jid
    · have h1 : a.id ≠ i := by omega
      rw [List.map_cons, if_neg h1,
        List.find?_cons_of_pos _ (by simpa using haj),
        List.find?_cons_of_pos _ (by simpa using haj)]
    · rw [List.map_cons,
        List.find?_cons_of_neg _ (by simpa using fun h => haj (hid ▸ h)),
        List.find?_cons_of_neg _ (by simpa using haj)]
      exact find?_map_id_ne f hf i jid hne rest

/-- List form of `getEntity_modifyEntity_eq`. -/
theorem find?_map_id_eq (f : Entity → Entity) (hf : ∀ e, (f e).id = e.id)
    (i : ℕ) :
    ∀ l : List Entity,
      (l.map (fun e => if e.id = i then f e else e)).find? (fun e => e.id = i)
        = (l.find? (fun e => e.id = i)).map f
  | [] => rfl
  | a :: rest => by
    have hid : (if a.id = i then f a else a).id = a.id := by
      split
      · exact hf a
      · rfl
    by_cases hai : a.id = i
    · rw [List.map_cons, List.find?_cons_of_pos _ (by simpa [hid] using hai),
        List.find?_cons_of_pos _ (by simpa using hai), if_pos hai]
      simp
    · rw [List.map_cons, List.find?_cons_of_neg _ (by simpa [hid] using hai),
        List.find?_cons_of_neg _ (by simpa using hai)]
      exact find?_map_id_eq f hf i rest

/-- `modifyEntity` with an id-preserving function leaves every other entity's
lookup unchanged. -/
theorem getEntity_modifyEntity_ne (w : World) (i jid : ℕ) (f : Entity → Entity)
    (hf : ∀ e, (f e).id = e.id) (hne : jid ≠ i) :
    (w.modifyEntity i f).getEntity jid = w.getEntity jid :=
  find?_map_id_ne f hf i jid hne w.entities

/-- `modifyEntity` with an id-preserving function maps the target's lookup. -/
theorem getEntity_modifyEntity_eq (w : World) (i : ℕ) (f : Entity → Entity)
    (hf : ∀ e, (f e).id = e.id) :
    (w.modifyEntity i f).getEntity i = (w.getEntity i).map f :=
  find?_map_id_eq f hf i w.entities

/-! ### StateSystem lemmas (C8) -/

/-- The projection of an entity that the state decision reads: organism
component, genetics and position. -/
theorem setAnchored_getEntity_ne (w : World) (i : ℕ) (b : Bool) (jid : ℕ)
    (hne : jid ≠ i) :
    (StateSystem.setAnchored w i b).getEntity jid = w.getEntity jid :=
  getEntity_modifyEntity_ne w i jid _ (fun e => by cases e.joint <;> rfl) hne

theorem addFoodPull_getEntity_ne (env : MathEnv) (w : World) (i : ℕ)
    (pos fp : Vec2) (jid : ℕ) (hne : jid ≠ i) :
    (StateSystem.addFoodPull env w i pos fp).getEntity jid = w.getEntity jid := by
  unfold StateSystem.addFoodPull
  rw [getEntity_modifyEntity_ne _ i jid _ (fun e => by cases e.physics <;> rfl) hne]
  exact setAnchored_getEntity_ne w i false jid hne

/-- Processing one joint never touches another entity's lookup. -/
theorem jointStep_getEntity_ne (env : MathEnv) (foods : List Vec2) (w : World)
    (r : Rng) (kid jid : ℕ) (hne : jid ≠ kid) :
    (StateSystem.jointStep env foods w r kid).1.getEntity jid =
      w.getEntity jid := by
  unfold StateSystem.jointStep
  split
  · rfl
  · split
    · rfl
    · try dsimp only
      split
      · rfl
      · try dsimp only
        split
        · split_ifs <;>
            first
              | exact setAnchored_getEntity_ne w kid _ jid hne
              | exact addFoodPull_getEntity_ne env w kid _ _ jid hne
              | (try dsimp only
                 split_ifs <;>
                  first
                    | exact setAnchored_getEntity_ne w kid _ jid hne
                    | exact addFoodPull_getEntity_ne env w kid _ _ jid hne)
        · exact setAnchored_getEntity_ne w kid _ jid hne

/-- Anchor writes never change what the state decision reads. -/
theorem setAnchored_preserves_stateReads (w : World) (i : ℕ) (b : Bool) (jid : ℕ) :
    ((StateSystem.setAnchored w i b).getEntity jid).map stateReads =
      (w.getEntity jid).map stateReads := by
  by_cases h : jid = i
  · subst h
    rw [StateSystem.setAnchored,
      getEntity_modifyEntity_eq _ _ _ (fun e => by cases e.joint <;> rfl),
      Option.map_map]
    have h2 : (stateReads ∘ fun e : Entity =>
        match e.joint with
        | some j => { e with joint := some { j with isAnchored := b } }
        | none => e) = stateReads :=
      funext (fun e => by
        simp only [Function.comp_apply]
        cases e.joint <;> rfl)
    rw [h2]
  · rw [setAnchored_getEntity_ne w i b jid h]

/-- Food pulls never change what the state decision reads. -/
theorem addFoodPull_preserves_stateReads (env : MathEnv) (w : World) (i : ℕ)
    (pos fp : Vec2) (jid : ℕ) :
    ((StateSystem.addFoodPull env w i pos fp).getEntity jid).map stateReads =
      (w.getEntity jid).map stateReads := by
  unfold StateSystem.addFoodPull
  by_cases h : jid = i
  · subst h
    rw [getEntity_modifyEntity_eq _ _ _ (fun e => by cases e.physics <;> rfl),
      Option.map_map]
    have h2 : (stateReads ∘ fun e : Entity =>
        match e.physics with
        | some ph => { e with physics := some { ph with
            force := ph.force.add ((Vec2.normalize env (Vec2.sub fp pos)).smul (1/10)) } }
        | none => e) = stateReads :=
      funext (fun e => by
        simp only [Function.comp_apply]
        cases e.physics <;> rfl)
    rw [h2]
    exact setAnchored_preserves_stateReads w jid false jid
  · rw [getEntity_modifyEntity_ne _ i jid _ (fun e => by cases e.physics <;> rfl) h]
    exact setAnchored_preserves_stateReads w i false jid

/-- One joint step never changes what the state decision reads, for any
entity. -/
theorem jointStep_preserves_stateReads (env : MathEnv) (foods : List Vec2)
    (w : World) (r : Rng) (kid jid : ℕ) :
    ((StateSystem.jointStep env foods w r kid).1.getEntity jid).map stateReads =
      (w.getEntity jid).map stateReads := by
  unfold StateSystem.jointStep
  split
  · rfl
  · split
    · rfl
    · try dsimp only
      split
      · rfl
      · try dsimp only
        split
        · split_ifs <;>
            first
              | exact setAnchored_preserves_stateReads w kid _ jid
              | exact addFoodPull_preserves_stateReads env w kid _ _ jid
        · exact setAnchored_preserves_stateReads w kid _ jid

/-- The state fold never changes what the state decision reads. -/
theorem stateFold_preserves_stateReads (env : MathEnv) (foods : List Vec2) :
    ∀ (ids : List ℕ) (w : World) (r : Rng) (jid : ℕ),
      ((ids.foldl (fun acc kid => StateSystem.jointStep env foods acc.1 acc.2 kid)
        (w, r)).1.getEntity jid).map stateReads = (w.getEntity jid).map stateReads
  | [], w, r, jid => rfl
  | kid :: ids, w, r, jid => by
    rw [List.foldl_cons]
    have step := jointStep_preserves_stateReads env foods w r kid jid
    calc ((ids.foldl (fun acc kid => StateSystem.jointStep env foods acc.1 acc.2 kid)
            (StateSystem.jointStep env foods w r kid)).1.getEntity jid).map stateReads
        = ((StateSystem.jointStep env foods w r kid).1.getEntity jid).map stateReads := by
          have := stateFold_preserves_stateReads env foods ids
            (StateSystem.jointStep env foods w r kid).1
            (StateSystem.jointStep env foods w r kid).2 jid
          simpa using this
      _ = (w.getEntity jid).map stateReads := step

/-- Joints outside the processed list keep their whole lookup. -/
theorem stateFold_getEntity_not_mem (env : MathEnv) (foods : List Vec2) :
    ∀ (ids : List ℕ) (w : World) (r : Rng) (jid : ℕ), jid ∉ ids →
      (ids.foldl (fun acc kid => StateSystem.jointStep env foods acc.1 acc.2 kid)
        (w, r)).1.getEntity jid = w.getEntity jid
  | [], w, r, jid, _ => rfl
  | kid :: ids, w, r, jid, hmem => by
    rw [List.foldl_cons]
    have h1 : jid ≠ kid := fun h => hmem (by simp [h])
    have h2 : jid ∉ ids := fun h => hmem (by simp [h])
    have := stateFold_getEntity_not_mem env foods ids
      (StateSystem.jointStep env foods w r kid).1
      (StateSystem.jointStep env foods w r kid).2 jid h2
    rw [show (StateSystem.jointStep env foods w r kid) =
      ((StateSystem.jointStep env foods w r kid).1,
       (StateSystem.jointStep env foods w r kid).2) from rfl] at *
    rw [this]
    exact jointStep_getEntity_ne env foods w r kid jid h1

/-- Evaluation of one joint step in the anchor branch: nearest food strictly
inside sensor range with normalized distance below `anchorThreshold`. -/
theorem jointStep_anchor_branch (env : MathEnv) (foods : List Vec2)
    (w1 : World) (r : Rng) (jid : ℕ) (e : Entity) (j : JointComponent)
    (pc : PositionComponent) (oe : Entity) (g : GeneticComponent) (fp : Vec2)
    (he : w1.getEntity jid = some e)
    (hj : e.joint = some j) (hpc : e.position = some pc)
    (hoe : w1.getEntity j.organismId = some oe)
    (hg : oe.genetics = some g)
    (hcp : (StateSystem.closestFood env pc.position foods).2 = some fp)
    (hcd : (StateSystem.closestFood env pc.position foods).1 < g.sensorDistance)
    (hnd : (StateSystem.closestFood env pc.position foods).1 / g.sensorDistance
      < g.anchorThreshold) :
    StateSystem.jointStep env foods w1 r jid =
      (StateSystem.setAnchored w1 jid true, r) := by
  unfold StateSystem.jointStep
  rw [he]
  dsimp only
  rw [hj]
  dsimp only
  rw [hoe]
  dsimp only
  rw [hpc, hg]
  dsimp only [Option.map_some', Option.getD_some]
  rw [hcp]
  dsimp only
  rw [if_pos hcd, if_pos hnd]

/-- Full evaluation of `StateSystem.update` on a joint taking the anchor
branch: the joint entity is anchored and nothing else about it changes. -/
theorem stateUpdate_anchor_eval (env : MathEnv) (dt : ℚ) (w : World) (r : Rng)
    (jid : ℕ) (e : Entity) (j : JointComponent) (pc : PositionComponent)
    (oe : Entity) (g : GeneticComponent) (fp : Vec2)
    (hnodup : (w.entities.map (·.id)).Nodup)
    (he : w.getEntity jid = some e)
    (hj : e.joint = some j) (hpc : e.position = some pc)
    (hoe : w.getEntity j.organismId = some oe)
    (hg : oe.genetics = some g)
    (hcp : (StateSystem.closestFood env pc.position (StateSystem.foodPositions w)).2
      = some fp)
    (hcd : (StateSystem.closestFood env pc.position (StateSystem.foodPositions w)).1
      < g.sensorDistance)
    (hnd : (StateSystem.closestFood env pc.position (StateSystem.foodPositions w)).1
      / g.sensorDistance < g.anchorThreshold) :
    (StateSystem.update env dt w r).1.getEntity jid =
      some { e with joint := some { j with isAnchored := true } } := by
  have hmem : jid ∈ w.jointEntityIds := by
    have hmem' := List.mem_of_find?_eq_some he
    have hid : e.id = jid := by simpa using List.find?_some he
    exact List.mem_map.mpr ⟨e, List.mem_filter.mpr ⟨hmem', by simp [hj]⟩, hid⟩
  have hnodupJ : w.jointEntityIds.Nodup := by
    have hsub : List.Sublist ((w.entities.filter (fun e => e.joint.isSome)).map (·.id))
        (w.entities.map (·.id)) := (List.filter_sublist _).map _
    exact hnodup.sublist hsub
  obtain ⟨pre, post, hsplit⟩ := List.append_of_mem hmem
  have hnd2 : (pre ++ jid :: post).Nodup := hsplit ▸ hnodupJ
  obtain ⟨hnpre, hncons, hdisj⟩ := List.nodup_append.mp hnd2
  have hpre : jid ∉ pre := fun hmem2 => hdisj hmem2 (List.mem_cons_self _ _)
  have hpost : jid ∉ post := (List.nodup_cons.mp hncons).1
  unfold StateSystem.update
  rw [hsplit, List.foldl_append, List.foldl_cons]
  set foods := StateSystem.foodPositions w with hfoods
  set acc1 := pre.foldl
    (fun acc kid => StateSystem.jointStep env foods acc.1 acc.2 kid) (w, r) with hacc1
  have hw1e : acc1.1.getEntity jid = some e := by
    rw [hacc1]
    rw [show pre.foldl (fun acc kid => StateSystem.jointStep env foods acc.1 acc.2 kid)
      (w, r) = pre.foldl (fun acc kid => StateSystem.jointStep env foods acc.1 acc.2 kid)
      (w, r) from rfl]
    rw [stateFold_getEntity_not_mem env foods pre w r jid hpre]
    exact he
  obtain ⟨oe', hoe', hsr⟩ :
      ∃ oe', acc1.1.getEntity j.organismId = some oe' ∧ stateReads oe' = stateReads oe := by
    have hsr := stateFold_preserves_stateReads env foods pre w r j.organismId
    rw [← hacc1] at hsr
    rw [hoe] at hsr
    cases hx : acc1.1.getEntity j.organismId with
    | none => rw [hx] at hsr; simp at hsr
    | some oe' =>
      rw [hx] at hsr
      exact ⟨oe', rfl, by simpa using hsr⟩
  have hg' : oe'.genetics = some g := by
    have h1 := congrArg (fun p => p.2.1) hsr
    simp only [stateReads] at h1
    rw [h1, hg]
  have hstep := jointStep_anchor_branch env foods acc1.1 acc1.2 jid e j pc oe' g fp
    hw1e hj hpc hoe' hg' hcp hcd hnd
  rw [hstep]
  rw [stateFold_getEntity_not_mem env foods post _ _ jid hpost]
  rw [StateSystem.setAnchored,
    getEntity_modifyEntity_eq _ _ _ (fun e => by cases e.joint <;> rfl), hw1e]
  simp [hj]

/-- **C8** (amended).  In `StateSystem.update`, for every joint whose nearest
food lies strictly within `genetics.sensorDistance` and whose normalized
distance is strictly below `genetics.anchorThreshold`, the joint's
`isAnchored` is set to `true` and nothing else about the joint's entity
changes — in particular no directional pull is added to its force in that
branch (the weak `0.1`-scaled food pull exists only in the middle branch). -/
theorem c8_anchor_branch (env : MathEnv) (dt : ℚ) (w : World) (r : Rng)
    (jid : ℕ) (e : Entity) (j : JointComponent) (pc : PositionComponent)
    (oe : Entity) (g : GeneticComponent) (fp : Vec2)
    (hnodup : (w.entities.map (·.id)).Nodup)
    (he : w.getEntity jid = some e)
    (hj : e.joint = some j) (hpc : e.position = some pc)
    (hoe : w.getEntity j.organismId = some oe)
    (hg : oe.genetics = some g)
    (hcp : (StateSystem.closestFood env pc.position (StateSystem.foodPositions w)).2
      = some fp)
    (hcd : (StateSystem.closestFood env pc.position (StateSystem.foodPositions w)).1
      < g.sensorDistance)
    (hnd : (StateSystem.closestFood env pc.position (StateSystem.foodPositions w)).1
      / g.sensorDistance < g.anchorThreshold) :
    (StateSystem.update env dt w r).1.getEntity jid =
      some { e with joint := some { j with isAnchored := true } } :=
  stateUpdate_anchor_eval env dt w r jid e j pc oe g fp hnodup he hj hpc hoe hg
    hcp hcd hnd

/-- Everything reasonable is below `Number.MAX_VALUE` (kept opaque in
evaluations; its power-tower form is kernel-hostile to unfold in place). -/
theorem lt_NUMBER_MAX_VALUE (q : ℚ) (h : q ≤ 1000) :
    q < StateSystem.NUMBER_MAX_VALUE := by
  unfold StateSystem.NUMBER_MAX_VALUE
  calc q ≤ 1000 := h
    _ < (2 ^ 53 - 1) * 2 ^ 971 := by norm_num

/-- **C8** (counterexample to the claim as stated).  A concrete world where
the joint's nearest food lies within sensor range with normalized distance
below the anchor threshold (distance 30, `sensorDistance 100`,
`anchorThreshold 0.5`) and the organism's `movementBias` is `1/2 ≠ 0`, so
the claimed bias-scaled pull would be nonzero: after the update the joint
is anchored, but its physics component — the accumulated force in
particular — is exactly what it was (zero).  No "strong directional pull
toward the food, scaled by `movementBias`," is added in this branch,
refuting the claim. -/
theorem c8_counterexample :
    CE.c8orgB.genetics.map (·.movementBias) = some (1/2) ∧ (1/2 : ℚ) ≠ 0 ∧
    StateSystem.closestFood CE.envC8 ⟨0, 0⟩ (StateSystem.foodPositions CE.c8wB)
      = (30, some ⟨30, 0⟩) ∧
    ((30 : ℚ) < 100 ∧ (30 : ℚ) / 100 < 1/2) ∧
    (StateSystem.update CE.envC8 0 CE.c8wB CE.rng0).1.getEntity 2 =
      some { CE.c8joint with
        joint := some ⟨1, true, [], [], JOINT_RADIUS, JOINT_REST_LENGTH⟩ } := by
  have h30 : (30 : ℚ) < StateSystem.NUMBER_MAX_VALUE :=
    lt_NUMBER_MAX_VALUE 30 (by norm_num)
  refine ⟨rfl, by norm_num, ?_, by norm_num, ?_⟩
  · norm_num [StateSystem.closestFood, StateSystem.foodPositions, CE.c8wB, CE.c8orgB,
      CE.c8joint, CE.c8food, CE.c8jc, Vec2.distanceTo, CE.envC8, List.filter, h30]
  exact stateUpdate_anchor_eval CE.envC8 0 CE.c8wB CE.rng0 2 CE.c8joint CE.c8jc
    ⟨⟨0, 0⟩⟩ CE.c8orgB ⟨100, 7/10, 1/2, 3/10, 0, 0, 1/2, 0⟩ ⟨30, 0⟩
    (by decide) (by rfl) rfl rfl (by rfl) rfl
    (by norm_num [StateSystem.closestFood, StateSystem.foodPositions, CE.c8wB, CE.c8orgB,
        CE.c8joint, CE.c8food, CE.c8jc, Vec2.distanceTo, CE.envC8, List.filter, h30])
    (by norm_num [StateSystem.closestFood, StateSystem.foodPositions, CE.c8wB, CE.c8orgB,
        CE.c8joint, CE.c8food, CE.c8jc, Vec2.distanceTo, CE.envC8, List.filter, h30])
    (by norm_num [StateSystem.closestFood, StateSystem.foodPositions, CE.c8wB, CE.c8orgB,
        CE.c8joint, CE.c8food, CE.c8jc, Vec2.distanceTo, CE.envC8, List.filter, h30])

/-- Witness for the amended C8 at the same concrete world. -/
theorem c8_witness :
    (StateSystem.update CE.envC8 0 CE.c8w CE.rng0).1.getEntity 2 =
      some { CE.c8joint with joint := some { CE.c8jc with isAnchored := true } } :=
  c8_anchor_branch CE.envC8 0 CE.c8w CE.rng0 2 CE.c8joint CE.c8jc ⟨⟨0, 0⟩⟩ CE.c8org
    ⟨100, 7/10, 1/2, 3/10, 0, 0, 0, 0⟩ ⟨30, 0⟩
    (by decide) (by rfl) rfl rfl (by rfl) rfl
    (by have h30 : (30 : ℚ) < StateSystem.NUMBER_MAX_VALUE :=
          lt_NUMBER_MAX_VALUE 30 (by norm_num)
        norm_num [StateSystem.closestFood, StateSystem.foodPositions, CE.c8w, CE.c8org,
          CE.c8joint, CE.c8food, CE.c8jc, Vec2.distanceTo, CE.envC8, List.filter, h30])
    (by have h30 : (30 : ℚ) < StateSystem.NUMBER_MAX_VALUE :=
          lt_NUMBER_MAX_VALUE 30 (by norm_num)
        norm_num [StateSystem.closestFood, StateSystem.foodPositions, CE.c8w, CE.c8org,
          CE.c8joint, CE.c8food, CE.c8jc, Vec2.distanceTo, CE.envC8, List.filter, h30])
    (by have h30 : (30 : ℚ) < StateSystem.NUMBER_MAX_VALUE :=
          lt_NUMBER_MAX_VALUE 30 (by norm_num)
        norm_num [StateSystem.closestFood, StateSystem.foodPositions, CE.c8w, CE.c8org,
          CE.c8joint, CE.c8food, CE.c8jc, Vec2.distanceTo, CE.envC8, List.filter, h30])

/-- Clamping into `[lo, hi]` lands in `[lo, hi]`. -/
theorem clamp_mem {lo hi v : ℚ} (h : lo ≤ hi) :
    lo ≤ max lo (min hi v) ∧ max lo (min hi v) ≤ hi :=
  ⟨le_max_left _ _, max_le h (min_le_left _ _)⟩

/-- Bit flips keep pattern entries binary. -/
theorem flipEntries_mem {rate : ℚ} :
    ∀ (p : List ℤ) (r : Rng), (∀ e ∈ p, e = 0 ∨ e = 1) →
      ∀ e ∈ (PatternGenetics.flipEntries rate p r).1, e = 0 ∨ e = 1 := by
  intro p
  induction p with
  | nil => intro r _ e he; simp [PatternGenetics.flipEntries] at he
  | cons a rest ih =>
    intro r h e he
    simp only [PatternGenetics.flipEntries, List.mem_cons] at he
    rcases he with he | he
    · subst he
      rcases h a (by simp) with h0 | h1
      · subst h0; split <;> simp
      · subst h1; split <;> simp
    · exact ih _ (fun x hx => h x (by simp [hx])) e he

/-- Membership after an arbitrary-index insertion: the new value or an old
member. -/
theorem mem_insertIdx_cases {n : ℕ} {v e : ℤ} {l : List ℤ}
    (he : e ∈ l.insertIdx n v) : e = v ∨ e ∈ l := by
  by_cases hlen : n ≤ l.length
  · exact (List.mem_insertIdx hlen).mp he
  · rw [List.insertIdx_of_length_lt _ _ _ (by omega)] at he
    exact Or.inr he

/-- The splice step keeps pattern entries binary. -/
theorem splicePattern_mem {rate : ℚ} (p : List ℤ) (r : Rng)
    (h : ∀ e ∈ p, e = 0 ∨ e = 1) :
    ∀ e ∈ (PatternGenetics.splicePattern rate p r).1, e = 0 ∨ e = 1 := by
  intro e he
  simp only [PatternGenetics.splicePattern, Rng.next] at he
  split at he
  · split at he
    · exact h e (List.eraseIdx_subset _ _ he)
    · rcases mem_insertIdx_cases he with h0 | h1
      · subst h0; split <;> simp
      · exact h e h1
  · exact h e he

/-- Pattern-list mutation keeps every entry binary. -/
theorem mutatePatterns_mem {rate : ℚ} :
    ∀ (ps : List (List ℤ)) (r : Rng), (∀ p ∈ ps, ∀ e ∈ p, e = 0 ∨ e = 1) →
      ∀ p ∈ (PatternGenetics.mutatePatterns rate ps r).1, ∀ e ∈ p, e = 0 ∨ e = 1 := by
  intro ps
  induction ps with
  | nil => intro r _ p hp; simp [PatternGenetics.mutatePatterns] at hp
  | cons a rest ih =>
    intro r h p hp
    simp only [PatternGenetics.mutatePatterns, List.mem_cons] at hp
    rcases hp with hp | hp
    · subst hp
      exact splicePattern_mem _ _ (flipEntries_mem a r (h a (by simp)))
    · exact ih _ (fun x hx => h x (by simp [hx])) p hp

/-- **C5.**  For every genetics value, every `rate ≥ 0` and every RNG
outcome, each numeric field of `mutate(rate)`'s result lies in its declared
clamp range: for the `Gene` model `sensorDistance ∈ [10, 200]`,
`moveThreshold ∈ [0.1, 0.9]`, `anchorThreshold ∈ [0.1, 0.9]`,
`anchorRatio ∈ [0.1, 0.7]`; for the pattern-based `GeneticComponent`,
`patternSpeed ∈ [0.2, 2.0]`, `bodyPlanSeed ∈ [0, 1]`, and every pattern entry
stays 0 or 1. -/
theorem c5_mutate_fields_clamped (g : Gene) (pg : PatternGenetics.GeneticComponent)
    (rate : ℚ) (r rp : Rng) (hrate : 0 ≤ rate)
    (h01 : ∀ p ∈ pg.jointPatterns ++ pg.limbPatterns, ∀ e ∈ p, e = 0 ∨ e = 1) :
    (10 ≤ (g.mutate rate r).1.sensorDistance ∧ (g.mutate rate r).1.sensorDistance ≤ 200) ∧
    (1/10 ≤ (g.mutate rate r).1.moveThreshold ∧ (g.mutate rate r).1.moveThreshold ≤ 9/10) ∧
    (1/10 ≤ (g.mutate rate r).1.anchorThreshold ∧ (g.mutate rate r).1.anchorThreshold ≤ 9/10) ∧
    (1/10 ≤ (g.mutate rate r).1.anchorRatio ∧ (g.mutate rate r).1.anchorRatio ≤ 7/10) ∧
    (1/5 ≤ (pg.mutate rate rp).1.patternSpeed ∧ (pg.mutate rate rp).1.patternSpeed ≤ 2) ∧
    (0 ≤ (pg.mutate rate rp).1.bodyPlanSeed ∧ (pg.mutate rate rp).1.bodyPlanSeed ≤ 1) ∧
    (∀ p ∈ (pg.mutate rate rp).1.jointPatterns ++ (pg.mutate rate rp).1.limbPatterns,
      ∀ e ∈ p, e = 0 ∨ e = 1) := by
  refine ⟨?_, ?_, ?_, ?_, ?_, ?_, ?_⟩
  · exact clamp_mem (by norm_num)
  · exact clamp_mem (by norm_num)
  · exact clamp_mem (by norm_num)
  · exact clamp_mem (by norm_num)
  · exact clamp_mem (by norm_num)
  · exact clamp_mem (by norm_num)
  · intro p hp e he
    simp only [PatternGenetics.GeneticComponent.mutate, List.mem_append] at hp
    rcases hp with hp | hp
    · exact mutatePatterns_mem pg.jointPatterns rp
        (fun q hq => h01 q (List.mem_append_left _ hq)) p hp e he
    · exact mutatePatterns_mem pg.limbPatterns _
        (fun q hq => h01 q (List.mem_append_right _ hq)) p hp e he

/-- Witness for C5 at a concrete gene, component, rate and stream. -/
theorem c5_witness :
    ((0 : ℚ) ≤ 1/10 ∧
      ∀ p ∈ [[(0 : ℤ), 1]] ++ [[(1 : ℤ), 0]], ∀ e ∈ p, e = 0 ∨ e = 1) ∧
    (10 ≤ ((Gene.mk 100 (1/2) (1/5) (3/10)).mutate (1/10) CE.rngHalf).1.sensorDistance ∧
      ((Gene.mk 100 (1/2) (1/5) (3/10)).mutate (1/10) CE.rngHalf).1.sensorDistance ≤ 200) := by
  have h := c5_mutate_fields_clamped (Gene.mk 100 (1/2) (1/5) (3/10))
    ⟨[[0, 1]], [[1, 0]], 1, 1/2⟩ (1/10) CE.rngHalf CE.rngHalf (by norm_num)
    (by intro p hp e he; fin_cases hp <;> fin_cases he <;> simp)
  exact ⟨⟨by norm_num, by intro p hp e he; fin_cases hp <;> fin_cases he <;> simp⟩, h.1⟩

/-- Positional characterisation of the physics entity loop: the `i`-th result
entity is the `i`-th input entity integrated at some random-stream state. -/
theorem runEntities_get?_ex (env : MathEnv) (sd : ℚ) :
    ∀ (l : List Entity) (r : Rng) (i : ℕ) (e : Entity), l.get? i = some e →
      ∃ r', (PhysicsSystem.runEntities env sd l r).1.get? i =
        some (PhysicsSystem.integrate env sd e r').1 := by
  intro l
  induction l with
  | nil => intro r i e he; simp at he
  | cons a rest ih =>
    intro r i e he
    cases i with
    | zero =>
      simp only [List.get?] at he
      cases he
      exact ⟨r, by simp [PhysicsSystem.runEntities]⟩
    | succ n =>
      simp only [List.get?] at he
      obtain ⟨r', hr'⟩ := ih (PhysicsSystem.integrate env sd a r).2 n e he
      exact ⟨r', by simpa [PhysicsSystem.runEntities] using hr'⟩

/-- **C9.**  For every joint entity with `isAnchored = true` (holding
position, velocity and physics components), one `PhysicsSystem` update sets
its velocity and accumulated force to exactly zero and leaves its position —
and every other component — unchanged, regardless of the force applied
before the update. -/
theorem c9_anchored_joint_skip (env : MathEnv) (dt : ℚ) (w : World) (r : Rng)
    (i : ℕ) (e : Entity) (he : w.entities.get? i = some e)
    (pc : PositionComponent) (vc : VelocityComponent) (ph : PhysicsComponent)
    (j : JointComponent)
    (hp : e.position = some pc) (hv : e.velocity = some vc)
    (hph : e.physics = some ph) (hj : e.joint = some j)
    (ha : j.isAnchored = true) :
    (PhysicsSystem.update env dt w r).1.entities.get? i =
      some { e with velocity := some ⟨⟨0, 0⟩⟩,
                    physics := some { ph with force := ⟨0, 0⟩ } } := by
  obtain ⟨r', hr'⟩ := runEntities_get?_ex env (max dt (1/20)) w.entities r i e he
  have hint : (PhysicsSystem.integrate env (max dt (1/20)) e r').1 =
      { e with velocity := some ⟨⟨0, 0⟩⟩,
               physics := some { ph with force := ⟨0, 0⟩ } } := by
    simp [PhysicsSystem.integrate, hp, hv, hph, hj, ha]
  rw [hint] at hr'
  simpa [PhysicsSystem.update] using hr'

/-- Witness for C9: a concrete world holding a single anchored joint with a
pending force; after the update its velocity and force are zero and its
position is unchanged. -/
theorem c9_witness :
    (PhysicsSystem.update CE.envId 1 CE.c9w CE.rng0).1.entities.get? 0 =
    some { id := 1,
           position := some ⟨⟨7, 8⟩⟩,
           velocity := some ⟨⟨0, 0⟩⟩,
           physics := some ⟨⟨0, 0⟩, 1, JOINT_STIFFNESS, JOINT_DAMPING⟩,
           joint := some ⟨2, true, [], [], JOINT_RADIUS, JOINT_REST_LENGTH⟩ } :=
  c9_anchored_joint_skip CE.envId 1 CE.c9w CE.rng0 0 CE.c9e (by rfl)
    ⟨⟨7, 8⟩⟩ ⟨⟨3, 4⟩⟩ ⟨⟨100, -200⟩, 1, JOINT_STIFFNESS, JOINT_DAMPING⟩
    ⟨2, true, [], [], JOINT_RADIUS, JOINT_REST_LENGTH⟩ rfl rfl rfl rfl rfl

/-- **C6** (code-bug evidence).  With two organisms and the accumulator at
0.6 s, an update with `deltaTime = 0.6` crosses the one-second interval; the
code resets the accumulator inside the per-organism loop, so only the first
organism in iteration order receives the 0.1 survival bonus — the second
organism's fitness stays 0, although the claim (and the evident intent of
the per-organism check) is that every living organism accrues it. -/
theorem c6_survival_bonus_only_first :
    (((FoodSystem.update CE.envId (3/5) CE.c6w ⟨0, 3/5⟩).1.getEntity 1).bind
      (·.fitness)) = some ⟨1/10, 0⟩ ∧
    (((FoodSystem.update CE.envId (3/5) CE.c6w ⟨0, 3/5⟩).1.getEntity 2).bind
      (·.fitness)) = some ⟨0, 0⟩ ∧
    (FoodSystem.update CE.envId (3/5) CE.c6w ⟨0, 3/5⟩).2.1.accumulatedTime = 0 := by
  refine ⟨?_, ?_, ?_⟩ <;>
    norm_num [FoodSystem.update, FoodSystem.updateAcc, FoodSystem.orgStep,
      FoodSystem.foodStep, FoodSystem.addFitness, FoodSystem.foodSnapshot,
      FoodSystem.jointNear, World.organismIds, World.idsWith, World.getEntity,
      World.modifyEntity, World.removeEntity, CE.c6w, CE.c6o1, CE.c6o2,
      List.filter, List.find?]

/-- **C2** (counterexample to the claim as stated).  On a world with zero
organism entities and `populationSize = 1`, `createNextGeneration` does not
succeed: the fill loop selects a parent from the empty survivor list —
`undefined` in JS — and the genetics read on it throws (modelled as `none`).
No random fresh organisms are spawned. -/
theorem c2_counterexample :
    EvolutionSystem.createNextGeneration CE.envId CE.c2p CE.c2w CE.rng0 = none := by
  norm_num [EvolutionSystem.createNextGeneration, EvolutionSystem.sortByFitness,
    EvolutionSystem.calculateStats, EvolutionSystem.fitnessOfD,
    EvolutionSystem.jointIdsOfD, EvolutionSystem.survivorExtras,
    EvolutionSystem.removalIds, EvolutionSystem.fillLoop,
    EvolutionSystem.selectParentWeighted, EvolutionSystem.reproduceOrganism,
    World.organismIds, World.idsWith, World.getEntity, CE.c2w, CE.c2p,
    List.filter, Rng.next, CE.rng0, PatternGenetics.floorIdx]

/-- **C2** (amended).  If `createNextGeneration()` is invoked on a world with
zero organism entities and `populationSize ≥ 1`, the generation transition
fails rather than spawning fresh organisms: the survivor list is empty, the
weighted selection yields no parent (`undefined`), and reproduction's
component read on it throws — modelled as `none`. -/
theorem c2_zero_survivors_throws (env : MathEnv) (p : EvolutionSystem.Params)
    (w : World) (r : Rng) (h0 : w.organismIds = []) (h1 : 1 ≤ p.populationSize) :
    EvolutionSystem.createNextGeneration env p w r = none := by
  obtain ⟨n, hn⟩ : ∃ n, p.populationSize = n + 1 := ⟨p.populationSize - 1, by omega⟩
  unfold EvolutionSystem.createNextGeneration
  rw [h0]
  simp [EvolutionSystem.sortByFitness, hn, EvolutionSystem.fillLoop,
    EvolutionSystem.selectParentWeighted, EvolutionSystem.reproduceOrganism]

/-- Witness for the amended C2 at the concrete empty world. -/
theorem c2_witness :
    (CE.c2w.organismIds = [] ∧ 1 ≤ CE.c2p.populationSize) ∧
    EvolutionSystem.createNextGeneration CE.envId CE.c2p CE.c2w CE.rng0 = none :=
  ⟨⟨rfl, by norm_num [CE.c2p]⟩,
   c2_zero_survivors_throws CE.envId CE.c2p CE.c2w CE.rng0 rfl (by norm_num [CE.c2p])⟩

/-! ### FoodSystem lemmas (C3) -/

theorem fitnessOnly_refl (a : Entity) : fitnessOnly a a :=
  ⟨rfl, rfl, rfl, rfl, rfl, rfl, rfl, rfl, rfl⟩

theorem fitnessOnly_trans {a b c : Entity} (h1 : fitnessOnly a b)
    (h2 : fitnessOnly b c) : fitnessOnly a c := by
  obtain ⟨x1, x2, x3, x4, x5, x6, x7, x8, x9⟩ := h1
  obtain ⟨y1, y2, y3, y4, y5, y6, y7, y8, y9⟩ := h2
  exact ⟨y1.trans x1, y2.trans x2, y3.trans x3, y4.trans x4, y5.trans x5,
    y6.trans x6, y7.trans x7, y8.trans x8, y9.trans x9⟩

theorem fitnessOnly_id {a b : Entity} (h : fitnessOnly a b) : b.id = a.id := h.1

theorem fitnessOnly_position {a b : Entity} (h : fitnessOnly a b) :
    b.position = a.position := h.2.1

/-- Explicit case split for `Option.Rel`. -/
theorem optionRel_cases {α β : Type} {R : α → β → Prop} {o1 : Option α}
    {o2 : Option β} (h : Option.Rel R o1 o2) :
    (o1 = none ∧ o2 = none) ∨ ∃ a b, o1 = some a ∧ o2 = some b ∧ R a b := by
  cases h with
  | none => exact Or.inl ⟨rfl, rfl⟩
  | some hab => exact Or.inr ⟨_, _, rfl, rfl, hab⟩

/-- `find?`-by-id through a `fitnessOnly`-related list. -/
theorem find?_forall₂ {k : ℕ} :
    ∀ {l l' : List Entity}, List.Forall₂ fitnessOnly l l' →
      Option.Rel fitnessOnly (l.find? (fun e => e.id = k))
        (l'.find? (fun e => e.id = k)) := by
  intro l l' h
  induction h with
  | nil => exact Option.Rel.none
  | @cons a b l l' hab _ ih =>
    by_cases hk : a.id = k
    · rw [List.find?_cons_of_pos _ (by simpa using hk),
        List.find?_cons_of_pos _ (by simp [fitnessOnly_id hab, hk])]
      exact Option.Rel.some hab
    · rw [List.find?_cons_of_neg _ (by simpa using hk),
        List.find?_cons_of_neg _ (by simp [fitnessOnly_id hab, hk])]
      exact ih

/-- `getEntity` through a `fitnessOnly`-related world. -/
theorem getEntity_forall₂ {w w2 : World} (k : ℕ)
    (h : List.Forall₂ fitnessOnly w.entities w2.entities) :
    Option.Rel fitnessOnly (w.getEntity k) (w2.getEntity k) :=
  find?_forall₂ h

/-- `jointNear` only depends on the `fitnessOnly`-class of the world. -/
theorem jointNear_forall₂ (env : MathEnv) {w w2 : World} (fpos : Vec2) (jid : ℕ)
    (h : List.Forall₂ fitnessOnly w.entities w2.entities) :
    FoodSystem.jointNear env w2 fpos jid = FoodSystem.jointNear env w fpos jid := by
  unfold FoodSystem.jointNear
  rcases optionRel_cases (getEntity_forall₂ jid h) with ⟨h1, h2⟩ | ⟨a, b, h1, h2, hab⟩
  · rw [h1, h2]
  · rw [h1, h2]
    dsimp only
    rw [fitnessOnly_position hab]

/-- `orgEats` only depends on the `fitnessOnly`-class of the world. -/
theorem orgEats_forall₂ (env : MathEnv) {w w2 : World} (js : List ℕ) (fpos : Vec2)
    (h : List.Forall₂ fitnessOnly w.entities w2.entities) :
    orgEats env w2 js fpos = orgEats env w js fpos := by
  unfold orgEats
  congr 1
  funext jid
  exact jointNear_forall₂ env fpos jid h

/-- Mapping an id-fixed, fitness-only modification over a related list keeps
the relation. -/
theorem forall₂_fitnessOnly_map {l l' : List Entity}
    (h : List.Forall₂ fitnessOnly l l') (g : Entity → Entity)
    (hg : ∀ b, fitnessOnly b (g b)) :
    List.Forall₂ fitnessOnly l (l'.map g) := by
  induction h with
  | nil => exact List.Forall₂.nil
  | @cons a b l l' hab _ ih =>
    exact List.Forall₂.cons (fitnessOnly_trans hab (hg b)) ih

/-- `addFitness` keeps the world `fitnessOnly`-related to the original. -/
theorem addFitness_forall₂ {w : World} {w2 : World} (oid : ℕ) (dv : ℚ) (de : ℕ)
    (h : List.Forall₂ fitnessOnly w.entities w2.entities) :
    List.Forall₂ fitnessOnly w.entities (FoodSystem.addFitness w2 oid dv de).entities := by
  unfold FoodSystem.addFitness World.modifyEntity
  refine forall₂_fitnessOnly_map h _ (fun b => ?_)
  split
  · exact ⟨rfl, rfl, rfl, rfl, rfl, rfl, rfl, rfl, rfl⟩
  · exact fitnessOnly_refl b

/-- The id-preserving function behind `addFitness`. -/
theorem addFitness_idPreserving (oid : ℕ) (dv : ℚ) (de : ℕ) (e : Entity) :
    ((fun e : Entity => { e with fitness := some (
      match e.fitness with
      | some f => ⟨f.fitness + dv, f.foodEaten + de⟩
      | none => ⟨dv, de⟩) }) e).id = e.id := rfl

/-- `addFitness` leaves other entities' lookups unchanged. -/
theorem addFitness_getEntity_ne (w2 : World) (oid i : ℕ) (dv : ℚ) (de : ℕ)
    (hne : i ≠ oid) :
    (FoodSystem.addFitness w2 oid dv de).getEntity i = w2.getEntity i :=
  getEntity_modifyEntity_ne w2 oid i _ (addFitness_idPreserving oid dv de) hne

/-- `addFitness` adds exactly its increments to the target's ledger (when the
target exists). -/
theorem addFitness_ledger (w2 : World) (oid : ℕ) (dv : ℚ) (de : ℕ)
    (hex : (w2.getEntity oid).isSome) :
    EvolutionSystem.fitnessOfD (FoodSystem.addFitness w2 oid dv de) oid =
      EvolutionSystem.fitnessOfD w2 oid + dv ∧
    foodEatenOfD (FoodSystem.addFitness w2 oid dv de) oid =
      foodEatenOfD w2 oid + de := by
  unfold FoodSystem.addFitness
  obtain ⟨e, he⟩ := Option.isSome_iff_exists.mp hex
  rw [EvolutionSystem.fitnessOfD, foodEatenOfD,
    getEntity_modifyEntity_eq _ _ _ (addFitness_idPreserving oid dv de), he,
    EvolutionSystem.fitnessOfD, foodEatenOfD, he]
  rcases hf : e.fitness with _ | f <;> simp [hf]

/-- `addFitness` never touches other entities' ledgers. -/
theorem addFitness_ledger_ne (w2 : World) (oid i : ℕ) (dv : ℚ) (de : ℕ)
    (hne : i ≠ oid) :
    EvolutionSystem.fitnessOfD (FoodSystem.addFitness w2 oid dv de) i =
      EvolutionSystem.fitnessOfD w2 i ∧
    foodEatenOfD (FoodSystem.addFitness w2 oid dv de) i = foodEatenOfD w2 i := by
  rw [EvolutionSystem.fitnessOfD, foodEatenOfD, addFitness_getEntity_ne w2 oid i dv de hne,
    ← EvolutionSystem.fitnessOfD, ← foodEatenOfD]
  exact ⟨rfl, rfl⟩

/-- `removeEntity` leaves other ids' lookups unchanged. -/
theorem getEntity_removeEntity_ne (w2 : World) (a k : ℕ) (hne : k ≠ a) :
    (w2.removeEntity a).getEntity k = w2.getEntity k := by
  unfold World.removeEntity World.getEntity
  induction w2.entities with
  | nil => rfl
  | cons e rest ih =>
    by_cases hea : e.id = a
    · rw [List.filter_cons_of_neg (by simpa using hea),
        List.find?_cons_of_neg _ (by simp; omega)]
      exact ih
    · rw [List.filter_cons_of_pos (by simpa using hea)]
      by_cases hek : e.id = k
      · rw [List.find?_cons_of_pos _ (by simpa using hek),
          List.find?_cons_of_pos _ (by simpa using hek)]
      · rw [List.find?_cons_of_neg _ (by simpa using hek),
          List.find?_cons_of_neg _ (by simpa using hek)]
        exact ih

/-- After `removeEntity a`, the lookup of `a` is gone. -/
theorem getEntity_removeEntity_self (w2 : World) (a : ℕ) :
    (w2.removeEntity a).getEntity a = none := by
  unfold World.removeEntity World.getEntity
  refine List.find?_eq_none.mpr (fun e he => ?_)
  have := List.of_mem_filter he
  simp at this ⊢
  exact this

/-- Absent entities stay absent through a removal fold. -/
theorem getEntity_foldl_remove_none :
    ∀ (L : List ℕ) (w2 : World) (k : ℕ), w2.getEntity k = none →
      (L.foldl World.removeEntity w2).getEntity k = none
  | [], _, _, h => h
  | a :: L, w2, k, h => by
    rw [List.foldl_cons]
    refine getEntity_foldl_remove_none L _ k ?_
    by_cases hk : k = a
    · subst hk; exact getEntity_removeEntity_self w2 k
    · rw [getEntity_removeEntity_ne w2 a k hk]; exact h

/-- Ids outside the removal list keep their lookups. -/
theorem getEntity_foldl_remove_not_mem :
    ∀ (L : List ℕ) (w2 : World) (k : ℕ), k ∉ L →
      (L.foldl World.removeEntity w2).getEntity k = w2.getEntity k
  | [], _, _, _ => rfl
  | a :: L, w2, k, h => by
    rw [List.foldl_cons, getEntity_foldl_remove_not_mem L _ k (fun hh => h (by simp [hh])),
      getEntity_removeEntity_ne w2 a k (fun hh => h (by simp [hh]))]

/-- An existing entity is gone after the removal fold exactly when its id was
listed. -/
theorem getEntity_foldl_remove :
    ∀ (L : List ℕ) (w2 : World) (k : ℕ), (w2.getEntity k).isSome →
      (((L.foldl World.removeEntity w2).getEntity k = none) ↔ k ∈ L)
  | [], w2, k, hex => by
    simp only [List.foldl_nil, List.not_mem_nil, iff_false]
    intro h
    rw [h] at hex
    simp at hex
  | a :: L, w2, k, hex => by
    rw [List.foldl_cons]
    by_cases hk : k = a
    · subst hk
      simp only [List.mem_cons, true_or, iff_true]
      exact getEntity_foldl_remove_none L _ k (getEntity_removeEntity_self w2 k)
    · rw [show ((w2.removeEntity a) : World) = w2.removeEntity a from rfl]
      have hex' : ((w2.removeEntity a).getEntity k).isSome := by
        rw [getEntity_removeEntity_ne w2 a k hk]; exact hex
      rw [getEntity_foldl_remove L _ k hex']
      simp [hk]

/-- With distinct ids, `getEntity` returns the listed entity itself. -/
theorem find?_id_of_nodup :
    ∀ (l : List Entity), (l.map (·.id)).Nodup → ∀ e ∈ l,
      l.find? (fun x => x.id = e.id) = some e
  | [], _, e, he => by simp at he
  | a :: l, hnd, e, he => by
    rcases List.mem_cons.mp he with rfl | he'
    · rw [List.find?_cons_of_pos _ (by simp)]
    · have hne : a.id ≠ e.id := by
        intro hh
        have : a.id ∈ l.map (·.id) := by
          rw [hh]; exact List.mem_map.mpr ⟨e, he', rfl⟩
        simp only [List.map_cons, List.nodup_cons] at hnd
        exact hnd.1 this
      rw [List.find?_cons_of_neg _ (by simpa using hne)]
      exact find?_id_of_nodup l (by simpa using (List.nodup_cons.mp (by simpa using hnd)).2) e he'

/-- Two listed entities with one id are the same entity, when ids are
distinct. -/
theorem entity_eq_of_id_eq :
    ∀ (l : List Entity), (l.map (·.id)).Nodup → ∀ e1 ∈ l, ∀ e2 ∈ l,
      e1.id = e2.id → e1 = e2 := by
  intro l hnd e1 h1 e2 h2 hid
  have q1 := find?_id_of_nodup l hnd e1 h1
  have q2 := find?_id_of_nodup l hnd e2 h2
  rw [hid] at q1
  rw [q1] at q2
  exact Option.some_injective _ q2

/-- Replacing one value of a summed-over list adds its increment, when the
index occurs once. -/
theorem sum_map_update (f g : ℕ → ℕ) (k i0 : ℕ) :
    ∀ (L : List ℕ), L.Nodup → i0 ∈ L → (∀ i, i ≠ i0 → g i = f i) →
      g i0 = f i0 + k → (L.map g).sum = (L.map f).sum + k
  | [], _, hmem, _, _ => by simp at hmem
  | a :: L, hnd, hmem, hne, hi0 => by
    rcases List.mem_cons.mp hmem with rfl | hmem'
    · have : ∀ i ∈ L, g i = f i := by
        intro i hi
        exact hne i (fun hh => (List.nodup_cons.mp hnd).1 (hh ▸ hi))
      simp only [List.map_cons, List.sum_cons, hi0, List.map_congr_left this]
      omega
    · have ha : g a = f a :=
        hne a (fun hh => (List.nodup_cons.mp hnd).1 (hh ▸ hmem'))
      have := sum_map_update f g k i0 L (List.nodup_cons.mp hnd).2 hmem' hne hi0
      simp only [List.map_cons, List.sum_cons, ha, this]
      omega

/-- `addFitness` keeps the target entity alive. -/
theorem addFitness_isSome (w2 : World) (oid : ℕ) (dv : ℚ) (de : ℕ)
    (hex : (w2.getEntity oid).isSome) :
    ((FoodSystem.addFitness w2 oid dv de).getEntity oid).isSome := by
  rw [FoodSystem.addFitness,
    getEntity_modifyEntity_eq w2 oid _ (addFitness_idPreserving oid dv de)]
  simpa using hex

/-- The inner food fold of one organism's pass: the removal list grows by
exactly the newly eaten foods, the eaten count by their number, the target
organism's ledger by `FOOD_VALUE`/1 per food, while the time accumulator,
all other entities and the `fitnessOnly`-class of the world are untouched. -/
theorem foodFold_spec (env : MathEnv) (W : World) (jointIds : List ℕ) (oid : ℕ) :
    ∀ (foods : List (ℕ × Vec2)) (acc : FoodSystem.Acc),
      (foods.map (·.1)).Nodup →
      List.Forall₂ fitnessOnly W.entities acc.w.entities →
      (acc.w.getEntity oid).isSome →
      (List.Forall₂ fitnessOnly W.entities
          (foods.foldl (FoodSystem.foodStep env jointIds oid) acc).w.entities ∧
        (foods.foldl (FoodSystem.foodStep env jointIds oid) acc).accTime =
          acc.accTime ∧
        (foods.foldl (FoodSystem.foodStep env jointIds oid) acc).toRemove =
          acc.toRemove ++
            (newlyEaten env W jointIds acc.toRemove foods).map (·.1)) ∧
      (foods.foldl (FoodSystem.foodStep env jointIds oid) acc).eaten =
        acc.eaten + (newlyEaten env W jointIds acc.toRemove foods).length ∧
      (EvolutionSystem.fitnessOfD
          (foods.foldl (FoodSystem.foodStep env jointIds oid) acc).w oid =
        EvolutionSystem.fitnessOfD acc.w oid +
          FOOD_VALUE * (newlyEaten env W jointIds acc.toRemove foods).length ∧
        foodEatenOfD (foods.foldl (FoodSystem.foodStep env jointIds oid) acc).w
            oid =
          foodEatenOfD acc.w oid +
            (newlyEaten env W jointIds acc.toRemove foods).length) ∧
      ∀ i, i ≠ oid →
        (foods.foldl (FoodSystem.foodStep env jointIds oid) acc).w.getEntity i =
          acc.w.getEntity i
  | [], acc, _, hF, _ => by
    simp [newlyEaten, hF]
  | f :: rest, acc, hnd, hF, hex => by
    have hndr : (rest.map (·.1)).Nodup := (List.nodup_cons.mp hnd).2
    have hf1 : f.1 ∉ rest.map (·.1) := (List.nodup_cons.mp hnd).1
    rw [List.foldl_cons]
    by_cases hmem : f.1 ∈ acc.toRemove
    · have hstep : FoodSystem.foodStep env jointIds oid acc f = acc := by
        rw [FoodSystem.foodStep, if_pos hmem]
      have hnew : newlyEaten env W jointIds acc.toRemove (f :: rest) =
          newlyEaten env W jointIds acc.toRemove rest := by
        rw [newlyEaten, List.filter_cons, newlyEaten]
        simp [hmem]
      rw [hstep, hnew]
      exact foodFold_spec env W jointIds oid rest acc hndr hF hex
    · have horg : (jointIds.any fun jid => FoodSystem.jointNear env acc.w f.2 jid) =
          orgEats env W jointIds f.2 := orgEats_forall₂ env jointIds f.2 hF
      by_cases heat : orgEats env W jointIds f.2 = true
      · have hstep : FoodSystem.foodStep env jointIds oid acc f =
            { acc with
              w := FoodSystem.addFitness acc.w oid FOOD_VALUE 1,
              toRemove := acc.toRemove ++ [f.1],
              eaten := acc.eaten + 1 } := by
          rw [FoodSystem.foodStep, if_neg hmem, if_pos (by rw [horg]; exact heat)]
        have hnew : newlyEaten env W jointIds acc.toRemove (f :: rest) =
            f :: newlyEaten env W jointIds (acc.toRemove ++ [f.1]) rest := by
          rw [newlyEaten, List.filter_cons, newlyEaten]
          have : (decide (f.1 ∉ acc.toRemove) && orgEats env W jointIds f.2) =
              true := by simp [hmem, heat]
          rw [this, if_pos rfl]
          congr 1
          refine List.filter_congr (fun g hg => ?_)
          have hgne : g.1 ≠ f.1 := fun hh =>
            hf1 (hh ▸ List.mem_map.mpr ⟨g, hg, rfl⟩)
          simp [List.mem_append, hgne]
        set acc1 : FoodSystem.Acc :=
          { acc with
            w := FoodSystem.addFitness acc.w oid FOOD_VALUE 1,
            toRemove := acc.toRemove ++ [f.1],
            eaten := acc.eaten + 1 } with hacc1
        have hF1 : List.Forall₂ fitnessOnly W.entities acc1.w.entities :=
          addFitness_forall₂ oid FOOD_VALUE 1 hF
        have hex1 : (acc1.w.getEntity oid).isSome :=
          addFitness_isSome acc.w oid FOOD_VALUE 1 hex
        have ih := foodFold_spec env W jointIds oid rest acc1 hndr hF1 hex1
        obtain ⟨⟨ih1, ih2, ih3⟩, ih4, ⟨ih5, ih6⟩, ih7⟩ := ih
        have hled := addFitness_ledger acc.w oid FOOD_VALUE 1 hex
        rw [hstep, hnew]
        refine ⟨⟨ih1, ?_, ?_⟩, ?_, ⟨?_, ?_⟩, ?_⟩
        · rw [ih2]
        · rw [ih3]
          simp [hacc1]
        · rw [ih4]
          simp [hacc1, Nat.add_assoc, Nat.add_comm 1]
        · rw [ih5]
          have : EvolutionSystem.fitnessOfD acc1.w oid =
              EvolutionSystem.fitnessOfD acc.w oid + FOOD_VALUE := by
            rw [hacc1]; exact hled.1
          rw [this]
          simp only [List.length_cons]
          push_cast
          ring
        · rw [ih6]
          have : foodEatenOfD acc1.w oid = foodEatenOfD acc.w oid + 1 := by
            rw [hacc1]; exact hled.2
          rw [this]
          simp only [List.length_cons]
          omega
        · intro i hi
          rw [ih7 i hi, hacc1]
          exact addFitness_getEntity_ne acc.w oid i FOOD_VALUE 1 hi
      · have hstep : FoodSystem.foodStep env jointIds oid acc f = acc := by
          rw [FoodSystem.foodStep, if_neg hmem, if_neg
            (by rw [horg]; exact fun hh => heat hh)]
        have hnew : newlyEaten env W jointIds acc.toRemove (f :: rest) =
            newlyEaten env W jointIds acc.toRemove rest := by
          rw [newlyEaten, List.filter_cons, newlyEaten]
          simp [heat]
        rw [hstep, hnew]
        exact foodFold_spec env W jointIds oid rest acc hndr hF hex

/-- Members of a list sent to distinct keys are determined by their key. -/
theorem mem_eq_of_map_nodup {α β : Type} (g : α → β) :
    ∀ (l : List α), (l.map g).Nodup → ∀ a ∈ l, ∀ b ∈ l, g a = g b → a = b
  | [], _, a, ha, _, _, _ => by simp at ha
  | x :: l, hnd, a, ha, b, hb, hab => by
    rw [List.map_cons, List.nodup_cons] at hnd
    obtain ⟨hx, hl⟩ := hnd
    rcases List.mem_cons.mp ha with rfl | ha' <;>
      rcases List.mem_cons.mp hb with rfl | hb'
    · rfl
    · exact absurd (hab ▸ List.mem_map.mpr ⟨b, hb', rfl⟩) hx
    · exact absurd (hab ▸ List.mem_map.mpr ⟨a, ha', rfl⟩) hx
    · exact mem_eq_of_map_nodup g l hl a ha' b hb' hab

/-- With distinct entity ids every component-filtered id list is
duplicate-free. -/
theorem idsWith_nodup (w : World) (p : Entity → Bool)
    (hnd : (w.entities.map (·.id)).Nodup) : (w.idsWith p).Nodup := by
  unfold World.idsWith
  exact hnd.sublist ((List.filter_sublist w.entities).map (·.id))

/-- Organism-id membership unfolded to an entity witness. -/
theorem mem_organismIds {w : World} {oid : ℕ} :
    oid ∈ w.organismIds ↔ ∃ e ∈ w.entities, e.id = oid ∧ e.organism.isSome := by
  simp only [World.organismIds, World.idsWith, List.mem_map, List.mem_filter]
  constructor
  · rintro ⟨e, ⟨he, ho⟩, rfl⟩
    exact ⟨e, he, rfl, ho⟩
  · rintro ⟨e, he, rfl, ho⟩
    exact ⟨e, ⟨he, ho⟩, rfl⟩

/-- A listed organism id resolves to its (organism-bearing) entity. -/
theorem getEntity_of_mem_organismIds {w : World} {oid : ℕ}
    (hnd : (w.entities.map (·.id)).Nodup) (h : oid ∈ w.organismIds) :
    ∃ e, w.getEntity oid = some e ∧ e.organism.isSome := by
  obtain ⟨e, he, rfl, ho⟩ := mem_organismIds.mp h
  exact ⟨e, find?_id_of_nodup w.entities hnd e he, ho⟩

/-- `fitnessOnly`-related lookups agree on `isSome`. -/
theorem isSome_of_optionRel {o1 o2 : Option Entity}
    (h : Option.Rel fitnessOnly o1 o2) (hs : o1.isSome) : o2.isSome := by
  rcases optionRel_cases h with ⟨h1, h2⟩ | ⟨a, b, _, h2, _⟩
  · rw [h1] at hs; simp at hs
  · rw [h2]; rfl

/-- The joint-id list read through the world only depends on the
`fitnessOnly`-class. -/
theorem jointIdsOfD_forall₂ {w w2 : World} (i : ℕ)
    (h : List.Forall₂ fitnessOnly w.entities w2.entities) :
    EvolutionSystem.jointIdsOfD w2 i = EvolutionSystem.jointIdsOfD w i := by
  unfold EvolutionSystem.jointIdsOfD
  rcases optionRel_cases (getEntity_forall₂ i h) with ⟨h1, h2⟩ | ⟨a, b, h1, h2, hab⟩
  · rw [h1, h2]
  · rw [h1, h2, Option.some_bind, Option.some_bind, hab.2.2.2.2.2.1]

/-- The fitness read through the world is a `getEntity` congruence. -/
theorem fitnessOfD_congr {w w2 : World} (i : ℕ)
    (h : w2.getEntity i = w.getEntity i) :
    EvolutionSystem.fitnessOfD w2 i = EvolutionSystem.fitnessOfD w i ∧
      foodEatenOfD w2 i = foodEatenOfD w i := by
  rw [EvolutionSystem.fitnessOfD, foodEatenOfD, h, ← EvolutionSystem.fitnessOfD,
    ← foodEatenOfD]
  exact ⟨rfl, rfl⟩

/-- The food snapshot's keys are exactly the food ids. -/
theorem foodSnapshot_fst (w : World) :
    (FoodSystem.foodSnapshot w).map (·.1) = w.foodIds := by
  rw [FoodSystem.foodSnapshot, World.foodIds, World.idsWith, List.map_map]
  rfl

/-- Key membership in the newly eaten foods, for a listed food. -/
theorem mem_newlyEaten_fst (env : MathEnv) (W : World) (jointIds : List ℕ)
    (toRemove : List ℕ) (foods : List (ℕ × Vec2))
    (hndf : (foods.map (·.1)).Nodup) (f : ℕ × Vec2) (hf : f ∈ foods) :
    (f.1 ∈ (newlyEaten env W jointIds toRemove foods).map (·.1)) ↔
      (f.1 ∉ toRemove ∧ orgEats env W jointIds f.2 = true) := by
  constructor
  · rintro hmem
    obtain ⟨g, hg, hgf⟩ := List.mem_map.mp hmem
    have hgfoods := List.mem_of_mem_filter hg
    have hcond := List.of_mem_filter hg
    have : g = f := mem_eq_of_map_nodup (·.1) foods hndf g hgfoods f hf hgf
    subst this
    simpa using hcond
  · rintro ⟨h1, h2⟩
    refine List.mem_map.mpr ⟨f, List.mem_filter.mpr ⟨hf, ?_⟩, rfl⟩
    simp [h1, h2]

/-- The newly eaten keys are fresh and duplicate-free. -/
theorem newlyEaten_fst_nodup (env : MathEnv) (W : World) (jointIds : List ℕ)
    (toRemove : List ℕ) (foods : List (ℕ × Vec2))
    (hndf : (foods.map (·.1)).Nodup) :
    ((newlyEaten env W jointIds toRemove foods).map (·.1)).Nodup ∧
      (∀ x ∈ (newlyEaten env W jointIds toRemove foods).map (·.1),
        x ∈ foods.map (·.1) ∧ x ∉ toRemove) := by
  constructor
  · exact hndf.sublist ((List.filter_sublist foods).map (·.1))
  · rintro x hx
    obtain ⟨g, hg, rfl⟩ := List.mem_map.mp hx
    refine ⟨List.mem_map.mpr ⟨g, List.mem_of_mem_filter hg, rfl⟩, ?_⟩
    have := List.of_mem_filter hg
    simp only [Bool.and_eq_true, decide_eq_true_eq] at this
    exact this.1

/-- With the time accumulator at most 1, an organism's pass is just its food
loop (the survival-bonus branch is dead). -/
theorem orgStep_eq_of_le (env : MathEnv) (foods : List (ℕ × Vec2))
    (acc : FoodSystem.Acc) (oid : ℕ) (hb : acc.accTime ≤ 1) :
    FoodSystem.orgStep env foods acc oid =
      foods.foldl
        (FoodSystem.foodStep env (EvolutionSystem.jointIdsOfD acc.w oid) oid)
        acc := by
  rw [FoodSystem.orgStep]
  simp only [if_neg (not_lt.mpr hb)]
  rfl

/-- One organism's pass, summarised against the pristine world `W`: the
removal list gains exactly the foods newly in range of this organism's
joints, its ledger advances in lockstep, everything else is untouched. -/
theorem orgStep_spec (env : MathEnv) (W : World) (foods : List (ℕ × Vec2))
    (hndf : (foods.map (·.1)).Nodup) (acc : FoodSystem.Acc) (o : ℕ)
    (hF : List.Forall₂ fitnessOnly W.entities acc.w.entities)
    (hex : (acc.w.getEntity o).isSome)
    (hb : acc.accTime ≤ 1)
    (hndtr : acc.toRemove.Nodup)
    (htr : ∀ x ∈ acc.toRemove, x ∈ foods.map (·.1)) :
    (List.Forall₂ fitnessOnly W.entities
        (FoodSystem.orgStep env foods acc o).w.entities ∧
      (FoodSystem.orgStep env foods acc o).accTime = acc.accTime ∧
      (FoodSystem.orgStep env foods acc o).toRemove.Nodup ∧
      (∀ x ∈ (FoodSystem.orgStep env foods acc o).toRemove,
        x ∈ foods.map (·.1))) ∧
    (∀ f ∈ foods,
      (f.1 ∈ (FoodSystem.orgStep env foods acc o).toRemove ↔
        (f.1 ∈ acc.toRemove ∨
          orgEats env W (EvolutionSystem.jointIdsOfD W o) f.2 = true))) ∧
    ∃ len : ℕ,
      (FoodSystem.orgStep env foods acc o).eaten = acc.eaten + len ∧
      (FoodSystem.orgStep env foods acc o).toRemove.length =
        acc.toRemove.length + len ∧
      EvolutionSystem.fitnessOfD (FoodSystem.orgStep env foods acc o).w o =
        EvolutionSystem.fitnessOfD acc.w o + FOOD_VALUE * len ∧
      foodEatenOfD (FoodSystem.orgStep env foods acc o).w o =
        foodEatenOfD acc.w o + len ∧
      ∀ i, i ≠ o →
        (FoodSystem.orgStep env foods acc o).w.getEntity i =
          acc.w.getEntity i := by
  have hjeq := jointIdsOfD_forall₂ o hF
  have hstep := orgStep_eq_of_le env foods acc o hb
  rw [hjeq] at hstep
  obtain ⟨⟨i1, i2, i3⟩, i4, ⟨i5, i6⟩, i7⟩ :=
    foodFold_spec env W (EvolutionSystem.jointIdsOfD W o) o foods acc hndf hF hex
  obtain ⟨hnodup, hkeys⟩ := newlyEaten_fst_nodup env W
    (EvolutionSystem.jointIdsOfD W o) acc.toRemove foods hndf
  rw [hstep]
  refine ⟨⟨i1, i2, ?_, ?_⟩, ?_, ?_⟩
  · rw [i3, List.nodup_append]
    exact ⟨hndtr, hnodup, fun a ha hb' => (hkeys a hb').2 ha⟩
  · intro x hx
    rw [i3, List.mem_append] at hx
    rcases hx with hx | hx
    · exact htr x hx
    · exact (hkeys x hx).1
  · intro f hf
    rw [i3, List.mem_append,
      mem_newlyEaten_fst env W (EvolutionSystem.jointIdsOfD W o) acc.toRemove
        foods hndf f hf]
    tauto
  · refine ⟨(newlyEaten env W (EvolutionSystem.jointIdsOfD W o) acc.toRemove
        foods).length, i4, ?_, i5, i6, i7⟩
    rw [i3]
    simp

/-- The organism fold of `FoodSystem.update`, relative to an arbitrary
accumulator whose time slot is at most 1 (so the bonus branch is dead):
membership in the removal list is `some processed organism eats it`, the
eaten counter tracks the removal list's growth, each organism's ledger
advances by `FOOD_VALUE` and 1 per credited food, and the total eaten-food
sum advances by exactly the eaten counter. -/
theorem orgFold_spec (env : MathEnv) (W : World) (foods : List (ℕ × Vec2))
    (hndW : (W.entities.map (·.id)).Nodup)
    (hndf : (foods.map (·.1)).Nodup) :
    ∀ (L : List ℕ) (acc : FoodSystem.Acc),
      (∀ o ∈ L, o ∈ W.organismIds) →
      List.Forall₂ fitnessOnly W.entities acc.w.entities →
      acc.accTime ≤ 1 →
      acc.toRemove.Nodup →
      (∀ x ∈ acc.toRemove, x ∈ foods.map (·.1)) →
      (List.Forall₂ fitnessOnly W.entities
          (L.foldl (FoodSystem.orgStep env foods) acc).w.entities ∧
        (L.foldl (FoodSystem.orgStep env foods) acc).accTime = acc.accTime ∧
        (L.foldl (FoodSystem.orgStep env foods) acc).toRemove.Nodup ∧
        (∀ x ∈ (L.foldl (FoodSystem.orgStep env foods) acc).toRemove,
          x ∈ foods.map (·.1))) ∧
      (∀ f ∈ foods,
        (f.1 ∈ (L.foldl (FoodSystem.orgStep env foods) acc).toRemove ↔
          (f.1 ∈ acc.toRemove ∨
            L.any (fun o =>
              orgEats env W (EvolutionSystem.jointIdsOfD W o) f.2) = true))) ∧
      ((L.foldl (FoodSystem.orgStep env foods) acc).eaten +
          acc.toRemove.length =
        acc.eaten +
          (L.foldl (FoodSystem.orgStep env foods) acc).toRemove.length) ∧
      (∀ i, ∃ k : ℕ,
        EvolutionSystem.fitnessOfD
            (L.foldl (FoodSystem.orgStep env foods) acc).w i =
          EvolutionSystem.fitnessOfD acc.w i + FOOD_VALUE * k ∧
        foodEatenOfD (L.foldl (FoodSystem.orgStep env foods) acc).w i =
          foodEatenOfD acc.w i + k) ∧
      ((W.organismIds.map (fun o =>
          foodEatenOfD (L.foldl (FoodSystem.orgStep env foods) acc).w o)).sum +
          acc.eaten =
        (W.organismIds.map (fun o => foodEatenOfD acc.w o)).sum +
          (L.foldl (FoodSystem.orgStep env foods) acc).eaten)
  | [], acc, _, hF, _, hndtr, htr => by
    refine ⟨⟨hF, rfl, hndtr, htr⟩, ?_, rfl, ?_, rfl⟩
    · intro f _
      simp
    · intro i
      exact ⟨0, by simp, by simp⟩
  | o :: L, acc, hL, hF, hb, hndtr, htr => by
    have hoin : o ∈ W.organismIds := hL o (List.mem_cons_self o L)
    obtain ⟨eW, heW, _⟩ := getEntity_of_mem_organismIds hndW hoin
    have hexW : (W.getEntity o).isSome := by rw [heW]; rfl
    have hex : (acc.w.getEntity o).isSome :=
      isSome_of_optionRel (getEntity_forall₂ o hF) hexW
    obtain ⟨⟨s1, s2, s3, s4⟩, s5, len, e1, e2, e3, e4, e5⟩ :=
      orgStep_spec env W foods hndf acc o hF hex hb hndtr htr
    obtain ⟨⟨a1, a2, a3, a4⟩, a5, a6, a7, a8⟩ :=
      orgFold_spec env W foods hndW hndf L (FoodSystem.orgStep env foods acc o)
        (fun o' ho' => hL o' (List.mem_cons_of_mem o ho'))
        s1 (by rw [s2]; exact hb) s3 s4
    rw [List.foldl_cons]
    have hsum := sum_map_update (fun o' => foodEatenOfD acc.w o')
      (fun o' => foodEatenOfD (FoodSystem.orgStep env foods acc o).w o') len o
      W.organismIds (idsWith_nodup W _ hndW) hoin
      (fun i hi => (fitnessOfD_congr i (e5 i hi)).2) e4
    refine ⟨⟨a1, ?_, a3, a4⟩, ?_, ?_, ?_, ?_⟩
    · rw [a2, s2]
    · intro f hf
      rw [a5 f hf, s5 f hf, List.any_cons, Bool.or_eq_true]
      tauto
    · omega
    · intro i
      obtain ⟨k, hk1, hk2⟩ := a7 i
      by_cases hio : i = o
      · subst hio
        refine ⟨len + k, ?_, ?_⟩
        · rw [hk1, e3]
          push_cast
          ring
        · rw [hk2, e4]
          omega
      · obtain ⟨hfit, hfe⟩ := fitnessOfD_congr i (e5 i hio)
        exact ⟨k, by rw [hk1, hfit], by rw [hk2, hfe]⟩
    · omega

/-- **C3.** In one `FoodSystem.update` call (with distinct entity ids, no
entity being both organism and food, and the survival-bonus interval not yet
reached), a food entity is removed iff some living joint of some organism is
within `EATING_DISTANCE` of it, and it is removed exactly once: the returned
eaten count is the number of such foods, every organism's fitness advances by
exactly `FOOD_VALUE` times its own eaten increment, and the organisms' eaten
increments sum to the returned count — so each eaten food is credited to
exactly one organism. -/
theorem c3_food_consumption (env : MathEnv) (dt : ℚ) (w : World)
    (st : FoodSystem.State)
    (hnd : (w.entities.map (·.id)).Nodup)
    (hsep : ∀ e ∈ w.entities, ¬(e.organism.isSome ∧ e.food.isSome))
    (hb : st.accumulatedTime + dt ≤ 1) :
    (∀ e ∈ w.entities, e.food.isSome →
      (((FoodSystem.update env dt w st).1.getEntity e.id = none) ↔
        eatenPred env w ((e.position.map (·.position)).getD ⟨0, 0⟩) = true)) ∧
    (FoodSystem.update env dt w st).2.2 =
      ((FoodSystem.foodSnapshot w).filter
        (fun f => eatenPred env w f.2)).length ∧
    (FoodSystem.update env dt w st).2.1 =
      ⟨(FoodSystem.update env dt w st).2.2, st.accumulatedTime + dt⟩ ∧
    (∀ oid ∈ w.organismIds, ∃ k : ℕ,
      EvolutionSystem.fitnessOfD (FoodSystem.update env dt w st).1 oid =
        EvolutionSystem.fitnessOfD w oid + FOOD_VALUE * k ∧
      foodEatenOfD (FoodSystem.update env dt w st).1 oid =
        foodEatenOfD w oid + k) ∧
    ((w.organismIds.map (fun o =>
        foodEatenOfD (FoodSystem.update env dt w st).1 o)).sum =
      (w.organismIds.map (fun o => foodEatenOfD w o)).sum +
        (FoodSystem.update env dt w st).2.2) := by
  have hndf : ((FoodSystem.foodSnapshot w).map (·.1)).Nodup := by
    rw [foodSnapshot_fst]
    exact idsWith_nodup w _ hnd
  have hFrefl : List.Forall₂ fitnessOnly w.entities w.entities :=
    List.forall₂_same.mpr (fun e _ => fitnessOnly_refl e)
  obtain ⟨⟨a1, a2, a3, a4⟩, a5, a6, a7, a8⟩ :=
    orgFold_spec env w (FoodSystem.foodSnapshot w) hnd hndf w.organismIds
      ⟨w, st.accumulatedTime + dt, [], 0⟩ (fun o ho => ho) hFrefl hb
      List.nodup_nil (fun x hx => absurd hx (List.not_mem_nil x))
  have hRe : w.organismIds.foldl
      (FoodSystem.orgStep env (FoodSystem.foodSnapshot w))
      ⟨w, st.accumulatedTime + dt, [], 0⟩ = FoodSystem.updateAcc env dt w st :=
    rfl
  simp only [hRe] at a1 a2 a3 a4 a5 a6 a7 a8
  have p1 : (⟨w, st.accumulatedTime + dt, [], 0⟩ : FoodSystem.Acc).w = w := rfl
  have p2 : (⟨w, st.accumulatedTime + dt, [], 0⟩ : FoodSystem.Acc).accTime =
      st.accumulatedTime + dt := rfl
  have p3 : (⟨w, st.accumulatedTime + dt, [], 0⟩ : FoodSystem.Acc).toRemove =
      ([] : List ℕ) := rfl
  have p4 : (⟨w, st.accumulatedTime + dt, [], 0⟩ : FoodSystem.Acc).eaten = 0 :=
    rfl
  simp only [p1, p2, p3, p4, List.not_mem_nil, false_or, List.length_nil,
    Nat.add_zero, Nat.zero_add] at a2 a5 a6 a7 a8
  have hu1 : (FoodSystem.update env dt w st).1 =
      (FoodSystem.updateAcc env dt w st).toRemove.foldl World.removeEntity
        (FoodSystem.updateAcc env dt w st).w := rfl
  have hu2 : (FoodSystem.update env dt w st).2.2 =
      (FoodSystem.updateAcc env dt w st).eaten := rfl
  have hu3 : (FoodSystem.update env dt w st).2.1 =
      (⟨(FoodSystem.updateAcc env dt w st).eaten,
        (FoodSystem.updateAcc env dt w st).accTime⟩ : FoodSystem.State) := rfl
  simp only [hu1, hu2, hu3]
  have hsepid : ∀ oid ∈ w.organismIds,
      oid ∉ (FoodSystem.updateAcc env dt w st).toRemove := by
    intro oid hoid hmem
    have hx := a4 oid hmem
    rw [foodSnapshot_fst] at hx
    simp only [World.foodIds, World.idsWith, List.mem_map,
      List.mem_filter] at hx
    obtain ⟨fe', ⟨hfe1, hfe2⟩, hfe3⟩ := hx
    obtain ⟨oe, hoe1, hoe2, hoe3⟩ := mem_organismIds.mp hoid
    have heq := entity_eq_of_id_eq w.entities hnd fe' hfe1 oe hoe1
      (by rw [hfe3, hoe2])
    exact hsep oe hoe1 ⟨hoe3, heq ▸ hfe2⟩
  refine ⟨?_, ?_, ?_, ?_, ?_⟩
  · intro e he hfood
    have hfmem : (e.id, ((e.position.map (·.position)).getD ⟨0, 0⟩)) ∈
        FoodSystem.foodSnapshot w :=
      List.mem_map.mpr ⟨e, List.mem_filter.mpr ⟨he, hfood⟩, rfl⟩
    have hWex : w.getEntity e.id = some e := find?_id_of_nodup w.entities hnd e he
    have hRex : (((FoodSystem.updateAcc env dt w st).w).getEntity e.id).isSome :=
      isSome_of_optionRel (getEntity_forall₂ e.id a1) (by rw [hWex]; rfl)
    rw [getEntity_foldl_remove (FoodSystem.updateAcc env dt w st).toRemove
      (FoodSystem.updateAcc env dt w st).w e.id hRex]
    have h2 := a5 _ hfmem
    rw [h2]
    exact Iff.rfl
  · have hfiltnd : ((((FoodSystem.foodSnapshot w).filter
        (fun f => eatenPred env w f.2)).map (·.1))).Nodup :=
      hndf.sublist ((List.filter_sublist (FoodSystem.foodSnapshot w)).map (·.1))
    have hperm : (FoodSystem.updateAcc env dt w st).toRemove.Perm
        (((FoodSystem.foodSnapshot w).filter
          (fun f => eatenPred env w f.2)).map (·.1)) := by
      rw [List.perm_ext_iff_of_nodup a3 hfiltnd]
      intro x
      constructor
      · intro hx
        obtain ⟨g, hg, rfl⟩ := List.mem_map.mp (a4 x hx)
        refine List.mem_map.mpr ⟨g, List.mem_filter.mpr ⟨hg, ?_⟩, rfl⟩
        exact (a5 g hg).mp hx
      · intro hx
        obtain ⟨g, hg, rfl⟩ := List.mem_map.mp hx
        have hgf : g ∈ FoodSystem.foodSnapshot w := List.mem_of_mem_filter hg
        have hgp : eatenPred env w g.2 = true := by
          simpa using List.of_mem_filter hg
        exact (a5 g hgf).mpr hgp
    rw [a6, hperm.length_eq, List.length_map]
  · rw [a2]
  · intro oid hoid
    obtain ⟨k, hk1, hk2⟩ := a7 oid
    obtain ⟨hfit, hfe⟩ := fitnessOfD_congr oid
      (getEntity_foldl_remove_not_mem (FoodSystem.updateAcc env dt w st).toRemove
        (FoodSystem.updateAcc env dt w st).w oid (hsepid oid hoid))
    exact ⟨k, by rw [hfit, hk1], by rw [hfe, hk2]⟩
  · have hcongr : ∀ o ∈ w.organismIds,
        foodEatenOfD ((FoodSystem.updateAcc env dt w st).toRemove.foldl
          World.removeEntity (FoodSystem.updateAcc env dt w st).w) o =
          foodEatenOfD (FoodSystem.updateAcc env dt w st).w o := by
      intro o ho
      exact (fitnessOfD_congr o
        (getEntity_foldl_remove_not_mem _ _ o (hsepid o ho))).2
    rw [List.map_congr_left hcongr]
    exact a8

/-- C3 witness: on the spec's scenario the hypotheses hold and one update
removes the food, reports one food eaten, and advances the organism's ledger
to `FOOD_VALUE` fitness and one food. -/
theorem c3_witness :
    (FoodSystem.update envId (1/60) c3w ⟨0, 0⟩).1.getEntity 3 = none ∧
    (FoodSystem.update envId (1/60) c3w ⟨0, 0⟩).2.2 = 1 ∧
    EvolutionSystem.fitnessOfD (FoodSystem.update envId (1/60) c3w ⟨0, 0⟩).1 1 =
      FOOD_VALUE ∧
    foodEatenOfD (FoodSystem.update envId (1/60) c3w ⟨0, 0⟩).1 1 = 1 := by
  obtain ⟨h1, h2, h3, h4, h5⟩ := c3_food_consumption envId (1/60) c3w ⟨0, 0⟩
    (by decide) (by decide) (by show (0 : ℚ) + 1/60 ≤ 1; norm_num)
  have heat : eatenPred envId c3w (⟨0, 0⟩ : Vec2) = true := by
    norm_num [eatenPred, orgEats, FoodSystem.jointNear,
      EvolutionSystem.jointIdsOfD, World.organismIds, World.idsWith,
      World.getEntity, c3w, c3org, c3joint, c3food, Vec2.distanceTo, envId,
      EATING_DISTANCE, List.find?]
  have hremoved : (FoodSystem.update envId (1/60) c3w ⟨0, 0⟩).1.getEntity 3 =
      none := (h1 c3food (by simp [c3w]) rfl).mpr heat
  have hfs : FoodSystem.foodSnapshot c3w = [(3, (⟨0, 0⟩ : Vec2))] := rfl
  have hn : (FoodSystem.update envId (1/60) c3w ⟨0, 0⟩).2.2 = 1 := by
    rw [h2, hfs]
    simp [heat]
  have horg : c3w.organismIds = [1] := rfl
  rw [horg] at h5
  simp only [List.map_cons, List.map_nil, List.sum_cons, List.sum_nil,
    Nat.add_zero] at h5
  rw [show foodEatenOfD c3w 1 = 0 from rfl, hn] at h5
  obtain ⟨k, hk1, hk2⟩ := h4 1 (by simp [horg])
  rw [show foodEatenOfD c3w 1 = 0 from rfl] at hk2
  have hk : k = 1 := by omega
  subst hk
  rw [show EvolutionSystem.fitnessOfD c3w 1 = 0 from rfl] at hk1
  refine ⟨hremoved, hn, ?_, by omega⟩
  rw [hk1]
  norm_num

/-! ### EntityFactory lemmas (C4, C10, C1) -/

/-- A lookup that hits in the prefix is unchanged by appending entities. -/
theorem getEntity_append_left {w : World} {tail : List Entity} {k : ℕ}
    {e : Entity} (h : w.entities.find? (fun e => e.id = k) = some e)
    (n : ℕ) :
    (⟨w.entities ++ tail, n⟩ : World).getEntity k = some e := by
  unfold World.getEntity
  rw [List.find?_append, h]
  rfl

/-- `createJoint` on a world whose ids are below the allocator: it appends
exactly one joint entity carrying the fresh id. -/
theorem createJoint_eq (w : World) (x y : ℚ) (oid : ℕ) (anch : Bool)
    (hb : ∀ e ∈ w.entities, e.id < w.nextEntityId) :
    EntityFactory.createJoint w x y oid anch =
      (w.nextEntityId,
        ⟨w.entities ++ [jointEntity w.nextEntityId x y oid anch],
          w.nextEntityId + 1⟩) := by
  unfold EntityFactory.createJoint World.createEntity World.modifyEntity
  simp only
  congr 1
  congr 1
  rw [List.map_append]
  congr 1
  · conv_rhs => rw [← List.map_id' w.entities]
    refine List.map_congr_left (fun e he => ?_)
    rw [if_neg (Nat.ne_of_lt (hb e he))]
  · simp [jointEntity]

/-- The shape facts of one `createJoint` call. -/
theorem createJoint_spec (w : World) (x y : ℚ) (oid : ℕ) (anch : Bool)
    (hw : wfIds w) :
    (EntityFactory.createJoint w x y oid anch).1 = w.nextEntityId ∧
    (EntityFactory.createJoint w x y oid anch).2.entities =
      w.entities ++ [jointEntity w.nextEntityId x y oid anch] ∧
    (EntityFactory.createJoint w x y oid anch).2.nextEntityId =
      w.nextEntityId + 1 := by
  rw [createJoint_eq w x y oid anch hw.2]
  exact ⟨rfl, rfl, rfl⟩

/-- Appending one fresh entity preserves `wfIds`. -/
theorem wfIds_append (w : World) (e : Entity) (he : e.id = w.nextEntityId)
    (hw : wfIds w) :
    wfIds ⟨w.entities ++ [e], w.nextEntityId + 1⟩ := by
  constructor
  · rw [List.map_append, List.nodup_append]
    refine ⟨hw.1, List.nodup_singleton _, ?_⟩
    intro a ha hb'
    simp only [List.map_cons, List.map_nil, List.mem_singleton] at hb'
    obtain ⟨e', he', rfl⟩ := List.mem_map.mp ha
    have h1 := hw.2 e' he'
    rw [hb', he] at h1
    exact lt_irrefl _ h1
  · intro e' he'
    rcases List.mem_append.mp he' with h | h
    · exact Nat.lt_succ_of_lt (hw.2 e' h)
    · rw [List.mem_singleton.mp h, he]
      show w.nextEntityId < w.nextEntityId + 1
      omega

/-- Appending a fresh joint entity preserves `connBounded`. -/
theorem connBounded_append_joint (w : World) (i : ℕ) (x y : ℚ) (oid : ℕ)
    (anch : Bool) (hw : connBounded w) :
    connBounded ⟨w.entities ++ [jointEntity i x y oid anch],
      w.nextEntityId + 1⟩ := by
  intro e he j hj c hc
  rcases List.mem_append.mp he with h | h
  · exact Nat.lt_succ_of_lt (hw e h j hj c hc)
  · rw [List.mem_singleton.mp h] at hj
    simp only [jointEntity, Option.some.injEq] at hj
    rw [← hj] at hc
    simp at hc

/-- Appending a fresh joint entity preserves symmetry (the fresh joint has no
connections, and no existing joint can list an id at the allocator). -/
theorem symWorld_append_joint (w : World) (x y : ℚ) (oid : ℕ) (anch : Bool)
    (hcb : connBounded w) (hs : symWorld w) :
    symWorld ⟨w.entities ++ [jointEntity w.nextEntityId x y oid anch],
      w.nextEntityId + 1⟩ := by
  intro a ha ja hja b hb jb hjb
  rcases List.mem_append.mp ha with ha' | ha' <;>
    rcases List.mem_append.mp hb with hb' | hb'
  · exact hs a ha' ja hja b hb' jb hjb
  · rw [List.mem_singleton.mp hb'] at hjb ⊢
    simp only [jointEntity, Option.some.injEq] at hjb
    rw [← hjb]
    simp only [jointEntity]
    constructor
    · simp only [List.not_mem_nil, iff_false]
      intro hmem
      exact absurd (hcb a ha' ja hja _ hmem) (by omega)
    · intro hmem
      exact absurd (hcb a ha' ja hja _ hmem) (by omega)
  · rw [List.mem_singleton.mp ha'] at hja ⊢
    simp only [jointEntity, Option.some.injEq] at hja
    rw [← hja]
    simp only [jointEntity]
    constructor
    · simp only [List.not_mem_nil, false_iff]
      intro hmem
      exact absurd (hcb b hb' jb hjb _ hmem) (by omega)
    · intro hmem
      simp at hmem
  · rw [List.mem_singleton.mp ha'] at hja
    rw [List.mem_singleton.mp hb'] at hjb
    simp only [jointEntity, Option.some.injEq] at hja hjb
    rw [← hja, ← hjb]
    simp

/-- `createJoint` preserves the factory invariant. -/
theorem wfWorld_createJoint (w : World) (x y : ℚ) (oid : ℕ) (anch : Bool)
    (hw : wfWorld w) :
    wfWorld (EntityFactory.createJoint w x y oid anch).2 := by
  rw [createJoint_eq w x y oid anch hw.1.2]
  exact ⟨wfIds_append w _ rfl hw.1, connBounded_append_joint w _ x y oid anch hw.2.1,
    symWorld_append_joint w x y oid anch hw.2.1 hw.2.2⟩

/-- Appending entities preserves existing connection edges. -/
theorem connectedIn_append (w : World) (tail : List Entity) (n a b : ℕ)
    (h : connectedIn w a b) :
    connectedIn ⟨w.entities ++ tail, n⟩ a b := by
  obtain ⟨e, he, h1, j, h2, h3⟩ := h
  exact ⟨e, List.mem_append.mpr (Or.inl he), h1, j, h2, h3⟩

/-- Looking up the key just set returns the new value. -/
theorem mapGet_mapSet_eq : ∀ (m : List (ℕ × ℚ)) (k : ℕ) (v : ℚ),
    mapGet (mapSet m k v) k = some v
  | [], k, v => by simp [mapSet, mapGet]
  | (k', v') :: rest, k, v => by
    by_cases h : k' = k
    · simp [mapSet, mapGet, h]
    · simp only [mapSet, mapGet, if_neg h]
      exact mapGet_mapSet_eq rest k v

/-- Setting one key leaves other keys' lookups unchanged. -/
theorem mapGet_mapSet_ne : ∀ (m : List (ℕ × ℚ)) (k k' : ℕ) (v : ℚ),
    k' ≠ k → mapGet (mapSet m k v) k' = mapGet m k'
  | [], k, k', v, h => by simp [mapSet, mapGet, h.symm]
  | (k0, v0) :: rest, k, k', v, h => by
    by_cases h0 : k0 = k
    · subst h0
      simp [mapSet, mapGet, h.symm]
    · simp only [mapSet, if_neg h0, mapGet]
      by_cases h1 : k0 = k'
      · simp [h1]
      · rw [if_neg h1, if_neg h1]
        exact mapGet_mapSet_ne rest k k' v h

/-- `connectJoints` in range: the result is the entity-wise `connMap`. -/
theorem connectJoints_eq (env : MathEnv) (w : World) (a b : ℕ)
    {ea eb : Entity} {ja jb : JointComponent} {pa pb : PositionComponent}
    (hne : a ≠ b)
    (hea : w.getEntity a = some ea) (heb : w.getEntity b = some eb)
    (hja : ea.joint = some ja) (hjb : eb.joint = some jb)
    (hpa : ea.position = some pa) (hpb : eb.position = some pb)
    (hd : ¬ Vec2.distanceTo env pa.position pb.position > 50 * (3/2)) :
    EntityFactory.connectJoints env w a b =
      some ⟨w.entities.map
          (connMap a b (connClamp env pa.position pb.position) ja jb),
        w.nextEntityId⟩ := by
  unfold EntityFactory.connectJoints
  rw [hea, heb]
  simp only [Option.bind_eq_bind, Option.some_bind]
  rw [hja, hjb, hpa, hpb]
  simp only [Option.some_bind]
  rw [if_neg hd]
  unfold World.modifyEntity
  simp only [Option.some.injEq, World.mk.injEq]
  refine ⟨?_, trivial⟩
  simp only [List.map_map]
  refine List.map_congr_left (fun e _ => ?_)
  simp only [Function.comp_apply, connMap, connUpd, connClamp]
  by_cases h1 : e.id = a
  · have hba : ¬ e.id = b := fun hh => hne (h1.symm.trans hh)
    simp only [if_pos h1, if_neg hba]
  · by_cases h2 : e.id = b
    · simp only [if_neg h1, if_pos h2]
    · simp only [if_neg h1, if_neg h2]

/-- `find?` by id commutes with an id-preserving map. -/
theorem find?_id_map (f : Entity → Entity) (hf : ∀ e, (f e).id = e.id) (k : ℕ) :
    ∀ l : List Entity, (l.map f).find? (fun e => e.id = k) =
      (l.find? (fun e => e.id = k)).map f
  | [] => rfl
  | e :: l => by
    by_cases h : e.id = k
    · rw [List.map_cons, List.find?_cons_of_pos _ (by simpa [hf] using h),
        List.find?_cons_of_pos _ (by simpa using h)]
      rfl
    · rw [List.map_cons, List.find?_cons_of_neg _ (by simpa [hf] using h),
        List.find?_cons_of_neg _ (by simpa using h)]
      exact find?_id_map f hf k l

/-- Lookup in a world whose entities were rewritten by an id-preserving
map. -/
theorem getEntity_map_world (w : World) (n : ℕ) (f : Entity → Entity)
    (hf : ∀ e, (f e).id = e.id) (k : ℕ) :
    (⟨w.entities.map f, n⟩ : World).getEntity k = (w.getEntity k).map f :=
  find?_id_map f hf k w.entities

/-- A pointwise-related map gives a `Forall₂`-related entity list. -/
theorem forall₂_map_self {R : Entity → Entity → Prop} (g : Entity → Entity)
    (hg : ∀ e, R e (g e)) : ∀ l : List Entity, List.Forall₂ R l (l.map g)
  | [] => List.Forall₂.nil
  | e :: l => List.Forall₂.cons (hg e) (forall₂_map_self g hg l)

/-- `connMap` changes at most the joint component. -/
theorem connMap_jointOnly (a b : ℕ) (rl : ℚ) (ja jb : JointComponent)
    (e : Entity) : jointOnly e (connMap a b rl ja jb e) := by
  unfold connMap
  split_ifs <;> exact ⟨rfl, rfl, rfl, rfl, rfl, rfl, rfl, rfl, rfl⟩

/-- `connMap` preserves ids. -/
theorem connMap_id (a b : ℕ) (rl : ℚ) (ja jb : JointComponent) (e : Entity) :
    (connMap a b rl ja jb e).id = e.id :=
  (connMap_jointOnly a b rl ja jb e).1

/-- The value trichotomy of `connMap` over a duplicate-free world. -/
theorem connMap_cases (w : World) (a b : ℕ) (rl : ℚ)
    (ja jb : JointComponent) {ea eb : Entity}
    (hnd : (w.entities.map (·.id)).Nodup) (hne : a ≠ b)
    (hea : w.getEntity a = some ea) (heb : w.getEntity b = some eb) :
    ∀ e ∈ w.entities,
      (e = eb ∧ connMap a b rl ja jb e =
        { eb with joint := some (connUpd a rl jb) }) ∨
      (e = ea ∧ connMap a b rl ja jb e =
        { ea with joint := some (connUpd b rl ja) }) ∨
      (e.id ≠ a ∧ e.id ≠ b ∧ connMap a b rl ja jb e = e) := by
  have hea_mem : ea ∈ w.entities := List.mem_of_find?_eq_some hea
  have heb_mem : eb ∈ w.entities := List.mem_of_find?_eq_some heb
  have hea_id : ea.id = a := by simpa using List.find?_some hea
  have heb_id : eb.id = b := by simpa using List.find?_some heb
  intro e he
  by_cases h2 : e.id = b
  · have he' : e = eb :=
      entity_eq_of_id_eq w.entities hnd e he eb heb_mem (h2.trans heb_id.symm)
    subst he'
    exact Or.inl ⟨rfl, by rw [connMap, if_pos h2]⟩
  · by_cases h1 : e.id = a
    · have he' : e = ea :=
        entity_eq_of_id_eq w.entities hnd e he ea hea_mem (h1.trans hea_id.symm)
      subst he'
      exact Or.inr (Or.inl ⟨rfl, by rw [connMap, if_neg h2, if_pos h1]⟩)
    · exact Or.inr (Or.inr ⟨h1, h2, by rw [connMap, if_neg h2, if_neg h1]⟩)

/-- `connectJoints`' entity map preserves symmetry: both sides gain each
other with one shared rest length. -/
theorem symWorld_connMap (w : World) (a b : ℕ) (rl : ℚ)
    (ja jb : JointComponent) {ea eb : Entity}
    (hnd : (w.entities.map (·.id)).Nodup) (hne : a ≠ b)
    (hea : w.getEntity a = some ea) (heb : w.getEntity b = some eb)
    (hja : ea.joint = some ja) (hjb : eb.joint = some jb)
    (hs : symWorld w) :
    symWorld ⟨w.entities.map (connMap a b rl ja jb), w.nextEntityId⟩ := by
  have hea_mem : ea ∈ w.entities := List.mem_of_find?_eq_some hea
  have heb_mem : eb ∈ w.entities := List.mem_of_find?_eq_some heb
  have hea_id : ea.id = a := by simpa using List.find?_some hea
  have heb_id : eb.id = b := by simpa using List.find?_some heb
  have key := connMap_cases w a b rl ja jb hnd hne hea heb
  intro x hx jx hjx y hy jy hjy
  obtain ⟨e1, he1, rfl⟩ := List.mem_map.mp hx
  obtain ⟨e2, he2, rfl⟩ := List.mem_map.mp hy
  rcases key e1 he1 with ⟨rfl, hv1⟩ | ⟨rfl, hv1⟩ | ⟨hna1, hnb1, hv1⟩ <;>
    rcases key e2 he2 with ⟨rfl, hv2⟩ | ⟨rfl, hv2⟩ | ⟨hna2, hnb2, hv2⟩
  · -- b-side, b-side
    rw [hv1] at hjx
    rw [hv2] at hjy
    dsimp only at hjx hjy
    obtain rfl := Option.some_injective _ hjx
    obtain rfl := Option.some_injective _ hjy
    simp only [hv1]
    exact ⟨trivial, fun _ => trivial⟩
  · -- b-side, a-side
    rw [hv1] at hjx
    rw [hv2] at hjy
    dsimp only at hjx hjy
    obtain rfl := Option.some_injective _ hjx
    obtain rfl := Option.some_injective _ hjy
    simp only [hv1, hv2]
    constructor
    · simp [connUpd, hea_id, heb_id]
    · intro _
      dsimp only [connUpd]
      rw [hea_id, heb_id, mapGet_mapSet_eq, mapGet_mapSet_eq]
  · -- b-side, untouched
    rw [hv1] at hjx
    rw [hv2] at hjy
    dsimp only at hjx
    obtain rfl := Option.some_injective _ hjx
    obtain ⟨o1, o2⟩ := hs e1 heb_mem jb hjb e2 he2 jy hjy
    simp only [hv1, hv2]
    constructor
    · simp only [connUpd, List.mem_append, List.mem_singleton]
      constructor
      · rintro (h | h)
        · exact o1.mp h
        · exact absurd h hna2
      · intro h
        exact Or.inl (o1.mpr h)
    · intro hmem
      simp only [connUpd, List.mem_append, List.mem_singleton] at hmem
      dsimp only [connUpd]
      rw [mapGet_mapSet_ne jb.restLengths a e2.id rl hna2]
      rcases hmem with h | h
      · exact o2 h
      · exact absurd h hna2
  · -- a-side, b-side
    rw [hv1] at hjx
    rw [hv2] at hjy
    dsimp only at hjx hjy
    obtain rfl := Option.some_injective _ hjx
    obtain rfl := Option.some_injective _ hjy
    simp only [hv1, hv2]
    constructor
    · simp [connUpd, hea_id, heb_id]
    · intro _
      dsimp only [connUpd]
      rw [hea_id, heb_id, mapGet_mapSet_eq, mapGet_mapSet_eq]
  · -- a-side, a-side
    rw [hv1] at hjx
    rw [hv2] at hjy
    dsimp only at hjx hjy
    obtain rfl := Option.some_injective _ hjx
    obtain rfl := Option.some_injective _ hjy
    simp only [hv1]
    exact ⟨trivial, fun _ => trivial⟩
  · -- a-side, untouched
    rw [hv1] at hjx
    rw [hv2] at hjy
    dsimp only at hjx
    obtain rfl := Option.some_injective _ hjx
    obtain ⟨o1, o2⟩ := hs e1 hea_mem ja hja e2 he2 jy hjy
    simp only [hv1, hv2]
    constructor
    · simp only [connUpd, List.mem_append, List.mem_singleton]
      constructor
      · rintro (h | h)
        · exact o1.mp h
        · exact absurd h hnb2
      · intro h
        exact Or.inl (o1.mpr h)
    · intro hmem
      simp only [connUpd, List.mem_append, List.mem_singleton] at hmem
      dsimp only [connUpd]
      rw [mapGet_mapSet_ne ja.restLengths b e2.id rl hnb2]
      rcases hmem with h | h
      · exact o2 h
      · exact absurd h hnb2
  · -- untouched, b-side
    rw [hv1] at hjx
    rw [hv2] at hjy
    dsimp only at hjy
    obtain rfl := Option.some_injective _ hjy
    obtain ⟨o1, o2⟩ := hs e1 he1 jx hjx e2 heb_mem jb hjb
    simp only [hv1, hv2]
    constructor
    · simp only [connUpd, List.mem_append, List.mem_singleton]
      constructor
      · intro h
        exact Or.inl (o1.mp h)
      · rintro (h | h)
        · exact o1.mpr h
        · exact absurd h hna1
    · intro hmem
      dsimp only [connUpd]
      rw [mapGet_mapSet_ne jb.restLengths a e1.id rl hna1]
      exact o2 hmem
  · -- untouched, a-side
    rw [hv1] at hjx
    rw [hv2] at hjy
    dsimp only at hjy
    obtain rfl := Option.some_injective _ hjy
    obtain ⟨o1, o2⟩ := hs e1 he1 jx hjx e2 hea_mem ja hja
    simp only [hv1, hv2]
    constructor
    · simp only [connUpd, List.mem_append, List.mem_singleton]
      constructor
      · intro h
        exact Or.inl (o1.mp h)
      · rintro (h | h)
        · exact o1.mpr h
        · exact absurd h hnb1
    · intro hmem
      dsimp only [connUpd]
      rw [mapGet_mapSet_ne ja.restLengths b e1.id rl hnb1]
      exact o2 hmem
  · -- untouched, untouched
    rw [hv1] at hjx
    rw [hv2] at hjy
    simp only [hv1, hv2]
    exact hs e1 he1 jx hjx e2 he2 jy hjy

/-- An id-preserving entity map keeps `wfIds` (allocator untouched). -/
theorem wfIds_map (w : World) (f : Entity → Entity)
    (hf : ∀ e, (f e).id = e.id) (hw : wfIds w) :
    wfIds ⟨w.entities.map f, w.nextEntityId⟩ := by
  constructor
  · have : (w.entities.map f).map (·.id) = w.entities.map (·.id) := by
      rw [List.map_map]
      exact List.map_congr_left (fun e _ => hf e)
    rw [show (⟨w.entities.map f, w.nextEntityId⟩ : World).entities =
      w.entities.map f from rfl, this]
    exact hw.1
  · intro e he
    obtain ⟨e', he', rfl⟩ := List.mem_map.mp he
    rw [hf e']
    exact hw.2 e' he'

/-- `connectJoints`' entity map keeps every connection id bounded. -/
theorem connBounded_connMap (w : World) (a b : ℕ) (rl : ℚ)
    (ja jb : JointComponent) {ea eb : Entity}
    (hnd : (w.entities.map (·.id)).Nodup) (hne : a ≠ b)
    (hea : w.getEntity a = some ea) (heb : w.getEntity b = some eb)
    (hja : ea.joint = some ja) (hjb : eb.joint = some jb)
    (hw : wfIds w) (hcb : connBounded w) :
    connBounded ⟨w.entities.map (connMap a b rl ja jb), w.nextEntityId⟩ := by
  have hea_mem : ea ∈ w.entities := List.mem_of_find?_eq_some hea
  have heb_mem : eb ∈ w.entities := List.mem_of_find?_eq_some heb
  have hba : a < w.nextEntityId := by
    have := hw.2 ea hea_mem
    rwa [show ea.id = a from by simpa using List.find?_some hea] at this
  have hbb : b < w.nextEntityId := by
    have := hw.2 eb heb_mem
    rwa [show eb.id = b from by simpa using List.find?_some heb] at this
  have key := connMap_cases w a b rl ja jb hnd hne hea heb
  intro e he j hj c hc
  obtain ⟨e', he', rfl⟩ := List.mem_map.mp he
  rcases key e' he' with ⟨rfl, hv⟩ | ⟨rfl, hv⟩ | ⟨_, _, hv⟩
  · rw [hv] at hj
    dsimp only at hj
    obtain rfl := Option.some_injective _ hj
    simp only [connUpd, List.mem_append, List.mem_singleton] at hc
    rcases hc with h | rfl
    · exact hcb e' he' jb hjb c h
    · exact hba
  · rw [hv] at hj
    dsimp only at hj
    obtain rfl := Option.some_injective _ hj
    simp only [connUpd, List.mem_append, List.mem_singleton] at hc
    rcases hc with h | rfl
    · exact hcb e' he' ja hja c h
    · exact hbb
  · rw [hv] at hj
    exact hcb e' he' j hj c hc

/-- After `connectJoints`' entity map, the two joints list each other. -/
theorem connectedIn_connMap_new (w : World) (a b : ℕ) (rl : ℚ)
    (ja jb : JointComponent) {ea eb : Entity}
    (hnd : (w.entities.map (·.id)).Nodup) (hne : a ≠ b)
    (hea : w.getEntity a = some ea) (heb : w.getEntity b = some eb) :
    connectedIn ⟨w.entities.map (connMap a b rl ja jb), w.nextEntityId⟩ a b ∧
    connectedIn ⟨w.entities.map (connMap a b rl ja jb), w.nextEntityId⟩ b a := by
  have hea_mem : ea ∈ w.entities := List.mem_of_find?_eq_some hea
  have heb_mem : eb ∈ w.entities := List.mem_of_find?_eq_some heb
  have hea_id : ea.id = a := by simpa using List.find?_some hea
  have heb_id : eb.id = b := by simpa using List.find?_some heb
  have key := connMap_cases w a b rl ja jb hnd hne hea heb
  constructor
  · rcases key ea hea_mem with ⟨heq, _⟩ | ⟨_, hv⟩ | ⟨hna, _, _⟩
    · have hab : a = b := by rw [← hea_id, heq, heb_id]
      exact absurd hab hne
    · refine ⟨connMap a b rl ja jb ea, List.mem_map.mpr ⟨ea, hea_mem, rfl⟩,
        ?_, connUpd b rl ja, ?_, ?_⟩
      · rw [hv]
        exact hea_id
      · rw [hv]
      · simp [connUpd]
    · exact absurd hea_id hna
  · rcases key eb heb_mem with ⟨_, hv⟩ | ⟨heq, _⟩ | ⟨_, hnb, _⟩
    · refine ⟨connMap a b rl ja jb eb, List.mem_map.mpr ⟨eb, heb_mem, rfl⟩,
        ?_, connUpd a rl jb, ?_, ?_⟩
      · rw [hv]
        exact heb_id
      · rw [hv]
      · simp [connUpd]
    · have hab : b = a := by rw [← heb_id, heq, hea_id]
      exact absurd hab (Ne.symm hne)
    · exact absurd heb_id hnb

/-- `connectJoints`' entity map preserves existing connection edges. -/
theorem connectedIn_connMap_mono (w : World) (a b : ℕ) (rl : ℚ)
    (ja jb : JointComponent) {ea eb : Entity}
    (hnd : (w.entities.map (·.id)).Nodup) (hne : a ≠ b)
    (hea : w.getEntity a = some ea) (heb : w.getEntity b = some eb)
    (hja : ea.joint = some ja) (hjb : eb.joint = some jb)
    (x y : ℕ) (h : connectedIn w x y) :
    connectedIn ⟨w.entities.map (connMap a b rl ja jb), w.nextEntityId⟩ x y := by
  have key := connMap_cases w a b rl ja jb hnd hne hea heb
  obtain ⟨e, he, hid, j, hj, hy⟩ := h
  refine ⟨connMap a b rl ja jb e, List.mem_map.mpr ⟨e, he, rfl⟩,
    (connMap_id a b rl ja jb e).trans hid, ?_⟩
  rcases key e he with ⟨rfl, hv⟩ | ⟨rfl, hv⟩ | ⟨_, _, hv⟩
  · rw [hjb] at hj
    obtain rfl := Option.some_injective _ hj
    refine ⟨connUpd a rl jb, by rw [hv], ?_⟩
    simp only [connUpd, List.mem_append]
    exact Or.inl hy
  · rw [hja] at hj
    obtain rfl := Option.some_injective _ hj
    refine ⟨connUpd b rl ja, by rw [hv], ?_⟩
    simp only [connUpd, List.mem_append]
    exact Or.inl hy
  · exact ⟨j, by rw [hv]; exact hj, hy⟩

/-- The full effect of one in-range `connectJoints` call: it succeeds, keeps
the invariant, changes no id, position or non-joint component, connects the
two joints both ways, and preserves existing edges and joint nodes. -/
theorem connectJoints_spec (env : MathEnv) (w : World) (a b : ℕ) (pa pb : Vec2)
    (hw : wfWorld w) (hne : a ≠ b)
    (ha : jointNode w a) (hb : jointNode w b)
    (hpa : posOf w a = some pa) (hpb : posOf w b = some pb)
    (hdist : Vec2.distanceTo env pa pb ≤ 75) :
    ∃ w', EntityFactory.connectJoints env w a b = some w' ∧
      wfWorld w' ∧
      w'.nextEntityId = w.nextEntityId ∧
      List.Forall₂ jointOnly w.entities w'.entities ∧
      connectedIn w' a b ∧ connectedIn w' b a ∧
      (∀ x y, connectedIn w x y → connectedIn w' x y) ∧
      (∀ i, jointNode w i → jointNode w' i) ∧
      (∀ i, posOf w' i = posOf w i) ∧
      (∀ i, i ≠ a → i ≠ b → w'.getEntity i = w.getEntity i) := by
  obtain ⟨ea, hea, ⟨ja, hja⟩, pac, hpac⟩ := ha
  obtain ⟨eb, heb, ⟨jb, hjb⟩, pbc, hpbc⟩ := hb
  have hpa' : pac.position = pa := by
    rw [posOf, hea, Option.some_bind, hpac] at hpa
    simpa using hpa
  have hpb' : pbc.position = pb := by
    rw [posOf, heb, Option.some_bind, hpbc] at hpb
    simpa using hpb
  have hd : ¬ Vec2.distanceTo env pac.position pbc.position > 50 * (3/2) := by
    rw [hpa', hpb']
    have h75 : (50 * (3/2) : ℚ) = 75 := by norm_num
    rw [h75]
    exact not_lt.mpr hdist
  have heq := connectJoints_eq env w a b hne hea heb hja hjb hpac hpbc hd
  set rl := connClamp env pac.position pbc.position with hrl
  refine ⟨_, heq, ?_, rfl, ?_, ?_, ?_, ?_, ?_, ?_, ?_⟩
  · exact ⟨wfIds_map w _ (connMap_id a b rl ja jb) hw.1,
      connBounded_connMap w a b rl ja jb hw.1.1 hne hea heb hja hjb hw.1 hw.2.1,
      symWorld_connMap w a b rl ja jb hw.1.1 hne hea heb hja hjb hw.2.2⟩
  · exact forall₂_map_self _ (connMap_jointOnly a b rl ja jb) w.entities
  · exact (connectedIn_connMap_new w a b rl ja jb hw.1.1 hne hea heb).1
  · exact (connectedIn_connMap_new w a b rl ja jb hw.1.1 hne hea heb).2
  · exact connectedIn_connMap_mono w a b rl ja jb hw.1.1 hne hea heb hja hjb
  · intro i hi
    obtain ⟨e, he, ⟨j, hj⟩, p, hp⟩ := hi
    refine ⟨connMap a b rl ja jb e, ?_, ?_, ?_⟩
    · rw [show (⟨w.entities.map (connMap a b rl ja jb), w.nextEntityId⟩ :
        World).getEntity i = (w.getEntity i).map (connMap a b rl ja jb) from
        getEntity_map_world w _ _ (connMap_id a b rl ja jb) i, he]
      rfl
    · rw [connMap]
      split_ifs
      · exact ⟨connUpd a rl jb, rfl⟩
      · exact ⟨connUpd b rl ja, rfl⟩
      · exact ⟨j, hj⟩
    · refine ⟨p, ?_⟩
      rw [show (connMap a b rl ja jb e).position = e.position from
        (connMap_jointOnly a b rl ja jb e).2.1]
      exact hp
  · intro i
    rw [posOf, posOf,
      getEntity_map_world w _ _ (connMap_id a b rl ja jb) i]
    cases hgi : w.getEntity i with
    | none => rfl
    | some e =>
      simp [(connMap_jointOnly a b rl ja jb e).2.1]
  · intro i hia hib
    rw [getEntity_map_world w _ _ (connMap_id a b rl ja jb) i]
    cases hgi : w.getEntity i with
    | none => rfl
    | some e =>
      have hid : e.id = i := by simpa using List.find?_some hgi
      have hmap : connMap a b rl ja jb e = e := by
        rw [connMap, if_neg (hid ▸ hib), if_neg (hid ▸ hia)]
      simp [hmap]

/-- Under the oracle bounds, a squared distance within `5625` keeps
`distanceTo` within the `connectJoints` threshold. -/
theorem distanceTo_le_75 (env : MathEnv) (henv : envBounds env) (pa pb : Vec2)
    (h : (pa.x - pb.x) ^ 2 + (pa.y - pb.y) ^ 2 ≤ 5625) :
    Vec2.distanceTo env pa pb ≤ 75 :=
  (henv.1 _ (by positivity) h).2

/-- Two points within the 25-box of a centre are within squared distance
`5625`. -/
theorem box_sq_le (x y : ℚ) (pa pb : Vec2)
    (ha1 : |pa.x - x| ≤ 25) (ha2 : |pa.y - y| ≤ 25)
    (hb1 : |pb.x - x| ≤ 25) (hb2 : |pb.y - y| ≤ 25) :
    (pa.x - pb.x) ^ 2 + (pa.y - pb.y) ^ 2 ≤ 5625 := by
  have key : ∀ u v : ℚ, |u| ≤ 25 → |v| ≤ 25 → |u - v| ≤ 50 := by
    intro u v hu hv
    calc |u - v| = |u + -v| := by rw [sub_eq_add_neg]
    _ ≤ |u| + |(-v)| := abs_add _ _
    _ = |u| + |v| := by rw [abs_neg]
    _ ≤ 50 := by linarith
  have h1 : |pa.x - pb.x| ≤ 50 := by
    have heq : pa.x - pb.x = (pa.x - x) - (pb.x - x) := by ring
    rw [heq]
    exact key _ _ ha1 hb1
  have h2 : |pa.y - pb.y| ≤ 50 := by
    have heq : pa.y - pb.y = (pa.y - y) - (pb.y - y) := by ring
    rw [heq]
    exact key _ _ ha2 hb2
  have s1 : (pa.x - pb.x) ^ 2 ≤ 50 ^ 2 :=
    sq_le_sq' (by linarith [abs_le.mp h1]) (abs_le.mp h1).2
  have s2 : (pa.y - pb.y) ^ 2 ≤ 50 ^ 2 :=
    sq_le_sq' (by linarith [abs_le.mp h2]) (abs_le.mp h2).2
  nlinarith [s1, s2]

/-- `jointOnly`-related entity lists agree on the organism components. -/
theorem forall₂_jointOnly_organism : ∀ {l l' : List Entity},
    List.Forall₂ jointOnly l l' →
      l'.map (·.organism) = l.map (·.organism) ∧
      l'.map (·.food) = l.map (·.food)
  | _, _, List.Forall₂.nil => ⟨rfl, rfl⟩
  | _, _, List.Forall₂.cons hab h => by
    obtain ⟨h1, h2⟩ := forall₂_jointOnly_organism h
    simp only [List.map_cons, h1, h2, hab.2.2.2.2.1, hab.2.2.2.2.2.2.2.1,
      List.cons.injEq, and_self, and_true]

/-- The facts of one `createJoint` call on a well-formed world. -/
theorem createJoint_node (w : World) (x y : ℚ) (oid : ℕ) (anch : Bool)
    (hw : wfWorld w) :
    (EntityFactory.createJoint w x y oid anch).1 = w.nextEntityId ∧
    (EntityFactory.createJoint w x y oid anch).2.nextEntityId =
      w.nextEntityId + 1 ∧
    wfWorld (EntityFactory.createJoint w x y oid anch).2 ∧
    (∀ i e, w.getEntity i = some e →
      (EntityFactory.createJoint w x y oid anch).2.getEntity i = some e) ∧
    jointNode (EntityFactory.createJoint w x y oid anch).2 w.nextEntityId ∧
    posOf (EntityFactory.createJoint w x y oid anch).2 w.nextEntityId =
      some ⟨x, y⟩ ∧
    (∀ a b, connectedIn w a b →
      connectedIn (EntityFactory.createJoint w x y oid anch).2 a b) ∧
    (EntityFactory.createJoint w x y oid anch).2.entities =
      w.entities ++ [jointEntity w.nextEntityId x y oid anch] := by
  rw [createJoint_eq w x y oid anch hw.1.2]
  have hfresh : (⟨w.entities ++ [jointEntity w.nextEntityId x y oid anch],
      w.nextEntityId + 1⟩ : World).getEntity w.nextEntityId =
      some (jointEntity w.nextEntityId x y oid anch) := by
    unfold World.getEntity
    rw [List.find?_append, List.find?_eq_none.mpr
      (fun e he => by simpa using Nat.ne_of_lt (hw.1.2 e he))]
    simp [jointEntity]
  refine ⟨rfl, rfl,
    ⟨wfIds_append w _ rfl hw.1,
      connBounded_append_joint w _ x y oid anch hw.2.1,
      symWorld_append_joint w x y oid anch hw.2.1 hw.2.2⟩,
    ?_, ?_, ?_, ?_, rfl⟩
  · intro i e he
    exact getEntity_append_left he _
  · exact ⟨jointEntity w.nextEntityId x y oid anch, hfresh,
      ⟨_, rfl⟩, ⟨_, rfl⟩⟩
  · rw [posOf, hfresh]
    rfl
  · intro a b h
    exact connectedIn_append w _ _ a b h

/-- Reachability is monotone in the edge relation. -/
theorem reachIn_mono {w w' : World}
    (h : ∀ x y, connectedIn w x y → connectedIn w' x y) :
    ∀ {a b : ℕ}, reachIn w a b → reachIn w' a b := by
  intro a b hr
  induction hr with
  | refl => exact Relation.ReflTransGen.refl
  | tail _ hstep ih =>
    refine Relation.ReflTransGen.tail ih ?_
    rcases hstep with hc | hc
    · exact Or.inl (h _ _ hc)
    · exact Or.inr (h _ _ hc)

/-- `jointNode` transports along lookup-preserving world steps. -/
theorem jointNode_of_stab {w w' : World}
    (hstab : ∀ i e, w.getEntity i = some e → w'.getEntity i = some e)
    {i : ℕ} (h : jointNode w i) : jointNode w' i := by
  obtain ⟨e, he, hj, hp⟩ := h
  exact ⟨e, hstab i e he, hj, hp⟩

/-- A recorded position transports along lookup-preserving world steps. -/
theorem posOf_of_stab {w w' : World}
    (hstab : ∀ i e, w.getEntity i = some e → w'.getEntity i = some e)
    {i : ℕ} {p : Vec2} (h : posOf w i = some p) : posOf w' i = some p := by
  rw [posOf] at h ⊢
  cases hgi : w.getEntity i with
  | none => rw [hgi] at h; simp at h
  | some e =>
    rw [hgi] at h
    rw [hstab i e hgi]
    exact h

/-- A successful lookup's id is below the allocator. -/
theorem getEntity_lt_next (w : World) (hw : wfIds w) (i : ℕ) (e : Entity)
    (h : w.getEntity i = some e) : i < w.nextEntityId := by
  have hmem : e ∈ w.entities := List.mem_of_find?_eq_some h
  have hid : e.id = i := by simpa using List.find?_some h
  rw [← hid]
  exact hw.2 e hmem

/-- A cosine offset keeps the x-coordinate within the 25-box. -/
theorem cos_offset_box (env : MathEnv) (henv : envBounds env) (x θ : ℚ) :
    |x + env.cos θ * 25 - x| ≤ 25 := by
  have h := henv.2.1 θ
  have heq : x + env.cos θ * 25 - x = env.cos θ * 25 := by ring
  rw [heq, abs_mul]
  have h25 : |(25 : ℚ)| = 25 := by norm_num
  rw [h25]
  nlinarith [abs_nonneg (env.cos θ)]

/-- A sine offset keeps the y-coordinate within the 25-box. -/
theorem sin_offset_box (env : MathEnv) (henv : envBounds env) (y θ : ℚ) :
    |y + env.sin θ * 25 - y| ≤ 25 := by
  have h := henv.2.2 θ
  have heq : y + env.sin θ * 25 - y = env.sin θ * 25 := by ring
  rw [heq, abs_mul]
  have h25 : |(25 : ℚ)| = 25 := by norm_num
  rw [h25]
  nlinarith [abs_nonneg (env.sin θ)]

/-- A point's distance to itself-shaped centre: the centre is in its own
box. -/
theorem centre_box (x : ℚ) : |x - x| ≤ 25 := by
  rw [sub_self, abs_zero]
  norm_num

/-- `createTriangleStructure` always succeeds under the oracle bounds and
yields three fresh pairwise-connected joints, leaving everything else
untouched. -/
theorem createTriangleStructure_spec (env : MathEnv) (w : World) (x y : ℚ)
    (orgId : ℕ) (hw : wfWorld w) (henv : envBounds env) :
    ∃ w', EntityFactory.createTriangleStructure env w x y orgId =
        some ([w.nextEntityId, w.nextEntityId + 1, w.nextEntityId + 2], w') ∧
      wfWorld w' ∧ w'.nextEntityId = w.nextEntityId + 3 ∧
      (∀ i e, w.getEntity i = some e → w'.getEntity i = some e) ∧
      (∀ i, i ∈ [w.nextEntityId, w.nextEntityId + 1, w.nextEntityId + 2] →
        jointNode w' i) ∧
      (connectedIn w' w.nextEntityId (w.nextEntityId + 1) ∧
        connectedIn w' (w.nextEntityId + 1) w.nextEntityId) ∧
      (connectedIn w' (w.nextEntityId + 1) (w.nextEntityId + 2) ∧
        connectedIn w' (w.nextEntityId + 2) (w.nextEntityId + 1)) ∧
      (connectedIn w' (w.nextEntityId + 2) w.nextEntityId ∧
        connectedIn w' w.nextEntityId (w.nextEntityId + 2)) ∧
      w'.entities.map (·.organism) =
        w.entities.map (·.organism) ++ [none, none, none] ∧
      w'.entities.map (·.food) =
        w.entities.map (·.food) ++ [none, none, none] := by
  unfold EntityFactory.createTriangleStructure
  dsimp only
  -- first joint
  generalize hJ1 : EntityFactory.createJoint w x y orgId false = P1
  obtain ⟨c, W1⟩ := P1
  have h1 := createJoint_node w x y orgId false hw
  rw [hJ1] at h1
  dsimp only at h1
  obtain ⟨hc, hW1next, hwf1, hstab1, hnode1, hpos1, hconn1, hents1⟩ := h1
  subst hc
  dsimp only
  -- second joint
  generalize hJ2 : EntityFactory.createJoint W1
    (x + env.cos (0 / 2 * env.pi * 2) * 25)
    (y + env.sin (0 / 2 * env.pi * 2) * 25) orgId false = P2
  obtain ⟨j1, W2⟩ := P2
  have h2 := createJoint_node W1 (x + env.cos (0 / 2 * env.pi * 2) * 25)
    (y + env.sin (0 / 2 * env.pi * 2) * 25) orgId false hwf1
  rw [hJ2] at h2
  dsimp only at h2
  obtain ⟨hj1, hW2next, hwf2, hstab2, hnode2, hpos2, hconn2, hents2⟩ := h2
  rw [hW1next] at hj1 hW2next hnode2 hpos2
  subst hj1
  dsimp only
  -- third joint
  generalize hJ3 : EntityFactory.createJoint W2
    (x + env.cos (1 / 2 * env.pi * 2) * 25)
    (y + env.sin (1 / 2 * env.pi * 2) * 25) orgId false = P3
  obtain ⟨j2, W3⟩ := P3
  have h3 := createJoint_node W2 (x + env.cos (1 / 2 * env.pi * 2) * 25)
    (y + env.sin (1 / 2 * env.pi * 2) * 25) orgId false hwf2
  rw [hJ3] at h3
  dsimp only at h3
  obtain ⟨hj2, hW3next, hwf3, hstab3, hnode3, hpos3, hconn3, hents3⟩ := h3
  rw [hW2next] at hj2 hW3next hnode3 hpos3
  subst hj2
  dsimp only
  -- positions and nodes in W3
  have hposc : posOf W3 w.nextEntityId = some ⟨x, y⟩ :=
    posOf_of_stab hstab3 (posOf_of_stab hstab2 hpos1)
  have hposj1 : posOf W3 (w.nextEntityId + 1) =
      some ⟨x + env.cos (0 / 2 * env.pi * 2) * 25,
        y + env.sin (0 / 2 * env.pi * 2) * 25⟩ :=
    posOf_of_stab hstab3 hpos2
  have hposj2 : posOf W3 (w.nextEntityId + 2) =
      some ⟨x + env.cos (1 / 2 * env.pi * 2) * 25,
        y + env.sin (1 / 2 * env.pi * 2) * 25⟩ := hpos3
  have hnodec : jointNode W3 w.nextEntityId :=
    jointNode_of_stab hstab3 (jointNode_of_stab hstab2 hnode1)
  have hnodej1 : jointNode W3 (w.nextEntityId + 1) :=
    jointNode_of_stab hstab3 hnode2
  have hnodej2 : jointNode W3 (w.nextEntityId + 2) := hnode3
  -- distances
  have hboxc1 : |(⟨x, y⟩ : Vec2).x - x| ≤ 25 := centre_box x
  have hboxc2 : |(⟨x, y⟩ : Vec2).y - y| ≤ 25 := centre_box y
  have hd01 : Vec2.distanceTo env (⟨x, y⟩ : Vec2)
      ⟨x + env.cos (0 / 2 * env.pi * 2) * 25,
        y + env.sin (0 / 2 * env.pi * 2) * 25⟩ ≤ 75 :=
    distanceTo_le_75 env henv _ _ (box_sq_le x y _ _ hboxc1 hboxc2
      (cos_offset_box env henv x _) (sin_offset_box env henv y _))
  have hd12 : Vec2.distanceTo env
      (⟨x + env.cos (0 / 2 * env.pi * 2) * 25,
        y + env.sin (0 / 2 * env.pi * 2) * 25⟩ : Vec2)
      ⟨x + env.cos (1 / 2 * env.pi * 2) * 25,
        y + env.sin (1 / 2 * env.pi * 2) * 25⟩ ≤ 75 :=
    distanceTo_le_75 env henv _ _ (box_sq_le x y _ _
      (cos_offset_box env henv x _) (sin_offset_box env henv y _)
      (cos_offset_box env henv x _) (sin_offset_box env henv y _))
  have hd20 : Vec2.distanceTo env
      (⟨x + env.cos (1 / 2 * env.pi * 2) * 25,
        y + env.sin (1 / 2 * env.pi * 2) * 25⟩ : Vec2) (⟨x, y⟩ : Vec2) ≤ 75 :=
    distanceTo_le_75 env henv _ _ (box_sq_le x y _ _
      (cos_offset_box env henv x _) (sin_offset_box env henv y _)
      hboxc1 hboxc2)
  -- first connect
  obtain ⟨w4, heq4, hwf4, hnext4, hF4, hcab4, hcba4, hmono4, hnodes4, hpos4,
    hne4⟩ := connectJoints_spec env W3 w.nextEntityId (w.nextEntityId + 1)
    ⟨x, y⟩ _ hwf3 (by omega) hnodec hnodej1 hposc hposj1 hd01
  rw [heq4]
  simp only [Option.bind_eq_bind, Option.some_bind]
  -- second connect
  obtain ⟨w5, heq5, hwf5, hnext5, hF5, hcab5, hcba5, hmono5, hnodes5, hpos5,
    hne5⟩ := connectJoints_spec env w4 (w.nextEntityId + 1) (w.nextEntityId + 2)
    _ _ hwf4 (by omega) (hnodes4 _ hnodej1) (hnodes4 _ hnodej2)
    ((hpos4 _).trans hposj1) ((hpos4 _).trans hposj2) hd12
  rw [heq5]
  simp only [Option.bind_eq_bind, Option.some_bind]
  -- third connect
  obtain ⟨w6, heq6, hwf6, hnext6, hF6, hcab6, hcba6, hmono6, hnodes6, hpos6,
    hne6⟩ := connectJoints_spec env w5 (w.nextEntityId + 2) w.nextEntityId
    _ _ hwf5 (by omega) (hnodes5 _ (hnodes4 _ hnodej2))
    (hnodes5 _ (hnodes4 _ hnodec))
    ((hpos5 _).trans ((hpos4 _).trans hposj2))
    ((hpos5 _).trans ((hpos4 _).trans hposc)) hd20
  rw [heq6]
  simp only [Option.bind_eq_bind, Option.some_bind]
  -- assemble
  have hstabW3 : ∀ i e, w.getEntity i = some e → W3.getEntity i = some e :=
    fun i e he => hstab3 i e (hstab2 i e (hstab1 i e he))
  have hstab456 : ∀ i, i < w.nextEntityId →
      ∀ e, W3.getEntity i = some e → w6.getEntity i = some e := by
    intro i hi e he
    rw [hne6 i (by omega) (by omega), hne5 i (by omega) (by omega),
      hne4 i (by omega) (by omega)]
    exact he
  refine ⟨w6, rfl, hwf6, ?_, ?_, ?_, ⟨?_, ?_⟩, ⟨?_, ?_⟩, ⟨?_, ?_⟩, ?_, ?_⟩
  · rw [hnext6, hnext5, hnext4]
    omega
  · intro i e he
    exact hstab456 i (getEntity_lt_next w hw.1 i e he) e (hstabW3 i e he)
  · intro i hi
    simp only [List.mem_cons, List.not_mem_nil, or_false] at hi
    rcases hi with rfl | rfl | rfl
    · exact hnodes6 _ (hnodes5 _ (hnodes4 _ hnodec))
    · exact hnodes6 _ (hnodes5 _ (hnodes4 _ hnodej1))
    · exact hnodes6 _ (hnodes5 _ (hnodes4 _ hnodej2))
  · exact hmono6 _ _ (hmono5 _ _ hcab4)
  · exact hmono6 _ _ (hmono5 _ _ hcba4)
  · exact hmono6 _ _ hcab5
  · exact hmono6 _ _ hcba5
  · exact hcab6
  · exact hcba6
  · rw [(forall₂_jointOnly_organism hF6).1, (forall₂_jointOnly_organism hF5).1,
      (forall₂_jointOnly_organism hF4).1, hents3, hents2, hents1]
    simp [jointEntity]
  · rw [(forall₂_jointOnly_organism hF6).2, (forall₂_jointOnly_organism hF5).2,
      (forall₂_jointOnly_organism hF4).2, hents3, hents2, hents1]
    simp [jointEntity]

/-- `range'` of one more element. -/
theorem range'_concat1 (s n : ℕ) :
    List.range' s (n + 1) = List.range' s n ++ [s + n] := by
  have := @List.range'_concat 1 s n
  simpa using this

/-- Element read of a `range'` under its length. -/
theorem range'_getD (s n i : ℕ) (h : i < n) :
    (List.range' s n).getD i 0 = s + i := by
  rw [List.getD_eq_getElem?_getD]
  have : (List.range' s n)[i]? = some (s + 1 * i) := List.getElem?_range' s 1 h
  rw [this]
  simp

/-- The star/triangle joint-creation fold: each pass appends one fresh joint
placed inside the 25-box of the centre, extending the builder invariant. -/
theorem starCreateFold (env : MathEnv) (w0 : World) (x y : ℚ) (orgId : ℕ)
    (henv : envBounds env) (θ : ℕ → ℚ) :
    ∀ (L : List ℕ) (acc : List ℕ × World) (k : ℕ),
      acc.1 = List.range' w0.nextEntityId k →
      starInv w0 x y w0.nextEntityId k acc.2 →
      ((L.foldl (fun acc i =>
          ((acc.1 ++ [(EntityFactory.createJoint acc.2
            (x + env.cos (θ i) * 25) (y + env.sin (θ i) * 25) orgId
            false).1]),
           (EntityFactory.createJoint acc.2 (x + env.cos (θ i) * 25)
            (y + env.sin (θ i) * 25) orgId false).2)) acc).1 =
        List.range' w0.nextEntityId (k + L.length)) ∧
      starInv w0 x y w0.nextEntityId (k + L.length)
        (L.foldl (fun acc i =>
          ((acc.1 ++ [(EntityFactory.createJoint acc.2
            (x + env.cos (θ i) * 25) (y + env.sin (θ i) * 25) orgId
            false).1]),
           (EntityFactory.createJoint acc.2 (x + env.cos (θ i) * 25)
            (y + env.sin (θ i) * 25) orgId false).2)) acc).2
  | [], acc, k, hids, hinv => ⟨hids, hinv⟩
  | i :: L, acc, k, hids, hinv => by
    obtain ⟨hwf, hnext, hstab, hnodes, hmapo, hmapf⟩ := hinv
    obtain ⟨hjid, hjnext, hjwf, hjstab, hjnode, hjpos, _, hjents⟩ :=
      createJoint_node acc.2 (x + env.cos (θ i) * 25)
        (y + env.sin (θ i) * 25) orgId false hwf
    rw [List.foldl_cons]
    have hids' : (acc.1 ++ [(EntityFactory.createJoint acc.2
        (x + env.cos (θ i) * 25) (y + env.sin (θ i) * 25) orgId false).1]) =
        List.range' w0.nextEntityId (k + 1) := by
      rw [hjid, hids, hnext, range'_concat1]
    have hinv' : starInv w0 x y w0.nextEntityId (k + 1)
        (EntityFactory.createJoint acc.2 (x + env.cos (θ i) * 25)
          (y + env.sin (θ i) * 25) orgId false).2 := by
      refine ⟨hjwf, by rw [hjnext, hnext]; omega, ?_, ?_, ?_, ?_⟩
      · intro i' e he
        exact hjstab i' e (hstab i' e he)
      · intro i' hlo hhi
        by_cases hi' : i' < w0.nextEntityId + k
        · obtain ⟨hn, p, hp, hb1, hb2⟩ := hnodes i' hlo hi'
          exact ⟨jointNode_of_stab hjstab hn, p, posOf_of_stab hjstab hp,
            hb1, hb2⟩
        · have : i' = acc.2.nextEntityId := by omega
          subst this
          refine ⟨hjnode, ⟨x + env.cos (θ i) * 25, y + env.sin (θ i) * 25⟩,
            hjpos, ?_, ?_⟩
          · exact cos_offset_box env henv x (θ i)
          · exact sin_offset_box env henv y (θ i)
      · rw [hjents, List.map_append, hmapo, List.map_singleton]
        rw [List.append_assoc]
        congr 1
        rw [show (List.replicate (k + 1) (none : Option OrganismComponent)) =
          List.replicate k none ++ [none] from List.replicate_succ' k none]
        rfl
      · rw [hjents, List.map_append, hmapf, List.map_singleton]
        rw [List.append_assoc]
        congr 1
        rw [show (List.replicate (k + 1) (none : Option FoodComponent)) =
          List.replicate k none ++ [none] from List.replicate_succ' k none]
        rfl
    have ih := starCreateFold env w0 x y orgId henv θ L
      ((acc.1 ++ [(EntityFactory.createJoint acc.2 (x + env.cos (θ i) * 25)
          (y + env.sin (θ i) * 25) orgId false).1]),
        (EntityFactory.createJoint acc.2 (x + env.cos (θ i) * 25)
          (y + env.sin (θ i) * 25) orgId false).2) (k + 1) hids' hinv'
    have harith : k + 1 + L.length = k + (i :: L).length := by
      simp only [List.length_cons]
      omega
    constructor
    · have h1 := ih.1
      rw [harith] at h1
      exact h1
    · have h2 := ih.2
      rw [harith] at h2
      exact h2

/-- A fold of `connectJoints` calls between joints of the builder's fresh
block: every call succeeds (the 25-box bounds the distances), the invariant
survives, old edges persist and each requested edge is present both ways. -/
theorem connectFoldM_spec (env : MathEnv) (henv : envBounds env)
    (w0 : World) (x y : ℚ) (lo m : ℕ) (g h : ℕ → ℕ)
    (hlo : ∀ i e, w0.getEntity i = some e → i < lo) :
    ∀ (L : List ℕ) (w : World), starInv w0 x y lo m w →
      (∀ i ∈ L, g i ≠ h i ∧ lo ≤ g i ∧ g i < lo + m ∧ lo ≤ h i ∧
        h i < lo + m) →
      ∃ w', (L.foldlM (fun wAcc i =>
          EntityFactory.connectJoints env wAcc (g i) (h i)) w) = some w' ∧
        starInv w0 x y lo m w' ∧
        (∀ a b, connectedIn w a b → connectedIn w' a b) ∧
        (∀ i ∈ L, connectedIn w' (g i) (h i) ∧ connectedIn w' (h i) (g i))
  | [], w, hinv, _ =>
    ⟨w, rfl, hinv, fun _ _ hc => hc, fun i hi => absurd hi (List.not_mem_nil i)⟩
  | i :: L, w, hinv, hbounds => by
    obtain ⟨hgne, hglo, hghi, hhlo, hhhi⟩ := hbounds i (List.mem_cons_self i L)
    obtain ⟨hwf, hnext, hstab, hnodes, hmapo, hmapf⟩ := hinv
    obtain ⟨hgnode, pg, hpg, hgb1, hgb2⟩ := hnodes (g i) hglo hghi
    obtain ⟨hhnode, ph, hph, hhb1, hhb2⟩ := hnodes (h i) hhlo hhhi
    have hdist : Vec2.distanceTo env pg ph ≤ 75 :=
      distanceTo_le_75 env henv _ _ (box_sq_le x y _ _ hgb1 hgb2 hhb1 hhb2)
    obtain ⟨w1, heq1, hwf1, hnext1, hF1, hcab, hcba, hmono, hnodees, hpos,
      hne1⟩ := connectJoints_spec env w (g i) (h i) pg ph hwf hgne hgnode
      hhnode hpg hph hdist
    have hinv1 : starInv w0 x y lo m w1 := by
      refine ⟨hwf1, by rw [hnext1, hnext], ?_, ?_, ?_, ?_⟩
      · intro i' e he
        have hi' : i' < lo := hlo i' e he
        rw [hne1 i' (by omega) (by omega)]
        exact hstab i' e he
      · intro i' h1 h2
        obtain ⟨hn, p, hp, hb1, hb2⟩ := hnodes i' h1 h2
        exact ⟨hnodees i' hn, p, (hpos i').trans hp, hb1, hb2⟩
      · rw [(forall₂_jointOnly_organism hF1).1]
        exact hmapo
      · rw [(forall₂_jointOnly_organism hF1).2]
        exact hmapf
    obtain ⟨w2, heq2, hinv2, hmono2, hedges2⟩ := connectFoldM_spec env henv
      w0 x y lo m g h hlo L w1 hinv1
      (fun i' hi' => hbounds i' (List.mem_cons_of_mem i hi'))
    refine ⟨w2, ?_, hinv2, ?_, ?_⟩
    · rw [List.foldlM_cons, heq1]
      simp only [Option.bind_eq_bind, Option.some_bind]
      exact heq2
    · intro a b hc
      exact hmono2 a b (hmono a b hc)
    · intro i' hi'
      rcases List.mem_cons.mp hi' with rfl | hi''
      · exact ⟨hmono2 _ _ hcab, hmono2 _ _ hcba⟩
      · exact hedges2 i' hi''

/-- `createStarStructure` always succeeds under the oracle bounds for
`numJoints ≥ 4`: `numJoints` fresh joints, all joint nodes, all reachable
from the centre, everything else untouched. -/
theorem createStarStructure_spec (env : MathEnv) (w : World) (x y : ℚ)
    (orgId numJoints : ℕ) (hw : wfWorld w) (henv : envBounds env)
    (hn : 4 ≤ numJoints) :
    ∃ ids w', EntityFactory.createStarStructure env w x y orgId numJoints =
        some (ids, w') ∧
      ids = List.range' w.nextEntityId numJoints ∧
      wfWorld w' ∧ w'.nextEntityId = w.nextEntityId + numJoints ∧
      (∀ i e, w.getEntity i = some e → w'.getEntity i = some e) ∧
      (∀ i ∈ ids, jointNode w' i) ∧
      (∀ i ∈ ids, reachIn w' w.nextEntityId i) ∧
      w'.entities.map (·.organism) =
        w.entities.map (·.organism) ++ List.replicate numJoints none ∧
      w'.entities.map (·.food) =
        w.entities.map (·.food) ++ List.replicate numJoints none := by
  unfold EntityFactory.createStarStructure
  dsimp only
  generalize hJ1 : EntityFactory.createJoint w x y orgId false = P1
  obtain ⟨c, W1⟩ := P1
  have h1 := createJoint_node w x y orgId false hw
  rw [hJ1] at h1
  dsimp only at h1
  obtain ⟨hc, hW1next, hwf1, hstab1, hnode1, hpos1, hconn1, hents1⟩ := h1
  subst hc
  dsimp only
  have hinv1 : starInv w x y w.nextEntityId 1 W1 := by
    refine ⟨hwf1, by rw [hW1next], hstab1, ?_, ?_, ?_⟩
    · intro i h1 h2
      have : i = w.nextEntityId := by omega
      subst this
      exact ⟨hnode1, ⟨x, y⟩, hpos1, centre_box x, centre_box y⟩
    · rw [hents1]
      simp [jointEntity]
    · rw [hents1]
      simp [jointEntity]
  have hids1 : ([w.nextEntityId] : List ℕ) = List.range' w.nextEntityId 1 :=
    rfl
  have hfold := starCreateFold env w x y orgId henv
    (fun i => ((i : ℚ) / ((numJoints : ℚ) - 1)) * env.pi * 2)
    (List.range (numJoints - 1)) ([w.nextEntityId], W1) 1 hids1 hinv1
  have hkey : (((List.range (numJoints - 1)).foldl
      (fun (acc : List ℕ × World) (i : ℕ) =>
        let angle : ℚ := ((i : ℚ) / ((numJoints : ℚ) - 1)) * env.pi * 2
        let (j, w') := EntityFactory.createJoint acc.2
          (x + env.cos angle * 25) (y + env.sin angle * 25) orgId
        (acc.1 ++ [j], w')) ([w.nextEntityId], W1)).1 =
        List.range' w.nextEntityId (1 + (List.range (numJoints - 1)).length)) ∧
      starInv w x y w.nextEntityId (1 + (List.range (numJoints - 1)).length)
        ((List.range (numJoints - 1)).foldl
          (fun (acc : List ℕ × World) (i : ℕ) =>
            let angle : ℚ := ((i : ℚ) / ((numJoints : ℚ) - 1)) * env.pi * 2
            let (j, w') := EntityFactory.createJoint acc.2
              (x + env.cos angle * 25) (y + env.sin angle * 25) orgId
            (acc.1 ++ [j], w')) ([w.nextEntityId], W1)).2 := hfold
  generalize hIW : ((List.range (numJoints - 1)).foldl
      (fun (acc : List ℕ × World) (i : ℕ) =>
        let angle : ℚ := ((i : ℚ) / ((numJoints : ℚ) - 1)) * env.pi * 2
        let (j, w') := EntityFactory.createJoint acc.2
          (x + env.cos angle * 25) (y + env.sin angle * 25) orgId
        (acc.1 ++ [j], w')) ([w.nextEntityId], W1)) = P2 at hkey ⊢
  obtain ⟨ids, w2⟩ := P2
  dsimp only at hkey
  obtain ⟨hids2, hinv2⟩ := hkey
  rw [List.length_range] at hids2 hinv2
  have hm : 1 + (numJoints - 1) = numJoints := by omega
  rw [hm] at hids2 hinv2
  dsimp only
  have hlen : ids.length = numJoints := by
    rw [hids2, List.length_range']
  have hlo : ∀ i e, w.getEntity i = some e → i < w.nextEntityId :=
    fun i e he => getEntity_lt_next w hw.1 i e he
  -- first connect fold: centre to each outer joint
  have hbound3 : ∀ i ∈ List.range' 1 (ids.length - 1),
      (fun _ : ℕ => w.nextEntityId) i ≠ (fun i => ids.getD i 0) i ∧
      w.nextEntityId ≤ (fun _ : ℕ => w.nextEntityId) i ∧
      (fun _ : ℕ => w.nextEntityId) i < w.nextEntityId + numJoints ∧
      w.nextEntityId ≤ (fun i => ids.getD i 0) i ∧
      (fun i => ids.getD i 0) i < w.nextEntityId + numJoints := by
    intro i hi
    rw [List.mem_range'_1, hlen] at hi
    have hilt : i < numJoints := by omega
    have hgd : ids.getD i 0 = w.nextEntityId + i := by
      rw [hids2, range'_getD _ _ _ hilt]
    dsimp only
    rw [hgd]
    refine ⟨by omega, by omega, by omega, by omega, by omega⟩
  obtain ⟨w3, heq3, hinv3, hmono3, hedges3⟩ := connectFoldM_spec env henv
    w x y w.nextEntityId numJoints (fun _ => w.nextEntityId)
    (fun i => ids.getD i 0) hlo (List.range' 1 (ids.length - 1)) w2 hinv2
    hbound3
  have heq3' : ((List.range' 1 (ids.length - 1)).foldlM
      (fun wAcc i => EntityFactory.connectJoints env wAcc w.nextEntityId
        (ids.getD i 0)) w2) = some w3 := heq3
  rw [heq3']
  simp only [Option.bind_eq_bind, Option.some_bind]
  -- second connect fold: outer ring
  have hbound4 : ∀ i ∈ List.range' 1 (ids.length - 1),
      (fun i => ids.getD i 0) i ≠
        (fun i => ids.getD (i % (ids.length - 1) + 1) 0) i ∧
      w.nextEntityId ≤ (fun i => ids.getD i 0) i ∧
      (fun i => ids.getD i 0) i < w.nextEntityId + numJoints ∧
      w.nextEntityId ≤ (fun i => ids.getD (i % (ids.length - 1) + 1) 0) i ∧
      (fun i => ids.getD (i % (ids.length - 1) + 1) 0) i <
        w.nextEntityId + numJoints := by
    intro i hi
    rw [List.mem_range'_1, hlen] at hi
    have hilt : i < numJoints := by omega
    dsimp only
    set k := i % (ids.length - 1) + 1 with hk
    have hkn : k < numJoints := by
      rw [hk, hlen]
      have : i % (numJoints - 1) < numJoints - 1 :=
        Nat.mod_lt i (by omega)
      omega
    have hne' : i ≠ k := by
      rw [hk, hlen]
      by_cases hcase : i < numJoints - 1
      · rw [Nat.mod_eq_of_lt hcase]
        omega
      · have hieq : i = numJoints - 1 := by omega
        rw [hieq, Nat.mod_self]
        omega
    have hgd1 : ids.getD i 0 = w.nextEntityId + i := by
      rw [hids2, range'_getD _ _ _ hilt]
    have hgd2 : ids.getD k 0 = w.nextEntityId + k := by
      rw [hids2, range'_getD _ _ _ hkn]
    rw [hgd1, hgd2]
    refine ⟨fun hh => hne' (by omega), by omega, by omega, by omega, ?_⟩
    omega
  obtain ⟨w4, heq4, hinv4, hmono4, hedges4⟩ := connectFoldM_spec env henv
    w x y w.nextEntityId numJoints (fun i => ids.getD i 0)
    (fun i => ids.getD (i % (ids.length - 1) + 1) 0) hlo
    (List.range' 1 (ids.length - 1)) w3 hinv3 hbound4
  have heq4' : ((List.range' 1 (ids.length - 1)).foldlM
      (fun wAcc i =>
        let nextIndex := (i % (ids.length - 1)) + 1
        EntityFactory.connectJoints env wAcc (ids.getD i 0)
          (ids.getD nextIndex 0)) w3) = some w4 := heq4
  rw [heq4']
  simp only [Option.bind_eq_bind, Option.some_bind]
  obtain ⟨hwf4, hnext4, hstab4, hnodes4, hmapo4, hmapf4⟩ := hinv4
  refine ⟨ids, w4, rfl, hids2, hwf4, hnext4, hstab4, ?_, ?_, hmapo4, hmapf4⟩
  · intro i hi
    rw [hids2, List.mem_range'_1] at hi
    exact (hnodes4 i hi.1 hi.2).1
  · intro i hi
    rw [hids2, List.mem_range'_1] at hi
    by_cases hic : i = w.nextEntityId
    · subst hic
      exact Relation.ReflTransGen.refl
    · have hirange : 1 ≤ i - w.nextEntityId ∧
        i - w.nextEntityId < 1 + (ids.length - 1) := by
        rw [hlen]
        omega
      have hedge := hedges3 (i - w.nextEntityId)
        (List.mem_range'_1.mpr hirange)
      have hgd : ids.getD (i - w.nextEntityId) 0 = i := by
        rw [hids2, range'_getD]
        · omega
        · omega
      rw [hgd] at hedge
      exact Relation.ReflTransGen.single
        (Or.inl (hmono4 _ _ hedge.1))

/-- The backbone loop of the chain builder: each pass creates one joint 20
units to the right of its predecessor and connects it, always succeeding
under the oracle bounds. -/
theorem chainBackbone_spec (env : MathEnv) (w0 : World) (x y : ℚ)
    (orgId : ℕ) (henv : envBounds env)
    (hlo : ∀ i e, w0.getEntity i = some e → i < w0.nextEntityId) :
    ∀ (steps i : ℕ) (ids : List ℕ) (w : World),
      ids = List.range' w0.nextEntityId (i + 1) →
      chainInv w0 w0.nextEntityId (i + 1) w →
      (∀ k, k ≤ i → ∃ p : Vec2, posOf w (w0.nextEntityId + k) = some p ∧
        p.x = x + k * 20 ∧ p.y = y) →
      (∀ j ∈ ids, reachIn w w0.nextEntityId j) →
      ∃ ids' w',
        EntityFactory.chainBackbone env x y orgId 20 steps i
          (w0.nextEntityId + i) ids w = some (ids', w') ∧
        ids' = List.range' w0.nextEntityId (i + steps + 1) ∧
        chainInv w0 w0.nextEntityId (i + steps + 1) w' ∧
        (∀ k, k ≤ i + steps → ∃ p : Vec2,
          posOf w' (w0.nextEntityId + k) = some p ∧
          p.x = x + k * 20 ∧ p.y = y) ∧
        (∀ j ∈ ids', reachIn w' w0.nextEntityId j)
  | 0, i, ids, w => fun hids hinv hpos hreach =>
    ⟨ids, w, rfl, hids, hinv, hpos, hreach⟩
  | steps + 1, i, ids, w => fun hids hinv hpos hreach => by
    obtain ⟨hwf, hnext, hstab, hnodes, hmapo, hmapf⟩ := hinv
    rw [EntityFactory.chainBackbone]
    generalize hJ : EntityFactory.createJoint w (x + ((i : ℚ) + 1) * 20) y
      orgId false = P1
    obtain ⟨j, W1⟩ := P1
    have h1 := createJoint_node w (x + ((i : ℚ) + 1) * 20) y orgId false hwf
    rw [hJ] at h1
    dsimp only at h1
    obtain ⟨hjid, hW1next, hwf1, hstab1, hnode1, hpos1, hconn1, hents1⟩ := h1
    rw [hnext] at hjid hW1next hnode1 hpos1
    subst hjid
    dsimp only
    -- the previous joint's position
    obtain ⟨pPrev, hpPrev, hpx, hpy⟩ := hpos i (le_refl i)
    have hpPrev1 : posOf W1 (w0.nextEntityId + i) = some pPrev :=
      posOf_of_stab hstab1 hpPrev
    have hprevNode : jointNode W1 (w0.nextEntityId + i) :=
      jointNode_of_stab hstab1 (hnodes _ (by omega) (by omega))
    have hnewNode : jointNode W1 (w0.nextEntityId + (i + 1)) := hnode1
    have hdist : Vec2.distanceTo env pPrev
        ⟨x + ((i : ℚ) + 1) * 20, y⟩ ≤ 75 := by
      refine distanceTo_le_75 env henv _ _ ?_
      have hx' : (pPrev.x - (⟨x + ((i : ℚ) + 1) * 20, y⟩ : Vec2).x) ^ 2 +
          (pPrev.y - (⟨x + ((i : ℚ) + 1) * 20, y⟩ : Vec2).y) ^ 2 = 400 := by
        show (pPrev.x - (x + ((i : ℚ) + 1) * 20)) ^ 2 +
          (pPrev.y - y) ^ 2 = 400
        rw [hpx, hpy]
        ring
      rw [hx']
      norm_num
    obtain ⟨w2, heq2, hwf2, hnext2, hF2, hcab2, hcba2, hmono2, hnodes2,
      hpos2, hne2⟩ := connectJoints_spec env W1 (w0.nextEntityId + i)
      (w0.nextEntityId + (i + 1)) pPrev ⟨x + ((i : ℚ) + 1) * 20, y⟩ hwf1
      (by omega) hprevNode hnewNode hpPrev1 hpos1 hdist
    rw [heq2]
    simp only [Option.bind_eq_bind, Option.some_bind]
    have hinv2 : chainInv w0 w0.nextEntityId (i + 1 + 1) w2 := by
      refine ⟨hwf2, by rw [hnext2, hW1next]; omega, ?_, ?_, ?_, ?_⟩
      · intro i' e he
        have hlt : i' < w0.nextEntityId := hlo i' e he
        rw [hne2 i' (by omega) (by omega)]
        exact hstab1 i' e (hstab i' e he)
      · intro i' h1 h2
        by_cases hcase : i' < w0.nextEntityId + (i + 1)
        · exact hnodes2 i' (jointNode_of_stab hstab1 (hnodes i' h1 hcase))
        · have : i' = w0.nextEntityId + (i + 1) := by omega
          subst this
          exact hnodes2 _ hnode1
      · rw [(forall₂_jointOnly_organism hF2).1, hents1, List.map_append,
          hmapo, List.map_singleton, List.append_assoc]
        congr 1
        rw [show (List.replicate (i + 1 + 1) (none : Option OrganismComponent))
          = List.replicate (i + 1) none ++ [none] from
          List.replicate_succ' (i + 1) none]
        rfl
      · rw [(forall₂_jointOnly_organism hF2).2, hents1, List.map_append,
          hmapf, List.map_singleton, List.append_assoc]
        congr 1
        rw [show (List.replicate (i + 1 + 1) (none : Option FoodComponent))
          = List.replicate (i + 1) none ++ [none] from
          List.replicate_succ' (i + 1) none]
        rfl
    have hposAll : ∀ k, k ≤ i + 1 → ∃ p : Vec2,
        posOf w2 (w0.nextEntityId + k) = some p ∧
        p.x = x + k * 20 ∧ p.y = y := by
      intro k hk
      by_cases hkc : k ≤ i
      · obtain ⟨p, hp, h1, h2⟩ := hpos k hkc
        exact ⟨p, (hpos2 _).trans (posOf_of_stab hstab1 hp), h1, h2⟩
      · have : k = i + 1 := by omega
        subst this
        refine ⟨⟨x + ((i : ℚ) + 1) * 20, y⟩, (hpos2 _).trans hpos1, ?_, rfl⟩
        push_cast
        ring
    have hids2 : ids ++ [w0.nextEntityId + (i + 1)] =
        List.range' w0.nextEntityId (i + 1 + 1) := by
      rw [hids, range'_concat1 w0.nextEntityId (i + 1)]
    have hreach2 : ∀ j' ∈ ids ++ [w0.nextEntityId + (i + 1)],
        reachIn w2 w0.nextEntityId j' := by
      intro j' hj'
      rcases List.mem_append.mp hj' with h | h
      · exact reachIn_mono hmono2
          (reachIn_mono (fun a b hc => hconn1 a b hc) (hreach j' h))
      · rw [List.mem_singleton.mp h]
        refine Relation.ReflTransGen.tail ?_ (Or.inl hcab2)
        refine reachIn_mono hmono2
          (reachIn_mono (fun a b hc => hconn1 a b hc)
            (hreach (w0.nextEntityId + i) ?_))
        rw [hids, List.mem_range'_1]
        omega
    obtain ⟨ids', w', heq', hids', hinv', hpos', hreach'⟩ :=
      chainBackbone_spec env w0 x y orgId henv hlo steps (i + 1)
        (ids ++ [w0.nextEntityId + (i + 1)]) w2 hids2 hinv2 hposAll hreach2
    have harith : i + 1 + steps + 1 = i + (steps + 1) + 1 := by omega
    have harith2 : i + 1 + steps = i + (steps + 1) := by omega
    rw [harith] at hids' hinv'
    rw [harith2] at hpos'
    exact ⟨ids', w', heq', hids', hinv', hpos', hreach'⟩

/-- The first branch loop of the chain builder: each pass hangs one fresh
joint 20 units below a backbone joint, always succeeding under the oracle
bounds. -/
theorem chainBranchLoop1_spec (env : MathEnv) (w0 : World) (x y : ℚ)
    (orgId : ℕ) (henv : envBounds env)
    (hlo : ∀ i e, w0.getEntity i = some e → i < w0.nextEntityId)
    (chainLength : ℕ) :
    ∀ (remaining branchIndex m : ℕ) (ids : List ℕ) (w : World),
      ids = List.range' w0.nextEntityId m →
      chainLength < m →
      chainInv w0 w0.nextEntityId m w →
      (∀ k, k ≤ chainLength → ∃ p : Vec2,
        posOf w (w0.nextEntityId + k) = some p ∧
        p.x = x + k * 20 ∧ p.y = y) →
      (∀ j ∈ ids, reachIn w w0.nextEntityId j) →
      ∃ m' ids' w',
        EntityFactory.chainBranchLoop1 env x y orgId 20 chainLength
          remaining branchIndex ids w = some (ids', w') ∧
        ids' = List.range' w0.nextEntityId m' ∧ m ≤ m' ∧
        chainInv w0 w0.nextEntityId m' w' ∧
        (∀ j ∈ ids', reachIn w' w0.nextEntityId j)
  | 0, branchIndex, m, ids, w => fun hids hlen hinv hpos hreach =>
    ⟨m, ids, w, rfl, hids, le_refl m, hinv, hreach⟩
  | remaining + 1, branchIndex, m, ids, w => fun hids hlen hinv hpos hreach => by
    rw [EntityFactory.chainBranchLoop1]
    by_cases hbi : branchIndex < chainLength
    · rw [if_pos hbi]
      obtain ⟨hwf, hnext, hstab, hnodes, hmapo, hmapf⟩ := hinv
      have hbase : ids.getD (branchIndex + 1) 0 =
          w0.nextEntityId + (branchIndex + 1) := by
        rw [hids, range'_getD _ _ _ (by omega)]
      generalize hJ : EntityFactory.createJoint w
        (x + ((branchIndex : ℚ) + 1) * 20) (y - 20) orgId false = P1
      obtain ⟨j, W1⟩ := P1
      have h1 := createJoint_node w (x + ((branchIndex : ℚ) + 1) * 20)
        (y - 20) orgId false hwf
      rw [hJ] at h1
      dsimp only at h1
      obtain ⟨hjid, hW1next, hwf1, hstab1, hnode1, hpos1, hconn1, hents1⟩ := h1
      rw [hnext] at hjid hW1next hnode1 hpos1
      subst hjid
      dsimp only
      rw [hbase]
      obtain ⟨pB, hpB, hpBx, hpBy⟩ := hpos (branchIndex + 1) (by omega)
      have hpB1 : posOf W1 (w0.nextEntityId + (branchIndex + 1)) = some pB :=
        posOf_of_stab hstab1 hpB
      have hbaseNode : jointNode W1 (w0.nextEntityId + (branchIndex + 1)) :=
        jointNode_of_stab hstab1 (hnodes _ (by omega) (by omega))
      have hdist : Vec2.distanceTo env pB
          ⟨x + ((branchIndex : ℚ) + 1) * 20, y - 20⟩ ≤ 75 := by
        refine distanceTo_le_75 env henv _ _ ?_
        have hx' : (pB.x - (⟨x + ((branchIndex : ℚ) + 1) * 20, y - 20⟩ :
            Vec2).x) ^ 2 + (pB.y - (⟨x + ((branchIndex : ℚ) + 1) * 20,
            y - 20⟩ : Vec2).y) ^ 2 = 400 := by
          show (pB.x - (x + ((branchIndex : ℚ) + 1) * 20)) ^ 2 +
            (pB.y - (y - 20)) ^ 2 = 400
          rw [hpBx, hpBy]
          push_cast
          ring
        rw [hx']
        norm_num
      obtain ⟨w2, heq2, hwf2, hnext2, hF2, hcab2, hcba2, hmono2, hnodes2,
        hpos2, hne2⟩ := connectJoints_spec env W1
        (w0.nextEntityId + (branchIndex + 1)) (w0.nextEntityId + m) pB
        ⟨x + ((branchIndex : ℚ) + 1) * 20, y - 20⟩ hwf1 (by omega)
        hbaseNode hnode1 hpB1 hpos1 hdist
      rw [heq2]
      simp only [Option.bind_eq_bind, Option.some_bind]
      have hinv2 : chainInv w0 w0.nextEntityId (m + 1) w2 := by
        refine ⟨hwf2, by rw [hnext2, hW1next]; omega, ?_, ?_, ?_, ?_⟩
        · intro i' e he
          have hlt : i' < w0.nextEntityId := hlo i' e he
          rw [hne2 i' (by omega) (by omega)]
          exact hstab1 i' e (hstab i' e he)
        · intro i' h1 h2
          by_cases hcase : i' < w0.nextEntityId + m
          · exact hnodes2 i' (jointNode_of_stab hstab1 (hnodes i' h1 hcase))
          · have : i' = w0.nextEntityId + m := by omega
            subst this
            exact hnodes2 _ hnode1
        · rw [(forall₂_jointOnly_organism hF2).1, hents1, List.map_append,
            hmapo, List.map_singleton, List.append_assoc]
          congr 1
          rw [show (List.replicate (m + 1) (none : Option OrganismComponent))
            = List.replicate m none ++ [none] from
            List.replicate_succ' m none]
          rfl
        · rw [(forall₂_jointOnly_organism hF2).2, hents1, List.map_append,
            hmapf, List.map_singleton, List.append_assoc]
          congr 1
          rw [show (List.replicate (m + 1) (none : Option FoodComponent))
            = List.replicate m none ++ [none] from
            List.replicate_succ' m none]
          rfl
      have hpos2' : ∀ k, k ≤ chainLength → ∃ p : Vec2,
          posOf w2 (w0.nextEntityId + k) = some p ∧
          p.x = x + k * 20 ∧ p.y = y := by
        intro k hk
        obtain ⟨p, hp, h1, h2⟩ := hpos k hk
        exact ⟨p, (hpos2 _).trans (posOf_of_stab hstab1 hp), h1, h2⟩
      have hids2 : ids ++ [w0.nextEntityId + m] =
          List.range' w0.nextEntityId (m + 1) := by
        rw [hids, range'_concat1 w0.nextEntityId m]
      have hreach2 : ∀ j' ∈ ids ++ [w0.nextEntityId + m],
          reachIn w2 w0.nextEntityId j' := by
        intro j' hj'
        rcases List.mem_append.mp hj' with h | h
        · exact reachIn_mono hmono2
            (reachIn_mono (fun a b hc => hconn1 a b hc) (hreach j' h))
        · rw [List.mem_singleton.mp h]
          refine Relation.ReflTransGen.tail ?_ (Or.inl hcab2)
          refine reachIn_mono hmono2
            (reachIn_mono (fun a b hc => hconn1 a b hc)
              (hreach (w0.nextEntityId + (branchIndex + 1)) ?_))
          rw [hids, List.mem_range'_1]
          omega
      obtain ⟨m', ids', w', heq', hids', hm', hinv', hreach'⟩ :=
        chainBranchLoop1_spec env w0 x y orgId henv hlo chainLength remaining
          (branchIndex + 2) (m + 1) (ids ++ [w0.nextEntityId + m]) w2 hids2
          (by omega) hinv2 hpos2' hreach2
      exact ⟨m', ids', w', heq', hids', by omega, hinv', hreach'⟩
    · rw [if_neg hbi]
      exact ⟨m, ids, w, rfl, hids, le_refl m,
        ⟨hinv.1, hinv.2.1, hinv.2.2.1, hinv.2.2.2.1, hinv.2.2.2.2.1,
          hinv.2.2.2.2.2⟩, hreach⟩

/-- The second branch loop of the chain builder: each pass stacks one fresh
joint 20 units below an existing branch joint, always succeeding under the
oracle bounds. -/
theorem chainBranchLoop2_spec (env : MathEnv) (w0 : World)
    (orgId : ℕ) (henv : envBounds env)
    (hlo : ∀ i e, w0.getEntity i = some e → i < w0.nextEntityId)
    (chainLength : ℕ) :
    ∀ (remaining branchIndex m : ℕ) (ids : List ℕ) (w : World),
      ids = List.range' w0.nextEntityId m →
      chainLength < m →
      chainInv w0 w0.nextEntityId m w →
      (∀ j ∈ ids, reachIn w w0.nextEntityId j) →
      ∃ m' ids' w',
        EntityFactory.chainBranchLoop2 env orgId 20 chainLength
          remaining branchIndex ids w = some (ids', w') ∧
        ids' = List.range' w0.nextEntityId m' ∧ m ≤ m' ∧
        chainInv w0 w0.nextEntityId m' w' ∧
        (∀ j ∈ ids', reachIn w' w0.nextEntityId j)
  | 0, branchIndex, m, ids, w => fun hids hlen hinv hreach =>
    ⟨m, ids, w, rfl, hids, le_refl m, hinv, hreach⟩
  | remaining + 1, branchIndex, m, ids, w => fun hids hlen hinv hreach => by
    rw [EntityFactory.chainBranchLoop2]
    by_cases hbi : branchIndex < ids.length - chainLength - 1
    · rw [if_pos hbi]
      dsimp only
      obtain ⟨hwf, hnext, hstab, hnodes, hmapo, hmapf⟩ := hinv
      have hlenids : ids.length = m := by
        rw [hids, List.length_range']
      have hbidx : chainLength + 1 + branchIndex < m := by omega
      have hbase : ids.getD (chainLength + 1 + branchIndex) 0 =
          w0.nextEntityId + (chainLength + 1 + branchIndex) := by
        rw [hids, range'_getD _ _ _ hbidx]
      rw [hbase]
      obtain ⟨eB, heB, ⟨jB, hjB⟩, pB0, hpB0⟩ :=
        hnodes (w0.nextEntityId + (chainLength + 1 + branchIndex))
          (by omega) (by omega)
      have hpB : posOf w (w0.nextEntityId + (chainLength + 1 + branchIndex)) =
          some pB0.position := by
        rw [posOf, heB, Option.some_bind, hpB0]
        rfl
      have hgetD : (((w.getEntity
          (w0.nextEntityId + (chainLength + 1 + branchIndex))).bind
          (·.position)).map (·.position)).getD ⟨0, 0⟩ = pB0.position := by
        rw [show (((w.getEntity
            (w0.nextEntityId + (chainLength + 1 + branchIndex))).bind
            (·.position)).map (·.position)) =
          posOf w (w0.nextEntityId + (chainLength + 1 + branchIndex)) from
          rfl, hpB]
        rfl
      rw [hgetD]
      generalize hJ : EntityFactory.createJoint w pB0.position.x
        (pB0.position.y - 20) orgId false = P1
      obtain ⟨j, W1⟩ := P1
      have h1 := createJoint_node w pB0.position.x (pB0.position.y - 20)
        orgId false hwf
      rw [hJ] at h1
      dsimp only at h1
      obtain ⟨hjid, hW1next, hwf1, hstab1, hnode1, hpos1, hconn1, hents1⟩ := h1
      rw [hnext] at hjid hW1next hnode1 hpos1
      subst hjid
      dsimp only
      have hpB1 : posOf W1
          (w0.nextEntityId + (chainLength + 1 + branchIndex)) =
          some pB0.position := posOf_of_stab hstab1 hpB
      have hbaseNode : jointNode W1
          (w0.nextEntityId + (chainLength + 1 + branchIndex)) :=
        jointNode_of_stab hstab1 ⟨eB, heB, ⟨jB, hjB⟩, pB0, hpB0⟩
      have hdist : Vec2.distanceTo env pB0.position
          ⟨pB0.position.x, pB0.position.y - 20⟩ ≤ 75 := by
        refine distanceTo_le_75 env henv _ _ ?_
        have hx' : (pB0.position.x - (⟨pB0.position.x,
            pB0.position.y - 20⟩ : Vec2).x) ^ 2 + (pB0.position.y -
            (⟨pB0.position.x, pB0.position.y - 20⟩ : Vec2).y) ^ 2 = 400 := by
          show (pB0.position.x - pB0.position.x) ^ 2 +
            (pB0.position.y - (pB0.position.y - 20)) ^ 2 = 400
          ring
        rw [hx']
        norm_num
      obtain ⟨w2, heq2, hwf2, hnext2, hF2, hcab2, hcba2, hmono2, hnodes2,
        hpos2, hne2⟩ := connectJoints_spec env W1
        (w0.nextEntityId + (chainLength + 1 + branchIndex))
        (w0.nextEntityId + m) pB0.position
        ⟨pB0.position.x, pB0.position.y - 20⟩ hwf1 (by omega)
        hbaseNode hnode1 hpB1 hpos1 hdist
      rw [heq2]
      simp only [Option.bind_eq_bind, Option.some_bind]
      have hinv2 : chainInv w0 w0.nextEntityId (m + 1) w2 := by
        refine ⟨hwf2, by rw [hnext2, hW1next]; omega, ?_, ?_, ?_, ?_⟩
        · intro i' e he
          have hlt : i' < w0.nextEntityId := hlo i' e he
          rw [hne2 i' (by omega) (by omega)]
          exact hstab1 i' e (hstab i' e he)
        · intro i' h1 h2
          by_cases hcase : i' < w0.nextEntityId + m
          · exact hnodes2 i' (jointNode_of_stab hstab1 (hnodes i' h1 hcase))
          · have : i' = w0.nextEntityId + m := by omega
            subst this
            exact hnodes2 _ hnode1
        · rw [(forall₂_jointOnly_organism hF2).1, hents1, List.map_append,
            hmapo, List.map_singleton, List.append_assoc]
          congr 1
          rw [show (List.replicate (m + 1) (none : Option OrganismComponent))
            = List.replicate m none ++ [none] from
            List.replicate_succ' m none]
          rfl
        · rw [(forall₂_jointOnly_organism hF2).2, hents1, List.map_append,
            hmapf, List.map_singleton, List.append_assoc]
          congr 1
          rw [show (List.replicate (m + 1) (none : Option FoodComponent))
            = List.replicate m none ++ [none] from
            List.replicate_succ' m none]
          rfl
      have hids2 : ids ++ [w0.nextEntityId + m] =
          List.range' w0.nextEntityId (m + 1) := by
        rw [hids, range'_concat1 w0.nextEntityId m]
      have hreach2 : ∀ j' ∈ ids ++ [w0.nextEntityId + m],
          reachIn w2 w0.nextEntityId j' := by
        intro j' hj'
        rcases List.mem_append.mp hj' with h | h
        · exact reachIn_mono hmono2
            (reachIn_mono (fun a b hc => hconn1 a b hc) (hreach j' h))
        · rw [List.mem_singleton.mp h]
          refine Relation.ReflTransGen.tail ?_ (Or.inl hcab2)
          refine reachIn_mono hmono2
            (reachIn_mono (fun a b hc => hconn1 a b hc)
              (hreach (w0.nextEntityId + (chainLength + 1 + branchIndex)) ?_))
          rw [hids, List.mem_range'_1]
          omega
      obtain ⟨m', ids', w', heq', hids', hm', hinv', hreach'⟩ :=
        chainBranchLoop2_spec env w0 orgId henv hlo chainLength remaining
          (branchIndex + 1) (m + 1) (ids ++ [w0.nextEntityId + m]) w2 hids2
          (by omega) hinv2 hreach2
      exact ⟨m', ids', w', heq', hids', by omega, hinv', hreach'⟩
    · rw [if_neg hbi]
      exact ⟨m, ids, w, rfl, hids, le_refl m,
        ⟨hinv.1, hinv.2.1, hinv.2.2.1, hinv.2.2.2.1, hinv.2.2.2.2.1,
          hinv.2.2.2.2.2⟩, hreach⟩

/-- `createChainStructure` always succeeds under the oracle bounds for
`numJoints ≥ 6`: at least six fresh joints, all joint nodes, all reachable
from the first, everything else untouched. -/
theorem createChainStructure_spec (env : MathEnv) (w : World) (x y : ℚ)
    (orgId numJoints : ℕ) (hw : wfWorld w) (henv : envBounds env)
    (hn : 6 ≤ numJoints) :
    ∃ m ids w', EntityFactory.createChainStructure env w x y orgId numJoints =
        some (ids, w') ∧
      ids = List.range' w.nextEntityId m ∧ 3 ≤ m ∧
      wfWorld w' ∧ w'.nextEntityId = w.nextEntityId + m ∧
      (∀ i e, w.getEntity i = some e → w'.getEntity i = some e) ∧
      (∀ i ∈ ids, jointNode w' i) ∧
      (∀ i ∈ ids, reachIn w' w.nextEntityId i) ∧
      w'.entities.map (·.organism) =
        w.entities.map (·.organism) ++ List.replicate m none ∧
      w'.entities.map (·.food) =
        w.entities.map (·.food) ++ List.replicate m none := by
  unfold EntityFactory.createChainStructure
  dsimp only
  have hcl : min 5 (numJoints - 1) = 5 := by omega
  rw [hcl]
  generalize hJ1 : EntityFactory.createJoint w x y orgId false = P1
  obtain ⟨fj, W1⟩ := P1
  have h1 := createJoint_node w x y orgId false hw
  rw [hJ1] at h1
  dsimp only at h1
  obtain ⟨hfj, hW1next, hwf1, hstab1, hnode1, hpos1, hconn1, hents1⟩ := h1
  subst hfj
  dsimp only
  have hlo : ∀ i e, w.getEntity i = some e → i < w.nextEntityId :=
    fun i e he => getEntity_lt_next w hw.1 i e he
  have hinv1 : chainInv w w.nextEntityId (0 + 1) W1 := by
    refine ⟨hwf1, by rw [hW1next], hstab1, ?_, ?_, ?_⟩
    · intro i h1 h2
      have : i = w.nextEntityId := by omega
      subst this
      exact hnode1
    · rw [hents1]
      simp [jointEntity]
    · rw [hents1]
      simp [jointEntity]
  have hpos1' : ∀ k, k ≤ 0 → ∃ p : Vec2,
      posOf W1 (w.nextEntityId + k) = some p ∧
      p.x = x + k * 20 ∧ p.y = y := by
    intro k hk
    have : k = 0 := by omega
    subst this
    refine ⟨⟨x, y⟩, hpos1, by norm_num, rfl⟩
  have hreach1 : ∀ j ∈ ([w.nextEntityId] : List ℕ),
      reachIn W1 w.nextEntityId j := by
    intro j hj
    rw [List.mem_singleton.mp hj]
    exact Relation.ReflTransGen.refl
  obtain ⟨ids2, w2, heqB, hidsB, hinvB, hposB, hreachB⟩ :=
    chainBackbone_spec env w x y orgId henv hlo 5 0
      [w.nextEntityId] W1 rfl hinv1 hpos1' hreach1
  have heqB' : EntityFactory.chainBackbone env x y orgId 20 5 0
      w.nextEntityId [w.nextEntityId] W1 = some (ids2, w2) := heqB
  rw [heqB']
  simp only [Option.bind_eq_bind, Option.some_bind]
  have hidsB' : ids2 = List.range' w.nextEntityId 6 := hidsB
  have hinvB' : chainInv w w.nextEntityId 6 w2 := hinvB
  obtain ⟨m3, ids3, w3, heqL1, hids3, hm3, hinv3, hreach3⟩ :=
    chainBranchLoop1_spec env w x y orgId henv hlo 5
      (numJoints - ids2.length) 0 6 ids2 w2 hidsB' (by omega) hinvB'
      (fun k hk => hposB k (by omega)) hreachB
  rw [heqL1]
  simp only [Option.bind_eq_bind, Option.some_bind]
  obtain ⟨m4, ids4, w4, heqL2, hids4, hm4, hinv4, hreach4⟩ :=
    chainBranchLoop2_spec env w orgId henv hlo 5
      (numJoints - ids2.length - (ids3.length - ids2.length)) 0 m3 ids3 w3
      hids3 (by omega) hinv3 hreach3
  rw [heqL2]
  simp only [Option.bind_eq_bind, Option.some_bind]
  obtain ⟨hwf4, hnext4, hstab4, hnodes4, hmapo4, hmapf4⟩ := hinv4
  refine ⟨m4, ids4, w4, rfl, hids4, by omega, hwf4, hnext4, hstab4, ?_,
    hreach4, hmapo4, hmapf4⟩
  intro i hi
  rw [hids4, List.mem_range'_1] at hi
  exact hnodes4 i hi.1 hi.2

/-- Modifying the freshly appended entity rewrites just that entry. -/
theorem modify_fresh_append (w : World) (e0 : Entity)
    (he0 : e0.id = w.nextEntityId) (f : Entity → Entity)
    (hb : ∀ e ∈ w.entities, e.id < w.nextEntityId) :
    (⟨w.entities ++ [e0], w.nextEntityId + 1⟩ : World).modifyEntity
      w.nextEntityId f =
    ⟨w.entities ++ [f e0], w.nextEntityId + 1⟩ := by
  unfold World.modifyEntity
  congr 1
  rw [show (⟨w.entities ++ [e0], w.nextEntityId + 1⟩ : World).entities =
    w.entities ++ [e0] from rfl, List.map_append]
  congr 1
  · conv_rhs => rw [← List.map_id' w.entities]
    exact List.map_congr_left fun e he => by
      rw [if_neg (Nat.ne_of_lt (hb e he))]
  · simp [he0]

/-- A fresh jointless entity preserves the factory invariant. -/
theorem wfWorld_append_nonjoint (w : World) (e0 : Entity)
    (he0 : e0.id = w.nextEntityId) (hj : e0.joint = none) (hw : wfWorld w) :
    wfWorld ⟨w.entities ++ [e0], w.nextEntityId + 1⟩ := by
  refine ⟨wfIds_append w e0 he0 hw.1, ?_, ?_⟩
  · intro e he j hjx c hc
    rcases List.mem_append.mp he with h | h
    · exact Nat.lt_succ_of_lt (hw.2.1 e h j hjx c hc)
    · rw [List.mem_singleton.mp h] at hjx
      rw [hj] at hjx
      simp at hjx
  · intro a ha ja hja b hb jb hjb
    rcases List.mem_append.mp ha with ha' | ha' <;>
      rcases List.mem_append.mp hb with hb' | hb'
    · exact hw.2.2 a ha' ja hja b hb' jb hjb
    · rw [List.mem_singleton.mp hb'] at hjb
      rw [hj] at hjb
      simp at hjb
    · rw [List.mem_singleton.mp ha'] at hja
      rw [hj] at hja
      simp at hja
    · rw [List.mem_singleton.mp ha'] at hja
      rw [hj] at hja
      simp at hja

/-- Looking up a freshly appended entity. -/
theorem getEntity_append_fresh (w : World) (e0 : Entity) (n : ℕ)
    (he0 : e0.id = w.nextEntityId)
    (hb : ∀ e ∈ w.entities, e.id < w.nextEntityId) :
    (⟨w.entities ++ [e0], n⟩ : World).getEntity e0.id = some e0 := by
  unfold World.getEntity
  rw [List.find?_append, List.find?_eq_none.mpr (fun e he => by
    simpa [he0] using Nat.ne_of_lt (hb e he))]
  simp

/-- An id- and joint-preserving entity map keeps the factory invariant
(allocator untouched). -/
theorem wfWorld_map_nonjoint (w : World) (g : Entity → Entity)
    (hg : ∀ e, (g e).id = e.id ∧ (g e).joint = e.joint) (hw : wfWorld w) :
    wfWorld ⟨w.entities.map g, w.nextEntityId⟩ := by
  refine ⟨wfIds_map w g (fun e => (hg e).1) hw.1, ?_, ?_⟩
  · intro e he j hj c hc
    obtain ⟨e', he', rfl⟩ := List.mem_map.mp he
    rw [(hg e').2] at hj
    exact hw.2.1 e' he' j hj c hc
  · intro a ha ja hja b hb jb hjb
    obtain ⟨e1, he1, rfl⟩ := List.mem_map.mp ha
    obtain ⟨e2, he2, rfl⟩ := List.mem_map.mp hb
    rw [(hg e1).2] at hja
    rw [(hg e2).2] at hjb
    rw [(hg e1).1, (hg e2).1]
    exact hw.2.2 e1 he1 ja hja e2 he2 jb hjb

/-- An id- and joint-preserving entity map keeps connection edges. -/
theorem connectedIn_map_mono (w : World) (g : Entity → Entity) (n : ℕ)
    (hg : ∀ e, (g e).id = e.id ∧ (g e).joint = e.joint)
    (a b : ℕ) (h : connectedIn w a b) :
    connectedIn ⟨w.entities.map g, n⟩ a b := by
  obtain ⟨e, he, hid, j, hj, hmem⟩ := h
  exact ⟨g e, List.mem_map.mpr ⟨e, he, rfl⟩, (hg e).1.trans hid, j,
    (hg e).2.trans hj, hmem⟩

/-- An id-, joint- and position-preserving entity map keeps joint nodes. -/
theorem jointNode_map (w : World) (g : Entity → Entity) (n : ℕ)
    (hg : ∀ e, (g e).id = e.id ∧ (g e).joint = e.joint ∧
      (g e).position = e.position)
    (i : ℕ) (h : jointNode w i) : jointNode ⟨w.entities.map g, n⟩ i := by
  obtain ⟨e, he, ⟨j, hj⟩, p, hp⟩ := h
  refine ⟨g e, ?_, ⟨j, (hg e).2.1.trans hj⟩, p, (hg e).2.2.trans hp⟩
  rw [getEntity_map_world w n g (fun e => (hg e).1) i, he]
  rfl

/-- The bookkeeping of `createOrganism`'s final step: writing the joint-id
list onto the fresh organism entity. -/
theorem createOrganism_post (w : World) (genetics : GeneticComponent)
    (hw : wfWorld w) (m : ℕ) (ids : List ℕ) (w3 : World)
    (hwf3 : wfWorld w3)
    (hnext3 : w3.nextEntityId = w.nextEntityId + 1 + m)
    (hstab3 : ∀ i e, (⟨w.entities ++ [orgEntity w.nextEntityId genetics],
        w.nextEntityId + 1⟩ : World).getEntity i = some e →
      w3.getEntity i = some e)
    (hnodes3 : ∀ i ∈ ids, jointNode w3 i)
    (hreach3 : ∀ i ∈ ids, reachIn w3 (w.nextEntityId + 1) i)
    (hmapo3 : w3.entities.map (·.organism) =
      (w.entities ++ [orgEntity w.nextEntityId genetics]).map (·.organism) ++
        List.replicate m none)
    (hmapf3 : w3.entities.map (·.food) =
      (w.entities ++ [orgEntity w.nextEntityId genetics]).map (·.food) ++
        List.replicate m none) :
    wfWorld (w3.modifyEntity w.nextEntityId
        (fun e => { e with organism := some ⟨ids⟩ })) ∧
    (w3.modifyEntity w.nextEntityId
        (fun e => { e with organism := some ⟨ids⟩ })).nextEntityId =
      w.nextEntityId + 1 + m ∧
    EvolutionSystem.jointIdsOfD (w3.modifyEntity w.nextEntityId
        (fun e => { e with organism := some ⟨ids⟩ })) w.nextEntityId = ids ∧
    (∀ i e, w.getEntity i = some e →
      (w3.modifyEntity w.nextEntityId
        (fun e => { e with organism := some ⟨ids⟩ })).getEntity i = some e) ∧
    (∀ i ∈ ids, jointNode (w3.modifyEntity w.nextEntityId
        (fun e => { e with organism := some ⟨ids⟩ })) i) ∧
    (∀ i ∈ ids, reachIn (w3.modifyEntity w.nextEntityId
        (fun e => { e with organism := some ⟨ids⟩ }))
      (w.nextEntityId + 1) i) ∧
    (∀ a b, connectedIn w3 a b →
      connectedIn (w3.modifyEntity w.nextEntityId
        (fun e => { e with organism := some ⟨ids⟩ })) a b) ∧
    (w3.modifyEntity w.nextEntityId
        (fun e => { e with organism := some ⟨ids⟩ })).entities.map
      (fun e => e.organism.isSome) =
      w.entities.map (fun e => e.organism.isSome) ++
        true :: List.replicate m false ∧
    (w3.modifyEntity w.nextEntityId
        (fun e => { e with organism := some ⟨ids⟩ })).entities.map
      (fun e => e.food.isSome) =
      w.entities.map (fun e => e.food.isSome) ++
        false :: List.replicate m false := by
  have hcomppres : ∀ e : Entity,
      ((fun e => if e.id = w.nextEntityId then
        ({ e with organism := some ⟨ids⟩ } : Entity) else e) e).id = e.id ∧
      ((fun e => if e.id = w.nextEntityId then
        ({ e with organism := some ⟨ids⟩ } : Entity) else e) e).joint =
        e.joint ∧
      ((fun e => if e.id = w.nextEntityId then
        ({ e with organism := some ⟨ids⟩ } : Entity) else e) e).position =
        e.position := by
    intro e
    dsimp only
    split_ifs <;> exact ⟨rfl, rfl, rfl⟩
  have hget3 : w3.getEntity w.nextEntityId =
      some (orgEntity w.nextEntityId genetics) := by
    refine hstab3 _ _ ?_
    exact getEntity_append_fresh w (orgEntity w.nextEntityId genetics)
      (w.nextEntityId + 1) rfl hw.1.2
  have hget4 : (w3.modifyEntity w.nextEntityId
      (fun e => { e with organism := some ⟨ids⟩ })).getEntity
      w.nextEntityId = some { orgEntity w.nextEntityId genetics with
        organism := some ⟨ids⟩ } := by
    rw [getEntity_modifyEntity_eq w3 w.nextEntityId
      (fun e => { e with organism := some ⟨ids⟩ }) (fun e => rfl), hget3]
    rfl
  have hmapIsO : (w3.modifyEntity w.nextEntityId
      (fun e => { e with organism := some ⟨ids⟩ })).entities.map
      (fun e => e.organism.isSome) =
      w3.entities.map (fun e => e.organism.isSome) := by
    show ((w3.entities.map (fun e => if e.id = w.nextEntityId then
        ({ e with organism := some ⟨ids⟩ } : Entity) else e)).map
      (fun e => e.organism.isSome)) = _
    rw [List.map_map]
    refine List.map_congr_left (fun e he => ?_)
    simp only [Function.comp_apply]
    by_cases hc : e.id = w.nextEntityId
    · have hmem3 : orgEntity w.nextEntityId genetics ∈ w3.entities :=
        List.mem_of_find?_eq_some hget3
      have heq : e = orgEntity w.nextEntityId genetics :=
        entity_eq_of_id_eq w3.entities hwf3.1.1 e he _ hmem3
          (by rw [hc]; rfl)
      rw [heq]
      simp [orgEntity]
    · rw [if_neg hc]
  have hmapIsF : (w3.modifyEntity w.nextEntityId
      (fun e => { e with organism := some ⟨ids⟩ })).entities.map
      (fun e => e.food.isSome) =
      w3.entities.map (fun e => e.food.isSome) := by
    show ((w3.entities.map (fun e => if e.id = w.nextEntityId then
        ({ e with organism := some ⟨ids⟩ } : Entity) else e)).map
      (fun e => e.food.isSome)) = _
    rw [List.map_map]
    refine List.map_congr_left (fun e he => ?_)
    simp only [Function.comp_apply]
    by_cases hc : e.id = w.nextEntityId
    · rw [if_pos hc]
    · rw [if_neg hc]
  refine ⟨?_, hnext3, ?_, ?_, ?_, ?_, ?_, ?_, ?_⟩
  · exact wfWorld_map_nonjoint w3 _
      (fun e => ⟨(hcomppres e).1, (hcomppres e).2.1⟩) hwf3
  · rw [EvolutionSystem.jointIdsOfD, hget4]
    rfl
  · intro i e he
    have hlt : i < w.nextEntityId := getEntity_lt_next w hw.1 i e he
    rw [getEntity_modifyEntity_ne w3 w.nextEntityId i
      (fun e => { e with organism := some ⟨ids⟩ }) (fun e => rfl)
      (by omega)]
    exact hstab3 i e (getEntity_append_left he (w.nextEntityId + 1))
  · intro i hi
    exact jointNode_map w3 _ w3.nextEntityId hcomppres i (hnodes3 i hi)
  · intro i hi
    exact reachIn_mono (connectedIn_map_mono w3 _ w3.nextEntityId
      (fun e => ⟨(hcomppres e).1, (hcomppres e).2.1⟩)) (hreach3 i hi)
  · exact connectedIn_map_mono w3 _ w3.nextEntityId
      (fun e => ⟨(hcomppres e).1, (hcomppres e).2.1⟩)
  · rw [hmapIsO]
    have hmm : w3.entities.map (fun e => e.organism.isSome) =
        (w3.entities.map (·.organism)).map Option.isSome := by
      rw [List.map_map]
      rfl
    rw [hmm, hmapo3]
    simp [List.map_append, List.map_map, List.map_replicate, orgEntity,
      Function.comp]
  · rw [hmapIsF]
    have hmm : w3.entities.map (fun e => e.food.isSome) =
        (w3.entities.map (·.food)).map Option.isSome := by
      rw [List.map_map]
      rfl
    rw [hmm, hmapf3]
    simp [List.map_append, List.map_map, List.map_replicate, orgEntity,
      Function.comp]

/-- `createOrganism` reduces to the structure dispatch over the world with
the organism entity appended (the entity creation plus the three component
writes). -/
theorem createOrganism_eq (env : MathEnv) (w : World) (x y : ℚ)
    (numJoints : ℕ) (genetics : GeneticComponent)
    (hb : ∀ e ∈ w.entities, e.id < w.nextEntityId) :
    EntityFactory.createOrganism env w x y numJoints genetics =
      (do
        let (ids, w3) ←
          if numJoints ≤ 3 then
            EntityFactory.createTriangleStructure env
              ⟨w.entities ++ [orgEntity w.nextEntityId genetics],
                w.nextEntityId + 1⟩ x y w.nextEntityId
          else if numJoints ≤ 5 then
            EntityFactory.createStarStructure env
              ⟨w.entities ++ [orgEntity w.nextEntityId genetics],
                w.nextEntityId + 1⟩ x y w.nextEntityId numJoints
          else
            EntityFactory.createChainStructure env
              ⟨w.entities ++ [orgEntity w.nextEntityId genetics],
                w.nextEntityId + 1⟩ x y w.nextEntityId numJoints
        some (w.nextEntityId, w3.modifyEntity w.nextEntityId
          (fun e => { e with organism := some ⟨ids⟩ }))) := by
  unfold EntityFactory.createOrganism
  dsimp only [World.createEntity]
  rw [modify_fresh_append w ({ id := w.nextEntityId } : Entity) rfl _ hb]
  rfl

/-- In a world with duplicate-free ids, the edge relation is membership in
the joint's stored connection list. -/
theorem connectedIn_iff_mem (w : World)
    (hnd : (w.entities.map (·.id)).Nodup) (p q : ℕ) (ep : Entity)
    (jp : JointComponent) (hep : w.getEntity p = some ep)
    (hjp : ep.joint = some jp) :
    connectedIn w p q ↔ q ∈ jp.connections := by
  have hmemp : ep ∈ w.entities := List.mem_of_find?_eq_some hep
  have hidp : ep.id = p := by simpa using List.find?_some hep
  constructor
  · rintro ⟨e, hmem, hid, j, hj, hq⟩
    have heq : e = ep := entity_eq_of_id_eq w.entities hnd e hmem ep hmemp
      (by rw [hid, hidp])
    rw [heq, hjp] at hj
    injection hj with hji
    rw [hji]
    exact hq
  · intro hq
    exact ⟨ep, hmemp, hidp, jp, hjp, hq⟩

/-- `createOrganism` under a bounded oracle environment: it succeeds,
returns the fresh organism id, stores the created joint ids (at least
three, exactly three in the triangle case) on the organism, keeps the
factory invariant, preserves every pre-existing entity, makes every new
joint reachable from the first one (pairwise connected in the triangle
case), and appends exactly one organism-carrying entity and no
food-carrying entity. -/
theorem createOrganism_spec (env : MathEnv) (w : World) (x y : ℚ)
    (numJoints : ℕ) (genetics : GeneticComponent) (hw : wfWorld w)
    (henv : envBounds env) :
    ∃ m ids w',
      EntityFactory.createOrganism env w x y numJoints genetics =
        some (w.nextEntityId, w') ∧
      EvolutionSystem.jointIdsOfD w' w.nextEntityId = ids ∧
      ids = List.range' (w.nextEntityId + 1) m ∧ 3 ≤ m ∧
      (numJoints ≤ 3 → m = 3) ∧
      wfWorld w' ∧ w'.nextEntityId = w.nextEntityId + 1 + m ∧
      (∀ i e, w.getEntity i = some e → w'.getEntity i = some e) ∧
      (∀ i ∈ ids, jointNode w' i) ∧
      (∀ i ∈ ids, reachIn w' (w.nextEntityId + 1) i) ∧
      (numJoints ≤ 3 → ∀ a ∈ ids, ∀ b ∈ ids, a ≠ b → connectedIn w' a b) ∧
      w'.entities.map (fun e => e.organism.isSome) =
        w.entities.map (fun e => e.organism.isSome) ++
          true :: List.replicate m false ∧
      w'.entities.map (fun e => e.food.isSome) =
        w.entities.map (fun e => e.food.isSome) ++
          false :: List.replicate m false := by
  have hwf2 : wfWorld (⟨w.entities ++ [orgEntity w.nextEntityId genetics],
      w.nextEntityId + 1⟩ : World) :=
    wfWorld_append_nonjoint w (orgEntity w.nextEntityId genetics) rfl rfl hw
  rw [createOrganism_eq env w x y numJoints genetics hw.1.2]
  by_cases h3 : numJoints ≤ 3
  · rw [if_pos h3]
    obtain ⟨w3, hEq, hwf3, hnext3, hstab3, hnodes3, he01, he12, he20, hmo,
      hmf⟩ := createTriangleStructure_spec env
        ⟨w.entities ++ [orgEntity w.nextEntityId genetics],
          w.nextEntityId + 1⟩ x y w.nextEntityId hwf2 henv
    rw [hEq]
    simp only [Option.bind_eq_bind, Option.some_bind]
    have hreach3 : ∀ i ∈ ([w.nextEntityId + 1, w.nextEntityId + 1 + 1,
        w.nextEntityId + 1 + 2] : List ℕ), reachIn w3 (w.nextEntityId + 1)
        i := by
      intro i hi
      simp only [List.mem_cons, List.not_mem_nil, or_false] at hi
      rcases hi with rfl | rfl | rfl
      · exact Relation.ReflTransGen.refl
      · exact Relation.ReflTransGen.single (Or.inl he01.1)
      · exact Relation.ReflTransGen.single (Or.inl he20.2)
    obtain ⟨hP1, hP2, hP3, hP4, hP5, hP6, hP7, hP8, hP9⟩ :=
      createOrganism_post w genetics hw 3
        [w.nextEntityId + 1, w.nextEntityId + 1 + 1, w.nextEntityId + 1 + 2]
        w3 hwf3 hnext3 hstab3 hnodes3 hreach3 hmo hmf
    refine ⟨3, [w.nextEntityId + 1, w.nextEntityId + 1 + 1,
      w.nextEntityId + 1 + 2], _, rfl, hP3, rfl, by omega, fun _ => rfl,
      hP1, hP2, hP4, hP5, hP6, ?_, hP8, hP9⟩
    intro _ a ha b hb hab
    simp only [List.mem_cons, List.not_mem_nil, or_false] at ha hb
    rcases ha with rfl | rfl | rfl <;> rcases hb with rfl | rfl | rfl
    · exact absurd rfl hab
    · exact hP7 _ _ he01.1
    · exact hP7 _ _ he20.2
    · exact hP7 _ _ he01.2
    · exact absurd rfl hab
    · exact hP7 _ _ he12.1
    · exact hP7 _ _ he20.1
    · exact hP7 _ _ he12.2
    · exact absurd rfl hab
  · rw [if_neg h3]
    by_cases h5 : numJoints ≤ 5
    · rw [if_pos h5]
      obtain ⟨ids, w3, hEq, hids, hwf3, hnext3, hstab3, hnodes3, hreach3,
        hmo, hmf⟩ := createStarStructure_spec env
          ⟨w.entities ++ [orgEntity w.nextEntityId genetics],
            w.nextEntityId + 1⟩ x y w.nextEntityId numJoints hwf2 henv
          (by omega)
      rw [hEq]
      simp only [Option.bind_eq_bind, Option.some_bind]
      obtain ⟨hP1, hP2, hP3, hP4, hP5, hP6, hP7, hP8, hP9⟩ :=
        createOrganism_post w genetics hw numJoints ids w3 hwf3 hnext3
          hstab3 hnodes3 hreach3 hmo hmf
      exact ⟨numJoints, ids, _, rfl, hP3, hids, by omega,
        fun hc => absurd hc h3, hP1, hP2, hP4, hP5, hP6,
        fun hc => absurd hc h3, hP8, hP9⟩
    · rw [if_neg h5]
      obtain ⟨m, ids, w3, hEq, hids, hm3, hwf3, hnext3, hstab3, hnodes3,
        hreach3, hmo, hmf⟩ := createChainStructure_spec env
          ⟨w.entities ++ [orgEntity w.nextEntityId genetics],
            w.nextEntityId + 1⟩ x y w.nextEntityId numJoints hwf2 henv
          (by omega)
      rw [hEq]
      simp only [Option.bind_eq_bind, Option.some_bind]
      obtain ⟨hP1, hP2, hP3, hP4, hP5, hP6, hP7, hP8, hP9⟩ :=
        createOrganism_post w genetics hw m ids w3 hwf3 hnext3
          hstab3 hnodes3 hreach3 hmo hmf
      exact ⟨m, ids, _, rfl, hP3, hids, hm3,
        fun hc => absurd hc h3, hP1, hP2, hP4, hP5, hP6,
        fun hc => absurd hc h3, hP8, hP9⟩

/-- C4: after any `EntityFactory.createOrganism` call (under the bounds the
real `Math` oracles satisfy), for every pair of joints `a`, `b` of the
created organism, `a`'s connections list contains `b` iff `b`'s contains
`a`, and in that case the two stored rest lengths are equal. -/
theorem c4_connection_symmetry (env : MathEnv) (w : World) (x y : ℚ)
    (numJoints : ℕ) (genetics : GeneticComponent) (hw : wfWorld w)
    (henv : envBounds env) :
    ∃ w', EntityFactory.createOrganism env w x y numJoints genetics =
        some (w.nextEntityId, w') ∧
      ∀ a ∈ EvolutionSystem.jointIdsOfD w' w.nextEntityId,
      ∀ b ∈ EvolutionSystem.jointIdsOfD w' w.nextEntityId,
        (connectedIn w' a b ↔ connectedIn w' b a) ∧
        (connectedIn w' a b → restOf w' a b = restOf w' b a) := by
  obtain ⟨m, ids, w', hEq, hids, _, _, _, hwf, _, _, hnodes, _, _, _, _⟩ :=
    createOrganism_spec env w x y numJoints genetics hw henv
  refine ⟨w', hEq, ?_⟩
  intro a ha b hb
  rw [hids] at ha hb
  obtain ⟨ea, hea, ⟨ja, hja⟩, -⟩ := hnodes a ha
  obtain ⟨eb, heb, ⟨jb, hjb⟩, -⟩ := hnodes b hb
  have hmema : ea ∈ w'.entities := List.mem_of_find?_eq_some hea
  have hmemb : eb ∈ w'.entities := List.mem_of_find?_eq_some heb
  have hida : ea.id = a := by simpa using List.find?_some hea
  have hidb : eb.id = b := by simpa using List.find?_some heb
  have hsym := hwf.2.2 ea hmema ja hja eb hmemb jb hjb
  rw [hida, hidb] at hsym
  have hAB := connectedIn_iff_mem w' hwf.1.1 a b ea ja hea hja
  have hBA := connectedIn_iff_mem w' hwf.1.1 b a eb jb heb hjb
  constructor
  · rw [hAB, hBA]
    exact hsym.1
  · intro hc
    have hmem : b ∈ ja.connections := hAB.mp hc
    unfold restOf
    rw [hea, heb]
    simp only [Option.bind_eq_bind, Option.some_bind]
    rw [hja, hjb]
    simp only [Option.some_bind]
    exact hsym.2 hmem

/-- C4 witness: a concrete successful call on the empty world with the
constant oracle environment. -/
theorem c4_witness :
    wfWorld ⟨[], 0⟩ ∧ envBounds c4env ∧
    ∃ w', EntityFactory.createOrganism c4env ⟨[], 0⟩ 100 100 3
        ⟨100, 1/2, 1/5, 1/2, 1, 1, 0, 0⟩ = some (0, w') ∧
      ∀ a ∈ EvolutionSystem.jointIdsOfD w' 0,
      ∀ b ∈ EvolutionSystem.jointIdsOfD w' 0,
        (connectedIn w' a b ↔ connectedIn w' b a) ∧
        (connectedIn w' a b → restOf w' a b = restOf w' b a) := by
  have hw : wfWorld ⟨[], 0⟩ := by
    refine ⟨⟨by simp, by simp⟩, ?_, ?_⟩
    · intro e he
      simp at he
    · intro a ha
      simp at ha
  have henv : envBounds c4env := by
    refine ⟨fun q h1 h2 => ?_, fun q => ?_, fun q => ?_⟩ <;>
      norm_num [c4env]
  exact ⟨hw, henv,
    c4_connection_symmetry c4env ⟨[], 0⟩ 100 100 3
      ⟨100, 1/2, 1/5, 1/2, 1, 1, 0, 0⟩ hw henv⟩

/-- C10: `createOrganism` with `numJoints ≤ 3` produces exactly three
pairwise-connected joints (requests for one or two joints are silently
promoted), and in general every organism this factory builds has at least
three joints and a connected joint graph. -/
theorem c10_min_three_joints (env : MathEnv) (w : World) (x y : ℚ)
    (numJoints : ℕ) (genetics : GeneticComponent) (hw : wfWorld w)
    (henv : envBounds env) :
    ∃ m ids w',
      EntityFactory.createOrganism env w x y numJoints genetics =
        some (w.nextEntityId, w') ∧
      EvolutionSystem.jointIdsOfD w' w.nextEntityId = ids ∧
      ids.length = m ∧ 3 ≤ m ∧
      (∀ a ∈ ids, ∀ b ∈ ids, reachIn w' a b) ∧
      (numJoints ≤ 3 →
        m = 3 ∧ ∀ a ∈ ids, ∀ b ∈ ids, a ≠ b → connectedIn w' a b) := by
  obtain ⟨m, ids, w', hEq, hids, hrange, hm3, hm3eq, _, _, _, _, hreach,
    hpair, _, _⟩ := createOrganism_spec env w x y numJoints genetics hw henv
  have hsymm : Symmetric (adjIn w') := fun a b h => Or.elim h Or.inr Or.inl
  refine ⟨m, ids, w', hEq, hids, ?_, hm3, ?_, fun hc => ⟨hm3eq hc, hpair hc⟩⟩
  · rw [hrange]
    exact List.length_range' _ _ _
  · intro a ha b hb
    exact Relation.ReflTransGen.trans
      (Relation.ReflTransGen.symmetric hsymm (hreach a ha))
      (hreach b hb)

/-- C10 witness: a concrete call requesting a single joint still yields
three pairwise-connected joints. -/
theorem c10_witness :
    wfWorld ⟨[], 0⟩ ∧ envBounds c4env ∧ (1 : ℕ) ≤ 3 ∧
    ∃ m ids w',
      EntityFactory.createOrganism c4env ⟨[], 0⟩ 100 100 1
        ⟨100, 1/2, 1/5, 1/2, 1, 1, 0, 0⟩ = some (0, w') ∧
      EvolutionSystem.jointIdsOfD w' 0 = ids ∧
      ids.length = m ∧ 3 ≤ m ∧
      (∀ a ∈ ids, ∀ b ∈ ids, reachIn w' a b) ∧
      ((1 : ℕ) ≤ 3 →
        m = 3 ∧ ∀ a ∈ ids, ∀ b ∈ ids, a ≠ b → connectedIn w' a b) := by
  have hw : wfWorld ⟨[], 0⟩ := by
    refine ⟨⟨by simp, by simp⟩, ?_, ?_⟩
    · intro e he
      simp at he
    · intro a ha
      simp at ha
  have henv : envBounds c4env := by
    refine ⟨fun q h1 h2 => ?_, fun q => ?_, fun q => ?_⟩ <;>
      norm_num [c4env]
  exact ⟨hw, henv, by norm_num,
    c10_min_three_joints c4env ⟨[], 0⟩ 100 100 1
      ⟨100, 1/2, 1/5, 1/2, 1, 1, 0, 0⟩ hw henv⟩

/-- Counting `true` in a Boolean projection is `countP`. -/
theorem count_true_map {α : Type} (l : List α) (f : α → Bool) :
    (l.map f).count true = l.countP f := by
  induction l with
  | nil => rfl
  | cons a l ih =>
    rw [List.map_cons, List.count_cons, List.countP_cons, ih]
    cases h : f a <;> simp [h]

/-- Membership in an append-accumulating fold. -/
theorem foldl_append_mem {α β : Type} (g : α → List β) :
    ∀ (l : List α) (init : List β) (x : β),
      x ∈ l.foldl (fun acc o => acc ++ g o) init ↔
        x ∈ init ∨ ∃ o ∈ l, x ∈ g o := by
  intro l
  induction l with
  | nil => simp
  | cons a l ih =>
    intro init x
    rw [List.foldl_cons, ih]
    simp only [List.mem_append, List.mem_cons]
    constructor
    · rintro (⟨h | h⟩ | ⟨o, ho, hx⟩)
      · exact Or.inl h
      · exact Or.inr ⟨a, Or.inl rfl, h⟩
      · exact Or.inr ⟨o, Or.inr ho, hx⟩
    · rintro (h | ⟨o, rfl | ho, hx⟩)
      · exact Or.inl (Or.inl h)
      · exact Or.inl (Or.inr hx)
      · exact Or.inr ⟨o, ho, hx⟩

/-- What the removal list contains: every old organism id and every joint
id an old organism stores. -/
theorem removalIds_mem (w : World) (orgIds : List ℕ) (x : ℕ) :
    x ∈ EvolutionSystem.removalIds w orgIds ↔
      ∃ oid ∈ orgIds, x ∈ EvolutionSystem.jointIdsOfD w oid ∨ x = oid := by
  unfold EvolutionSystem.removalIds
  have h := foldl_append_mem
    (fun oid => EvolutionSystem.jointIdsOfD w oid ++ [oid]) orgIds [] x
  rw [show (fun acc oid => acc ++ EvolutionSystem.jointIdsOfD w oid ++ [oid])
      = fun acc oid => acc ++ (EvolutionSystem.jointIdsOfD w oid ++ [oid])
    from by funext acc oid; rw [List.append_assoc]]
  rw [h]
  simp [List.mem_append]

/-- The removal fold is one filter; the allocator is untouched. -/
theorem foldl_remove_entities :
    ∀ (L : List ℕ) (w : World),
      (L.foldl World.removeEntity w).entities =
        w.entities.filter (fun e => decide (e.id ∉ L)) ∧
      (L.foldl World.removeEntity w).nextEntityId = w.nextEntityId := by
  intro L
  induction L with
  | nil =>
    intro w
    refine ⟨?_, rfl⟩
    simp
  | cons a L ih =>
    intro w
    rw [List.foldl_cons]
    obtain ⟨h1, h2⟩ := ih (w.removeEntity a)
    refine ⟨?_, h2⟩
    have h3 : (w.removeEntity a).entities =
        w.entities.filter (fun e => decide (e.id ≠ a)) := rfl
    rw [h1, h3, List.filter_filter]
    refine List.filter_congr (fun e he => ?_)
    simp [List.mem_cons, not_or, Bool.and_comm]

/-- A world whose entities persist into a duplicate-free world embeds into
it as a multiset: the larger world is the smaller plus a remainder. -/
theorem exists_rest (w w2 : World)
    (hndw : (w.entities.map (·.id)).Nodup)
    (hnd2 : (w2.entities.map (·.id)).Nodup)
    (hstab : ∀ i e, w.getEntity i = some e → w2.getEntity i = some e) :
    ∃ rest : List Entity, w2.entities.Perm (w.entities ++ rest) := by
  have hle : (w.entities : Multiset Entity) ≤ (w2.entities : Multiset Entity) := by
    rw [Multiset.le_iff_count]
    intro e
    by_cases he : e ∈ w.entities
    · have h1 : w.entities.count e = 1 :=
        List.count_eq_one_of_mem (hndw.of_map _) he
      have hw2 : e ∈ w2.entities := by
        have hf := find?_id_of_nodup w.entities hndw e he
        exact List.mem_of_find?_eq_some (hstab e.id e hf)
      have h2 : 0 < w2.entities.count e := List.count_pos_iff_mem.mpr hw2
      rw [Multiset.coe_count, Multiset.coe_count, h1]
      exact h2
    · rw [Multiset.coe_count, List.count_eq_zero_of_not_mem he]
      exact Nat.zero_le _
  obtain ⟨rest, hrest⟩ := Multiset.le_iff_exists_add.mp hle
  induction rest using Quotient.inductionOn with
  | h lrest =>
    exact ⟨lrest, Multiset.coe_eq_coe.mp
      (by rw [← Multiset.coe_add]; exact hrest)⟩

/-- `createFood` appends exactly one food entity carrying the fresh id. -/
theorem createFood_eq (w : World) (x y : ℚ)
    (hb : ∀ e ∈ w.entities, e.id < w.nextEntityId) :
    EntityFactory.createFood w x y =
      (w.nextEntityId,
        ⟨w.entities ++ [EntityFactory.foodEnt w.nextEntityId x y],
          w.nextEntityId + 1⟩) := by
  unfold EntityFactory.createFood
  dsimp only [World.createEntity]
  rw [modify_fresh_append w ({ id := w.nextEntityId } : Entity) rfl _ hb]
  rfl

/-- One `createFoodEntity` step appends a single organism-free entity at
the fresh id. -/
theorem createFoodEntity_facts (w : World) (r : Rng)
    (hb : ∀ e ∈ w.entities, e.id < w.nextEntityId) :
    ∃ e' : Entity, (EvolutionSystem.createFoodEntity w r).1 =
        ⟨w.entities ++ [e'], w.nextEntityId + 1⟩ ∧
      e'.id = w.nextEntityId ∧ e'.organism = none := by
  unfold EvolutionSystem.createFoodEntity
  dsimp only [Rng.next]
  rw [createFood_eq w _ _ hb]
  refine ⟨_, rfl, rfl, rfl⟩

/-- `initializeFood` only appends food entities: organism lookups, the
organism census and the id bound are all preserved. -/
theorem initializeFood_facts :
    ∀ (n : ℕ) (w : World) (r : Rng),
      (∀ e ∈ w.entities, e.id < w.nextEntityId) →
      (∀ j, j < w.nextEntityId →
        (EvolutionSystem.initializeFood n w r).1.getEntity j =
          w.getEntity j) ∧
      (EvolutionSystem.initializeFood n w r).1.entities.countP
          (fun e => e.organism.isSome) =
        w.entities.countP (fun e => e.organism.isSome) := by
  intro n
  induction n with
  | zero => exact fun w r hb => ⟨fun j hj => rfl, rfl⟩
  | succ n ih =>
    intro w r hb
    obtain ⟨e', hW', hid, horg⟩ := createFoodEntity_facts w r hb
    have hb' : ∀ e ∈ (EvolutionSystem.createFoodEntity w r).1.entities,
        e.id < (EvolutionSystem.createFoodEntity w r).1.nextEntityId := by
      rw [hW']
      intro e he
      rcases List.mem_append.mp he with h | h
      · exact Nat.lt_succ_of_lt (hb e h)
      · rw [List.mem_singleton.mp h, hid]
        exact Nat.lt_succ_self _
    obtain ⟨ihget, ihcnt⟩ := ih (EvolutionSystem.createFoodEntity w r).1
      (EvolutionSystem.createFoodEntity w r).2 hb'
    have hstep : EvolutionSystem.initializeFood (n + 1) w r =
        EvolutionSystem.initializeFood n
          (EvolutionSystem.createFoodEntity w r).1
          (EvolutionSystem.createFoodEntity w r).2 := rfl
    constructor
    · intro j hj
      rw [hstep, ihget j (by rw [hW']; exact Nat.lt_succ_of_lt hj), hW']
      unfold World.getEntity
      rw [List.find?_append]
      cases hf : w.entities.find? (fun e => e.id = j) with
      | some e => rfl
      | none =>
        rw [Option.none_or]
        rw [List.find?_eq_none]
        intro a ha
        rw [List.mem_singleton.mp ha]
        simp [hid]
        omega
    · rw [hstep, ihcnt, hW']
      show (w.entities ++ [e']).countP _ = _
      rw [List.countP_append]
      simp [List.countP_cons, horg]

/-- The weighted walk only ever returns a member of the list. -/
theorem weightedWalk_mem (w : World) (sp : ℚ) :
    ∀ (l : List ℕ) (running : ℚ) (oid : ℕ),
      EvolutionSystem.weightedWalk w sp l running = some oid → oid ∈ l := by
  intro l
  induction l with
  | nil => intro running oid h; exact absurd h (by simp [EvolutionSystem.weightedWalk])
  | cons a l ih =>
    intro running oid h
    rw [EvolutionSystem.weightedWalk] at h
    split_ifs at h with hge
    · rw [Option.some_injective _ h]
      exact List.mem_cons_self oid l
    · exact List.mem_cons_of_mem a (ih _ oid h)

/-- On a nonempty organism list, `selectParentWeighted` returns a member:
the `0.1` fitness floor makes the total weight positive, so the non-random
branch runs, and both the walk and the last-element fallback pick members. -/
theorem selectParentWeighted_mem (w : World) (organisms : List ℕ) (r : Rng)
    (hne : organisms ≠ []) :
    ∃ oid r1, EvolutionSystem.selectParentWeighted w organisms r =
        (some oid, r1) ∧ oid ∈ organisms := by
  unfold EvolutionSystem.selectParentWeighted
  have hpos : 0 < (organisms.map
      (fun oid => max (1/10) (EvolutionSystem.fitnessOfD w oid))).sum := by
    refine List.sum_pos _ (fun q hq => ?_) (by simpa using hne)
    obtain ⟨oid, _, rfl⟩ := List.mem_map.mp hq
    have : (0 : ℚ) < 1/10 := by norm_num
    exact lt_of_lt_of_le this (le_max_left _ _)
  rw [if_neg (not_le.mpr hpos)]
  rcases hnx : r.next with ⟨q, r1⟩
  dsimp only
  cases hwalk : EvolutionSystem.weightedWalk w
      (q * (organisms.map
        (fun oid => max (1/10) (EvolutionSystem.fitnessOfD w oid))).sum)
      organisms 0 with
  | some oid =>
    exact ⟨oid, r1, rfl, weightedWalk_mem w _ organisms 0 oid hwalk⟩
  | none =>
    refine ⟨organisms.getLast hne, r1, ?_, List.getLast_mem hne⟩
    show (organisms.getLast?, r1) = (some (organisms.getLast hne), r1)
    rw [List.getLast?_eq_getLast organisms hne]

/-- The diversity loop never empties the survivor list. -/
theorem survivorExtras_ne_nil (sortedIds : List ℕ) (numSurvivors : ℕ) :
    ∀ (k : ℕ) (s : List ℕ) (r : Rng), s ≠ [] →
      (EvolutionSystem.survivorExtras sortedIds numSurvivors k s r).1 ≠ [] := by
  intro k
  induction k with
  | zero => intro s r hs; exact hs
  | succ k ih =>
    intro s r hs
    rw [EvolutionSystem.survivorExtras]
    dsimp only
    split_ifs with hcond
    · exact ih _ _ (by simp)
    · exact ih _ _ hs

/-- Everything the diversity loop adds comes from the sorted id list. -/
theorem survivorExtras_mem (sortedIds : List ℕ) (numSurvivors : ℕ) :
    ∀ (k : ℕ) (s : List ℕ) (r : Rng) (x : ℕ),
      x ∈ (EvolutionSystem.survivorExtras sortedIds numSurvivors k s r).1 →
        x ∈ s ∨ x ∈ sortedIds := by
  intro k
  induction k with
  | zero => intro s r x hx; exact Or.inl hx
  | succ k ih =>
    intro s r x hx
    rw [EvolutionSystem.survivorExtras] at hx
    dsimp only at hx
    split_ifs at hx with hcond
    · rcases ih _ _ x hx with h | h
      · rcases List.mem_append.mp h with h' | h'
        · exact Or.inl h'
        · refine Or.inr ?_
          rw [List.mem_singleton.mp h']
          have hlt := hcond.1
          rw [List.getD_eq_getElem?_getD, List.getElem?_eq_getElem hlt]
          exact List.getElem_mem hlt
      · exact Or.inr h
    · exact ih _ _ x hx

/-- The fitness sort is a permutation: same members, same length. -/
theorem sortByFitness_perm (w : World) (ids : List ℕ) :
    (EvolutionSystem.sortByFitness w ids).Perm ids :=
  List.mergeSort_perm ids _

/-- `reproduceOrganism` on a genetics-carrying parent in a well-formed
world succeeds and grows the world by one organism entity (plus joints,
no food), preserving all existing entities. -/
theorem reproduceOrganism_spec (env : MathEnv) (wc : World) (gen : ℕ)
    (oid : ℕ) (rate : ℚ) (r : Rng) (hwf : wfWorld wc) (henv : envBounds env)
    (e : Entity) (he : wc.getEntity oid = some e) (hg : e.genetics.isSome) :
    ∃ cid w' r' m,
      EvolutionSystem.reproduceOrganism env wc gen (some oid) rate r =
        some (cid, w', r') ∧
      wfWorld w' ∧ wc.nextEntityId ≤ w'.nextEntityId ∧
      (∀ i e', wc.getEntity i = some e' → w'.getEntity i = some e') ∧
      w'.entities.map (fun x => x.organism.isSome) =
        wc.entities.map (fun x => x.organism.isSome) ++
          true :: List.replicate m false ∧
      w'.entities.map (fun x => x.food.isSome) =
        wc.entities.map (fun x => x.food.isSome) ++
          false :: List.replicate m false := by
  obtain ⟨g, hg'⟩ := Option.isSome_iff_exists.mp hg
  have hge : (wc.getEntity oid).bind (·.genetics) = some g := by
    rw [he]
    exact hg'
  unfold EvolutionSystem.reproduceOrganism
  simp only [Option.bind_eq_bind, Option.some_bind]
  rw [hge]
  simp only [Option.some_bind]
  rcases hn1 : r.next with ⟨qx, r1⟩
  rcases hn2 : r1.next with ⟨qy, r2⟩
  dsimp only
  rcases hm : EvolutionSystem.mutate8 g rate r2 with ⟨cg, r3⟩
  dsimp only
  rcases hn3 : r3.next with ⟨qm, r4⟩
  dsimp only
  rcases hn4 : r4.next with ⟨qj, r6⟩
  dsimp only
  rcases hci : (if qm < (if gen ≤ 5 then (1/5 : ℚ) else 1/10) then
      (((max (MIN_JOINT_COUNT : ℤ) (min (MAX_JOINT_COUNT : ℤ)
        (((EvolutionSystem.jointIdsOfD wc oid).length : ℤ) +
          (PatternGenetics.floorIdx (qj * 3) : ℤ) - 1))).toNat), r6)
    else ((EvolutionSystem.jointIdsOfD wc oid).length, r4)) with ⟨cjc, r5⟩
  dsimp only
  obtain ⟨m, ids, w', hEq, hjids, hrange, hm3, hm3eq, hwf', hnext', hstab,
    hnodes, hreach, hpair, hmo, hmf⟩ :=
    createOrganism_spec env wc
      (max 10 (min (CANVAS_WIDTH - 10)
        ((EvolutionSystem.getOrganismPosition wc oid).x + (qx * 40 - 20))))
      (max 10 (min (CANVAS_HEIGHT - 10)
        ((EvolutionSystem.getOrganismPosition wc oid).y + (qy * 40 - 20))))
      cjc cg hwf henv
  rw [hEq]
  simp only [Option.some_bind]
  exact ⟨wc.nextEntityId, w', r5, m, rfl, hwf', by omega, hstab, hmo, hmf⟩

/-- The population-fill loop succeeds over a nonempty survivor list of
genetics-carrying organisms, adds exactly `need` organism entities and no
food, and preserves every entity of the base world. -/
theorem fillLoop_spec (env : MathEnv) (gen : ℕ) (rate : ℚ) (w : World)
    (survivors : List ℕ) (henv : envBounds env)
    (hne : survivors ≠ [])
    (hsub : ∀ x ∈ survivors, x ∈ w.organismIds)
    (hgen : ∀ x ∈ w.organismIds,
      ∃ e, w.getEntity x = some e ∧ e.genetics.isSome) :
    ∀ (need : ℕ) (wc : World) (r : Rng),
      wfWorld wc →
      (∀ i e, w.getEntity i = some e → wc.getEntity i = some e) →
      w.nextEntityId ≤ wc.nextEntityId →
      ∃ w' r',
        EvolutionSystem.fillLoop env gen rate survivors need wc r =
          some (w', r') ∧
        wfWorld w' ∧
        (∀ i e, w.getEntity i = some e → w'.getEntity i = some e) ∧
        w.nextEntityId ≤ w'.nextEntityId ∧
        (w'.entities.map (fun x => x.organism.isSome)).count true =
          (wc.entities.map (fun x => x.organism.isSome)).count true + need ∧
        (w'.entities.map (fun x => x.food.isSome)).count true =
          (wc.entities.map (fun x => x.food.isSome)).count true := by
  intro need
  induction need with
  | zero =>
    intro wc r hwf hstab hnext
    exact ⟨wc, r, rfl, hwf, hstab, hnext, rfl, rfl⟩
  | succ need ih =>
    intro wc r hwf hstab hnext
    obtain ⟨oid, r1, hsel, hmem⟩ := selectParentWeighted_mem wc survivors r hne
    obtain ⟨e, he, hg⟩ := hgen oid (hsub oid hmem)
    have hec : wc.getEntity oid = some e := hstab _ _ he
    obtain ⟨cid, w2, r2, m, hrep, hwf2, hle2, hstab2, hmo, hmf⟩ :=
      reproduceOrganism_spec env wc gen oid rate r1 hwf henv e hec hg
    have hstep : EvolutionSystem.fillLoop env gen rate survivors (need + 1)
        wc r = EvolutionSystem.fillLoop env gen rate survivors need w2 r2 := by
      rw [EvolutionSystem.fillLoop, hsel]
      dsimp only
      rw [hrep]
      simp only [Option.bind_eq_bind, Option.some_bind]
    obtain ⟨w', r', hfl, hwf', hstab', hnext', hcntO, hcntF⟩ :=
      ih w2 r2 hwf2 (fun i e' h => hstab2 i e' (hstab i e' h))
        (le_trans hnext hle2)
    refine ⟨w', r', by rw [hstep]; exact hfl, hwf', hstab', hnext', ?_, ?_⟩
    · rw [hmo] at hcntO
      rw [List.count_append] at hcntO
      have h1 : (true :: List.replicate m false).count true = 1 := by
        simp [List.count_cons, List.count_eq_zero, List.mem_replicate]
      rw [h1] at hcntO
      omega
    · rw [hmf] at hcntF
      rw [List.count_append] at hcntF
      have h0 : (false :: List.replicate m false).count true = 0 := by
        simp [List.count_cons, List.count_eq_zero, List.mem_replicate]
      rw [h0] at hcntF
      omega

/-- Food-id membership unfolded to an entity witness. -/
theorem mem_foodIds {w : World} {x : ℕ} :
    x ∈ w.foodIds ↔ ∃ e ∈ w.entities, e.id = x ∧ e.food.isSome := by
  simp only [World.foodIds, World.idsWith, List.mem_map, List.mem_filter]
  constructor
  · rintro ⟨e, ⟨he, hf⟩, rfl⟩
    exact ⟨e, he, rfl, hf⟩
  · rintro ⟨e, he, rfl, hf⟩
    exact ⟨e, ⟨he, hf⟩, rfl⟩

/-- C1: `createNextGeneration` on a world with at least one organism (each
carrying genetics AND a fitness component — the JS reads
`getComponent(FitnessComponent).fitness` unchecked in the sort comparator,
`calculateStats` and `selectParentWeighted`, so `_hfit` keeps
`fitnessOfD`'s defaulting dead; old entities persist unchanged into every
intermediate world, so the selection reads stay covered — with its stored
joints existing and no entity being both organism and food) and
`populationSize ≥ 1` succeeds, bumps the generation counter, leaves
exactly `populationSize` organism entities, and removes every pre-existing
organism and all of its joints. -/
theorem c1_next_generation (env : MathEnv) (p : EvolutionSystem.Params)
    (w : World) (r : Rng) (hw : wfWorld w) (henv : envBounds env)
    (hne : w.organismIds ≠ []) (hpop : 1 ≤ p.populationSize)
    (hgen : ∀ x ∈ w.organismIds,
      ∃ e, w.getEntity x = some e ∧ e.genetics.isSome)
    (_hfit : ∀ x ∈ w.organismIds,
      ∃ e, w.getEntity x = some e ∧ e.fitness.isSome)
    (hjex : ∀ x ∈ w.organismIds, ∀ j ∈ EvolutionSystem.jointIdsOfD w x,
      (w.getEntity j).isSome)
    (hsep : ∀ e ∈ w.entities, ¬(e.organism.isSome ∧ e.food.isSome)) :
    ∃ w5 stats r4,
      EvolutionSystem.createNextGeneration env p w r =
        some (w5, { p with generationCount := p.generationCount + 1 },
          stats, r4) ∧
      w5.organismIds.length = p.populationSize ∧
      (∀ oid ∈ w.organismIds, w5.getEntity oid = none) ∧
      (∀ oid ∈ w.organismIds, ∀ j ∈ EvolutionSystem.jointIdsOfD w oid,
        w5.getEntity j = none) := by
  have hperm := sortByFitness_perm w w.organismIds
  have hsortmem : ∀ x ∈ EvolutionSystem.sortByFitness w w.organismIds,
      x ∈ w.organismIds := fun x hx => hperm.mem_iff.mp hx
  have hsortne : EvolutionSystem.sortByFitness w w.organismIds ≠ [] := by
    intro hnil
    refine hne ?_
    have h := hperm.symm
    rw [hnil] at h
    exact h.eq_nil
  have hmaxne : ∀ z : ℕ, max 2 z ≠ 0 := by
    intro z
    have := le_max_left 2 z
    omega
  have htakene : ∀ n, n ≠ 0 →
      List.take n (EvolutionSystem.sortByFitness w w.organismIds) ≠ [] := by
    intro n hn h
    rw [List.take_eq_nil_iff] at h
    rcases h with h | h
    · exact hn h
    · exact hsortne h
  unfold EvolutionSystem.createNextGeneration
  dsimp only
  rcases hS : (if max 2 (if p.generationCount + 1 ≤ 10 then
        7 * (EvolutionSystem.sortByFitness w w.organismIds).length / 10
      else (EvolutionSystem.sortByFitness w w.organismIds).length / 2) <
      (EvolutionSystem.sortByFitness w w.organismIds).length then
    EvolutionSystem.survivorExtras
      (EvolutionSystem.sortByFitness w w.organismIds)
      (max 2 (if p.generationCount + 1 ≤ 10 then
        7 * (EvolutionSystem.sortByFitness w w.organismIds).length / 10
      else (EvolutionSystem.sortByFitness w w.organismIds).length / 2))
      (min 3 ((EvolutionSystem.sortByFitness w w.organismIds).length / 10))
      (List.take (max 2 (if p.generationCount + 1 ≤ 10 then
        7 * (EvolutionSystem.sortByFitness w w.organismIds).length / 10
      else (EvolutionSystem.sortByFitness w w.organismIds).length / 2))
        (EvolutionSystem.sortByFitness w w.organismIds)) r
  else (List.take (max 2 (if p.generationCount + 1 ≤ 10 then
        7 * (EvolutionSystem.sortByFitness w w.organismIds).length / 10
      else (EvolutionSystem.sortByFitness w w.organismIds).length / 2))
      (EvolutionSystem.sortByFitness w w.organismIds), r))
    with ⟨survivors, r1⟩
  have hSfacts : survivors ≠ [] ∧ ∀ x ∈ survivors, x ∈ w.organismIds := by
    have hextras : ∀ ns k s, s ≠ [] → (∀ x ∈ s, x ∈ w.organismIds) →
        EvolutionSystem.survivorExtras
          (EvolutionSystem.sortByFitness w w.organismIds) ns k s r =
          (survivors, r1) →
        survivors ≠ [] ∧ ∀ x ∈ survivors, x ∈ w.organismIds := by
      intro ns k s hs hsub hEq
      have h1 := congrArg Prod.fst hEq
      simp only at h1
      constructor
      · rw [← h1]
        exact survivorExtras_ne_nil _ _ _ _ _ hs
      · intro x hx
        rw [← h1] at hx
        rcases survivorExtras_mem _ _ _ _ _ x hx with h | h
        · exact hsub x h
        · exact hsortmem x h
    have htake : ∀ n, (List.take n
          (EvolutionSystem.sortByFitness w w.organismIds), r) =
          (survivors, r1) → n ≠ 0 →
        survivors ≠ [] ∧ ∀ x ∈ survivors, x ∈ w.organismIds := by
      intro n hEq hn
      injection hEq with ha hb
      constructor
      · rw [← ha]
        exact htakene _ hn
      · intro x hx
        rw [← ha] at hx
        exact hsortmem x (List.take_subset _ _ hx)
    split_ifs at hS with h1 h2 h3
    · exact hextras _ _ _ (htakene _ (hmaxne _))
        (fun x hx => hsortmem x (List.take_subset _ _ hx)) hS
    · exact htake _ hS (hmaxne _)
    · exact hextras _ _ _ (htakene _ (hmaxne _))
        (fun x hx => hsortmem x (List.take_subset _ _ hx)) hS
    · exact htake _ hS (hmaxne _)
  cases survivors with
  | nil => exact absurd rfl hSfacts.1
  | cons best tail =>
  dsimp only
  have hbestmem : best ∈ w.organismIds :=
    hSfacts.2 best (List.mem_cons_self best tail)
  obtain ⟨eb, heb, hgb⟩ := hgen best hbestmem
  obtain ⟨cid, wE, rE, mE, hrepE, hwfE, hleE, hstabE, hmoE, hmfE⟩ :=
    reproduceOrganism_spec env w (p.generationCount + 1) best
      (p.mutationRate * (1 / 5)) r1 hw henv eb heb hgb
  rw [hrepE]
  simp only [Option.bind_eq_bind, Option.some_bind]
  obtain ⟨w2, r3, hfl, hwf2, hstab2, hnext2, hcntO2, hcntF2⟩ :=
    fillLoop_spec env (p.generationCount + 1)
      (if p.generationCount + 1 ≤ 10 then p.mutationRate * (3 / 2)
        else p.mutationRate)
      w (best :: tail) henv (List.cons_ne_nil best tail) hSfacts.2 hgen
      (p.populationSize - 1) wE rE hwfE hstabE hleE
  rw [hfl]
  simp only [Option.some_bind]
  -- organism/food census of the filled world
  rw [count_true_map, count_true_map] at hcntO2 hcntF2
  have hcntE : wE.entities.countP (fun x => x.organism.isSome) =
      w.entities.countP (fun x => x.organism.isSome) + 1 := by
    have h := congrArg (List.count true) hmoE
    rw [List.count_append, count_true_map, count_true_map] at h
    have h1 : (true :: List.replicate mE false).count true = 1 := by
      simp [List.count_cons, List.count_eq_zero, List.mem_replicate]
    rw [h1] at h
    exact h
  have hcfE : wE.entities.countP (fun x => x.food.isSome) =
      w.entities.countP (fun x => x.food.isSome) := by
    have h := congrArg (List.count true) hmfE
    rw [List.count_append, count_true_map, count_true_map] at h
    have h0 : (false :: List.replicate mE false).count true = 0 := by
      simp [List.count_cons, List.count_eq_zero, List.mem_replicate]
    rw [h0] at h
    omega
  have hcntW2 : w2.entities.countP (fun x => x.organism.isSome) =
      w.entities.countP (fun x => x.organism.isSome) + p.populationSize := by
    omega
  have hcfW2 : w2.entities.countP (fun x => x.food.isSome) =
      w.entities.countP (fun x => x.food.isSome) := by
    omega
  -- the new entities are exactly a remainder list with no food
  obtain ⟨lrest, hperm2⟩ := exists_rest w w2 hw.1.1 hwf2.1.1 hstab2
  have hcrest : lrest.countP (fun x => x.organism.isSome) =
      p.populationSize := by
    have h := hperm2.countP_eq (fun x => x.organism.isSome)
    rw [List.countP_append] at h
    omega
  have hfrest : ∀ e ∈ lrest, ¬(e.food.isSome = true) := by
    refine List.countP_eq_zero.mp ?_
    have h := hperm2.countP_eq (fun x => x.food.isSome)
    rw [List.countP_append] at h
    omega
  have hfresh : ∀ e ∈ lrest, ∀ eo ∈ w.entities, e.id ≠ eo.id := by
    intro e he eo heo heq
    have hew2 : e ∈ w2.entities :=
      hperm2.mem_iff.mpr (List.mem_append_right _ he)
    have heow2 : eo ∈ w2.entities :=
      hperm2.mem_iff.mpr (List.mem_append_left _ heo)
    have heeq : e = eo := entity_eq_of_id_eq w2.entities hwf2.1.1
      e hew2 eo heow2 heq
    subst heeq
    have hnd : w2.entities.Nodup := hwf2.1.1.of_map
    have hnd' : (w.entities ++ lrest).Nodup := hperm2.nodup_iff.mp hnd
    obtain ⟨-, -, hdisj⟩ := List.nodup_append.mp hnd'
    exact hdisj heo he
  -- every removal-listed id belongs to an old entity
  have hRold : ∀ x ∈ EvolutionSystem.removalIds w w.organismIds,
      ∃ eo ∈ w.entities, eo.id = x := by
    intro x hx
    obtain ⟨oid, ho, hcase⟩ := (removalIds_mem w _ x).mp hx
    rcases hcase with hj | rfl
    · obtain ⟨ej, hej⟩ := Option.isSome_iff_exists.mp (hjex oid ho x hj)
      exact ⟨ej, List.mem_of_find?_eq_some hej,
        by simpa using List.find?_some hej⟩
    · obtain ⟨e, he, hid, -⟩ := mem_organismIds.mp ho
      exact ⟨e, he, hid⟩
  have hrestR : ∀ e ∈ lrest,
      e.id ∉ EvolutionSystem.removalIds w w.organismIds := by
    intro e he hmem
    obtain ⟨eo, heo, hid⟩ := hRold _ hmem
    exact hfresh e he eo heo hid.symm
  -- removal folds as filters
  have hR3 := foldl_remove_entities
    (EvolutionSystem.removalIds w w.organismIds) w2
  set w3 : World := List.foldl World.removeEntity w2
    (EvolutionSystem.removalIds w w.organismIds) with hw3def
  have hR4 := foldl_remove_entities w3.foodIds w3
  set w4 : World := List.foldl World.removeEntity w3 w3.foodIds with hw4def
  -- organism census after the removals
  have hcnt3 : w3.entities.countP (fun x => x.organism.isSome) =
      p.populationSize := by
    rw [hR3.1]
    have hpf := (hperm2.filter
      (fun e => decide (e.id ∉ EvolutionSystem.removalIds w w.organismIds)))
    rw [hpf.countP_eq, List.filter_append, List.countP_append]
    have hz : (w.entities.filter (fun e =>
        decide (e.id ∉ EvolutionSystem.removalIds w w.organismIds))).countP
        (fun x => x.organism.isSome) = 0 := by
      refine List.countP_eq_zero.mpr ?_
      intro e he horg
      obtain ⟨hew, hq⟩ := List.mem_filter.mp he
      have : e.id ∈ EvolutionSystem.removalIds w w.organismIds :=
        (removalIds_mem w _ e.id).mpr
          ⟨e.id, mem_organismIds.mpr ⟨e, hew, rfl, horg⟩, Or.inr rfl⟩
      simp at hq
      exact hq this
    have hself : lrest.filter (fun e =>
        decide (e.id ∉ EvolutionSystem.removalIds w w.organismIds)) =
        lrest := by
      refine List.filter_eq_self.mpr ?_
      intro e he
      simpa using hrestR e he
    rw [hz, hself, hcrest]
    omega
  have hmem3 : ∀ e ∈ w3.entities, e ∈ w2.entities := by
    intro e he
    rw [hR3.1] at he
    exact (List.mem_filter.mp he).1
  have hnd3 : (w3.entities.map (·.id)).Nodup := by
    rw [hR3.1]
    exact hwf2.1.1.sublist ((List.filter_sublist w2.entities).map (·.id))
  -- no organism of the cleaned world is a food entity
  have hforg3 : ∀ e ∈ w3.entities, e.organism.isSome = true →
      e.id ∉ w3.foodIds := by
    intro e he horg hmemf
    obtain ⟨ef, hef, hefid, heffood⟩ := mem_foodIds.mp hmemf
    have : ef = e := entity_eq_of_id_eq w3.entities hnd3 ef hef e he hefid
    subst this
    have hew2 : ef ∈ w2.entities := hmem3 ef hef
    rcases List.mem_append.mp (hperm2.mem_iff.mp hew2) with h' | h'
    · exact hsep ef h' ⟨horg, heffood⟩
    · exact hfrest ef h' heffood
  have hcnt4 : w4.entities.countP (fun x => x.organism.isSome) =
      p.populationSize := by
    rw [hR4.1]
    rw [List.countP_eq_length_filter, List.filter_filter]
    have hcong : w3.entities.filter (fun a => a.organism.isSome &&
        decide (a.id ∉ w3.foodIds)) =
        w3.entities.filter (fun e => e.organism.isSome) := by
      refine List.filter_congr ?_
      intro e he
      cases horg : e.organism.isSome with
      | false => simp [horg]
      | true => simp [horg, hforg3 e he horg]
    rw [hcong, ← List.countP_eq_length_filter]
    exact hcnt3
  -- ids stay bounded for the food(re)fill
  have hnext3 : w3.nextEntityId = w2.nextEntityId := hR3.2
  have hnext4 : w4.nextEntityId = w2.nextEntityId := by
    rw [hR4.2, hnext3]
  have hb4 : ∀ e ∈ w4.entities, e.id < w4.nextEntityId := by
    intro e he
    rw [hR4.1] at he
    have he3 := (List.mem_filter.mp he).1
    have he2 := hmem3 e he3
    rw [hnext4]
    exact hwf2.1.2 e he2
  have hif := initializeFood_facts p.foodAmount w4 r3 hb4
  have hlen : ∀ wx : World, wx.organismIds.length =
      wx.entities.countP (fun e => e.organism.isSome) := by
    intro wx
    rw [World.organismIds, World.idsWith, List.length_map,
      ← List.countP_eq_length_filter]
  refine ⟨_, _, _, rfl, ?_, ?_, ?_⟩
  · rw [hlen, hif.2]
    exact hcnt4
  · intro oid ho
    obtain ⟨e, he, -⟩ := getEntity_of_mem_organismIds hw.1.1 ho
    have hlt : oid < w.nextEntityId := getEntity_lt_next w hw.1 oid e he
    rw [hif.1 oid (by rw [hnext4]; omega)]
    refine getEntity_foldl_remove_none _ _ _ ?_
    refine (getEntity_foldl_remove _ _ _ ?_).mpr ?_
    · rw [hstab2 oid e he]
      rfl
    · exact (removalIds_mem w _ oid).mpr ⟨oid, ho, Or.inr rfl⟩
  · intro oid ho j hj
    obtain ⟨ej, hej⟩ := Option.isSome_iff_exists.mp (hjex oid ho j hj)
    have hlt : j < w.nextEntityId := getEntity_lt_next w hw.1 j ej hej
    rw [hif.1 j (by rw [hnext4]; omega)]
    refine getEntity_foldl_remove_none _ _ _ ?_
    refine (getEntity_foldl_remove _ _ _ ?_).mpr ?_
    · rw [hstab2 j ej hej]
      rfl
    · exact (removalIds_mem w _ j).mpr ⟨oid, ho, Or.inl hj⟩

/-- C1 witness: a concrete one-organism world with population size one;
the generation turnover succeeds, the counter advances, exactly one
organism remains and the old one (id 0) is gone. -/
theorem c1_witness :
    wfWorld c1w ∧ envBounds c4env ∧ c1w.organismIds ≠ [] ∧
    1 ≤ c1p.populationSize ∧
    (∀ x ∈ c1w.organismIds,
      ∃ e, c1w.getEntity x = some e ∧ e.fitness.isSome) ∧
    ∃ w5 stats r4,
      EvolutionSystem.createNextGeneration c4env c1p c1w c1r =
        some (w5, { c1p with generationCount := c1p.generationCount + 1 },
          stats, r4) ∧
      w5.organismIds.length = c1p.populationSize ∧
      (∀ oid ∈ c1w.organismIds, w5.getEntity oid = none) ∧
      (∀ oid ∈ c1w.organismIds, ∀ j ∈ EvolutionSystem.jointIdsOfD c1w oid,
        w5.getEntity j = none) := by
  have hw : wfWorld c1w := by
    refine ⟨⟨by decide, ?_⟩, ?_, ?_⟩
    · intro e he
      simp only [c1w, List.mem_singleton] at he
      rw [he]
      decide
    · intro e he j hj c hc
      simp only [c1w, List.mem_singleton] at he
      rw [he] at hj
      simp [c1org] at hj
    · intro a ha ja hja b hb jb hjb
      simp only [c1w, List.mem_singleton] at ha
      rw [ha] at hja
      simp [c1org] at hja
  have henv : envBounds c4env := by
    refine ⟨fun q h1 h2 => ?_, fun q => ?_, fun q => ?_⟩ <;>
      norm_num [c4env]
  have hne : c1w.organismIds ≠ [] := by decide
  have hgen : ∀ x ∈ c1w.organismIds,
      ∃ e, c1w.getEntity x = some e ∧ e.genetics.isSome := by
    intro x hx
    have hids : c1w.organismIds = [0] := rfl
    rw [hids, List.mem_singleton] at hx
    subst hx
    exact ⟨c1org, rfl, rfl⟩
  have hjex : ∀ x ∈ c1w.organismIds,
      ∀ j ∈ EvolutionSystem.jointIdsOfD c1w x, (c1w.getEntity j).isSome := by
    intro x hx j hj
    have hids : c1w.organismIds = [0] := rfl
    rw [hids, List.mem_singleton] at hx
    subst hx
    have hjids : EvolutionSystem.jointIdsOfD c1w 0 = [] := rfl
    rw [hjids] at hj
    simp at hj
  have hsep : ∀ e ∈ c1w.entities,
      ¬(e.organism.isSome ∧ e.food.isSome) := by
    intro e he
    simp only [c1w, List.mem_singleton] at he
    rw [he]
    decide
  have hfit : ∀ x ∈ c1w.organismIds,
      ∃ e, c1w.getEntity x = some e ∧ e.fitness.isSome := by
    intro x hx
    have hids : c1w.organismIds = [0] := rfl
    rw [hids, List.mem_singleton] at hx
    subst hx
    exact ⟨c1org, rfl, rfl⟩
  exact ⟨hw, henv, hne, le_refl 1, hfit,
    c1_next_generation c4env c1p c1w c1r hw henv hne (le_refl 1)
      hgen hfit hjex hsep⟩

/-! ### C7: the chaotic physics pipeline keeps positions and velocities
finite -/

/-- A finite JS number is a `fin`. -/
theorem fin_of_isFinite {z : JSNum} (h : z.isFinite = true) :
    ∃ q : ℚ, z = JSNum.fin q := by
  cases z with
  | fin q => exact ⟨q, rfl⟩
  | inf => simp [JSNum.isFinite] at h
  | ninf => simp [JSNum.isFinite] at h
  | nan => simp [JSNum.isFinite] at h

/-- `NaN` absorbs multiplication on the left. -/
theorem mul_nan_left (b : JSNum) : JSNum.nan.mul b = JSNum.nan := by
  cases b <;> rfl

/-- `NaN` absorbs addition on the right. -/
theorem add_nan_right (a : JSNum) : a.add JSNum.nan = JSNum.nan := by
  cases a <;> rfl

/-- `Math.min` on two finite numbers. -/
theorem minJ_fin (hi a : ℚ) :
    JSNum.minJ (JSNum.fin hi) (JSNum.fin a) = JSNum.fin (min hi a) := by
  unfold JSNum.minJ
  rw [if_neg (by simp [JSNum.isNaN])]
  by_cases h : a < hi
  · rw [if_pos (by simpa [JSNum.lt] using h)]
    rw [min_eq_right (le_of_lt h)]
  · rw [if_neg (by simpa [JSNum.lt] using h)]
    rw [min_eq_left (le_of_not_lt h)]

/-- `Math.max` on two finite numbers. -/
theorem maxJ_fin (lo a : ℚ) :
    JSNum.maxJ (JSNum.fin lo) (JSNum.fin a) = JSNum.fin (max lo a) := by
  unfold JSNum.maxJ
  rw [if_neg (by simp [JSNum.isNaN])]
  by_cases h : lo < a
  · rw [if_pos (by simpa [JSNum.lt] using h)]
    rw [max_eq_right (le_of_lt h)]
  · rw [if_neg (by simpa [JSNum.lt] using h)]
    rw [max_eq_left (le_of_not_lt h)]

/-- The hard clamp produces a finite value between the bounds whenever its
input is not `NaN`. -/
theorem clamp_bounds (z : JSNum) (hz : z.isNaN = false) (lo hi : ℚ)
    (hlh : lo ≤ hi) :
    ∃ q : ℚ, JSNum.maxJ (JSNum.fin lo) (JSNum.minJ (JSNum.fin hi) z) =
      JSNum.fin q ∧ lo ≤ q ∧ q ≤ hi := by
  cases z with
  | fin a =>
    rw [minJ_fin, maxJ_fin]
    exact ⟨max lo (min hi a), rfl, le_max_left _ _,
      max_le hlh (le_trans (min_le_left _ _) (le_refl hi))⟩
  | inf =>
    have hmin : JSNum.minJ (JSNum.fin hi) JSNum.inf = JSNum.fin hi := by
      unfold JSNum.minJ
      rw [if_neg (by simp [JSNum.isNaN]), if_neg (by simp [JSNum.lt])]
    rw [hmin, maxJ_fin]
    exact ⟨max lo hi, rfl, le_max_left _ _, max_le hlh (le_refl hi)⟩
  | ninf =>
    have hmin : JSNum.minJ (JSNum.fin hi) JSNum.ninf = JSNum.ninf := by
      unfold JSNum.minJ
      rw [if_neg (by simp [JSNum.isNaN]), if_pos (by simp [JSNum.lt])]
    have hmax : JSNum.maxJ (JSNum.fin lo) JSNum.ninf = JSNum.fin lo := by
      unfold JSNum.maxJ
      rw [if_neg (by simp [JSNum.isNaN]), if_neg (by simp [JSNum.lt])]
    rw [hmin, hmax]
    exact ⟨lo, rfl, le_refl lo, hlh⟩
  | nan => simp [JSNum.isNaN] at hz

/-- The core of the safety argument: after the velocity cap, a velocity
that survives the `NaN` position check is finite in both components. -/
theorem cap_vel_finite (sq : ℚ → ℚ) (vx vy px py dt : JSNum) (maxv : ℚ)
    (hmax : 0 < maxv) (v5 : ChaosPhysics.Vec2J)
    (hv5 : v5 = (if (JSNum.sqrtJ sq ((vx.mul vx).add (vy.mul vy))).gt
        (JSNum.fin maxv)
      then (ChaosPhysics.Vec2J.mk vx vy).smulJ
        ((JSNum.fin maxv).div (JSNum.sqrtJ sq ((vx.mul vx).add (vy.mul vy))))
      else ⟨vx, vy⟩))
    (hx : (px.add (v5.x.mul dt)).isNaN = false)
    (hy : (py.add (v5.y.mul dt)).isNaN = false) :
    v5.x.isFinite = true ∧ v5.y.isFinite = true := by
  cases vx with
  | fin a =>
    cases vy with
    | fin b =>
      have hnn : ¬(a * a + b * b < 0) := by nlinarith [sq_nonneg a, sq_nonneg b]
      rw [show ((JSNum.fin a).mul (JSNum.fin a)).add
          ((JSNum.fin b).mul (JSNum.fin b)) = JSNum.fin (a * a + b * b)
        from rfl] at hv5
      rw [show JSNum.sqrtJ sq (JSNum.fin (a * a + b * b)) =
          JSNum.fin (sq (a * a + b * b)) from by
        simp only [JSNum.sqrtJ]
        rw [if_neg hnn]] at hv5
      by_cases hgt : maxv < sq (a * a + b * b)
      · rw [if_pos (by simp [JSNum.gt, JSNum.lt, hgt])] at hv5
        have hne : sq (a * a + b * b) ≠ 0 := by linarith
        rw [show (JSNum.fin maxv).div (JSNum.fin (sq (a * a + b * b))) =
            JSNum.fin (maxv / sq (a * a + b * b)) from by
          simp only [JSNum.div]
          rw [if_neg hne]] at hv5
        subst hv5
        exact ⟨rfl, rfl⟩
      · rw [if_neg (by simp [JSNum.gt, JSNum.lt, hgt])] at hv5
        subst hv5
        exact ⟨rfl, rfl⟩
    | inf =>
      rw [show (JSNum.sqrtJ sq (((JSNum.fin a).mul (JSNum.fin a)).add
          (JSNum.inf.mul JSNum.inf))) = JSNum.inf from rfl] at hv5
      rw [if_pos (by simp [JSNum.gt, JSNum.lt])] at hv5
      rw [show (JSNum.fin maxv).div JSNum.inf = JSNum.fin 0 from rfl] at hv5
      rw [show ((ChaosPhysics.Vec2J.mk (JSNum.fin a) JSNum.inf).smulJ
          (JSNum.fin 0)) =
        (⟨JSNum.fin (a * 0), JSNum.nan⟩ : ChaosPhysics.Vec2J) from by
          simp [ChaosPhysics.Vec2J.smulJ, JSNum.mul]] at hv5
      subst hv5
      rw [show (JSNum.nan.mul dt) = JSNum.nan from mul_nan_left dt,
        show (py.add JSNum.nan) = JSNum.nan from add_nan_right py] at hy
      simp [JSNum.isNaN] at hy
    | ninf =>
      rw [show (JSNum.sqrtJ sq (((JSNum.fin a).mul (JSNum.fin a)).add
          (JSNum.ninf.mul JSNum.ninf))) = JSNum.inf from rfl] at hv5
      rw [if_pos (by simp [JSNum.gt, JSNum.lt])] at hv5
      rw [show (JSNum.fin maxv).div JSNum.inf = JSNum.fin 0 from rfl] at hv5
      rw [show ((ChaosPhysics.Vec2J.mk (JSNum.fin a) JSNum.ninf).smulJ
          (JSNum.fin 0)) =
        (⟨JSNum.fin (a * 0), JSNum.nan⟩ : ChaosPhysics.Vec2J) from by
          simp [ChaosPhysics.Vec2J.smulJ, JSNum.mul]] at hv5
      subst hv5
      rw [show (JSNum.nan.mul dt) = JSNum.nan from mul_nan_left dt,
        show (py.add JSNum.nan) = JSNum.nan from add_nan_right py] at hy
      simp [JSNum.isNaN] at hy
    | nan =>
      rw [show (((JSNum.fin a).mul (JSNum.fin a)).add
          (JSNum.nan.mul JSNum.nan)) = JSNum.nan from rfl] at hv5
      rw [show JSNum.sqrtJ sq JSNum.nan = JSNum.nan from rfl] at hv5
      rw [if_neg (by simp [JSNum.gt, JSNum.lt])] at hv5
      subst hv5
      rw [show (JSNum.nan.mul dt) = JSNum.nan from mul_nan_left dt,
        show (py.add JSNum.nan) = JSNum.nan from add_nan_right py] at hy
      simp [JSNum.isNaN] at hy
  | inf =>
    cases vy with
    | fin b =>
      rw [show (JSNum.sqrtJ sq ((JSNum.inf.mul JSNum.inf).add
          ((JSNum.fin b).mul (JSNum.fin b)))) = JSNum.inf from rfl] at hv5
      rw [if_pos (by simp [JSNum.gt, JSNum.lt])] at hv5
      rw [show (JSNum.fin maxv).div JSNum.inf = JSNum.fin 0 from rfl] at hv5
      rw [show ((ChaosPhysics.Vec2J.mk JSNum.inf (JSNum.fin b)).smulJ
          (JSNum.fin 0)) =
        (⟨JSNum.nan, JSNum.fin (b * 0)⟩ : ChaosPhysics.Vec2J) from by
          simp [ChaosPhysics.Vec2J.smulJ, JSNum.mul]] at hv5
      subst hv5
      rw [show (JSNum.nan.mul dt) = JSNum.nan from mul_nan_left dt,
        show (px.add JSNum.nan) = JSNum.nan from add_nan_right px] at hx
      simp [JSNum.isNaN] at hx
    | inf =>
      rw [show (JSNum.sqrtJ sq ((JSNum.inf.mul JSNum.inf).add
          (JSNum.inf.mul JSNum.inf))) = JSNum.inf from rfl] at hv5
      rw [if_pos (by simp [JSNum.gt, JSNum.lt])] at hv5
      rw [show (JSNum.fin maxv).div JSNum.inf = JSNum.fin 0 from rfl] at hv5
      rw [show ((ChaosPhysics.Vec2J.mk JSNum.inf JSNum.inf).smulJ
          (JSNum.fin 0)) =
        (⟨JSNum.nan, JSNum.nan⟩ : ChaosPhysics.Vec2J) from by
          simp [ChaosPhysics.Vec2J.smulJ, JSNum.mul]] at hv5
      subst hv5
      rw [show (JSNum.nan.mul dt) = JSNum.nan from mul_nan_left dt,
        show (px.add JSNum.nan) = JSNum.nan from add_nan_right px] at hx
      simp [JSNum.isNaN] at hx
    | ninf =>
      rw [show (JSNum.sqrtJ sq ((JSNum.inf.mul JSNum.inf).add
          (JSNum.ninf.mul JSNum.ninf))) = JSNum.inf from rfl] at hv5
      rw [if_pos (by simp [JSNum.gt, JSNum.lt])] at hv5
      rw [show (JSNum.fin maxv).div JSNum.inf = JSNum.fin 0 from rfl] at hv5
      rw [show ((ChaosPhysics.Vec2J.mk JSNum.inf JSNum.ninf).smulJ
          (JSNum.fin 0)) =
        (⟨JSNum.nan, JSNum.nan⟩ : ChaosPhysics.Vec2J) from by
          simp [ChaosPhysics.Vec2J.smulJ, JSNum.mul]] at hv5
      subst hv5
      rw [show (JSNum.nan.mul dt) = JSNum.nan from mul_nan_left dt,
        show (px.add JSNum.nan) = JSNum.nan from add_nan_right px] at hx
      simp [JSNum.isNaN] at hx
    | nan =>
      rw [show ((JSNum.inf.mul JSNum.inf).add (JSNum.nan.mul JSNum.nan)) =
        JSNum.nan from rfl] at hv5
      rw [show JSNum.sqrtJ sq JSNum.nan = JSNum.nan from rfl] at hv5
      rw [if_neg (by simp [JSNum.gt, JSNum.lt])] at hv5
      subst hv5
      rw [show (JSNum.nan.mul dt) = JSNum.nan from mul_nan_left dt,
        show (py.add JSNum.nan) = JSNum.nan from add_nan_right py] at hy
      simp [JSNum.isNaN] at hy
  | ninf =>
    cases vy with
    | fin b =>
      rw [show (JSNum.sqrtJ sq ((JSNum.ninf.mul JSNum.ninf).add
          ((JSNum.fin b).mul (JSNum.fin b)))) = JSNum.inf from rfl] at hv5
      rw [if_pos (by simp [JSNum.gt, JSNum.lt])] at hv5
      rw [show (JSNum.fin maxv).div JSNum.inf = JSNum.fin 0 from rfl] at hv5
      rw [show ((ChaosPhysics.Vec2J.mk JSNum.ninf (JSNum.fin b)).smulJ
          (JSNum.fin 0)) =
        (⟨JSNum.nan, JSNum.fin (b * 0)⟩ : ChaosPhysics.Vec2J) from by
          simp [ChaosPhysics.Vec2J.smulJ, JSNum.mul]] at hv5
      subst hv5
      rw [show (JSNum.nan.mul dt) = JSNum.nan from mul_nan_left dt,
        show (px.add JSNum.nan) = JSNum.nan from add_nan_right px] at hx
      simp [JSNum.isNaN] at hx
    | inf =>
      rw [show (JSNum.sqrtJ sq ((JSNum.ninf.mul JSNum.ninf).add
          (JSNum.inf.mul JSNum.inf))) = JSNum.inf from rfl] at hv5
      rw [if_pos (by simp [JSNum.gt, JSNum.lt])] at hv5
      rw [show (JSNum.fin maxv).div JSNum.inf = JSNum.fin 0 from rfl] at hv5
      rw [show ((ChaosPhysics.Vec2J.mk JSNum.ninf JSNum.inf).smulJ
          (JSNum.fin 0)) =
        (⟨JSNum.nan, JSNum.nan⟩ : ChaosPhysics.Vec2J) from by
          simp [ChaosPhysics.Vec2J.smulJ, JSNum.mul]] at hv5
      subst hv5
      rw [show (JSNum.nan.mul dt) = JSNum.nan from mul_nan_left dt,
        show (px.add JSNum.nan) = JSNum.nan from add_nan_right px] at hx
      simp [JSNum.isNaN] at hx
    | ninf =>
      rw [show (JSNum.sqrtJ sq ((JSNum.ninf.mul JSNum.ninf).add
          (JSNum.ninf.mul JSNum.ninf))) = JSNum.inf from rfl] at hv5
      rw [if_pos (by simp [JSNum.gt, JSNum.lt])] at hv5
      rw [show (JSNum.fin maxv).div JSNum.inf = JSNum.fin 0 from rfl] at hv5
      rw [show ((ChaosPhysics.Vec2J.mk JSNum.ninf JSNum.ninf).smulJ
          (JSNum.fin 0)) =
        (⟨JSNum.nan, JSNum.nan⟩ : ChaosPhysics.Vec2J) from by
          simp [ChaosPhysics.Vec2J.smulJ, JSNum.mul]] at hv5
      subst hv5
      rw [show (JSNum.nan.mul dt) = JSNum.nan from mul_nan_left dt,
        show (px.add JSNum.nan) = JSNum.nan from add_nan_right px] at hx
      simp [JSNum.isNaN] at hx
    | nan =>
      rw [show ((JSNum.ninf.mul JSNum.ninf).add (JSNum.nan.mul JSNum.nan)) =
        JSNum.nan from rfl] at hv5
      rw [show JSNum.sqrtJ sq JSNum.nan = JSNum.nan from rfl] at hv5
      rw [if_neg (by simp [JSNum.gt, JSNum.lt])] at hv5
      subst hv5
      rw [show (JSNum.nan.mul dt) = JSNum.nan from mul_nan_left dt,
        show (py.add JSNum.nan) = JSNum.nan from add_nan_right py] at hy
      simp [JSNum.isNaN] at hy
  | nan =>
    rw [show ((JSNum.nan.mul JSNum.nan).add (vy.mul vy)) = JSNum.nan from by
      rw [show JSNum.nan.mul JSNum.nan = JSNum.nan from rfl]
      cases vy.mul vy <;> rfl] at hv5
    rw [show JSNum.sqrtJ sq JSNum.nan = JSNum.nan from rfl] at hv5
    rw [if_neg (by simp [JSNum.gt, JSNum.lt])] at hv5
    subst hv5
    rw [show (JSNum.nan.mul dt) = JSNum.nan from mul_nan_left dt,
      show (px.add JSNum.nan) = JSNum.nan from add_nan_right px] at hx
    simp [JSNum.isNaN] at hx

/-- The force stage only advances the stream cursor. -/
theorem forceStage_stream (level : ℚ) (force : ChaosPhysics.Vec2J) (r : Rng) :
    (ChaosPhysics.forceStage level force r).2.stream = r.stream := by
  unfold ChaosPhysics.forceStage
  dsimp only [Rng.next]
  split_ifs <;> rfl

/-- The impulse stage never touches the chaos map and only advances the
stream cursor. -/
theorem impulseStage_facts (env : ChaosPhysics.Env) (dt : JSNum) (level : ℚ)
    (id : ℕ) (vel : ChaosPhysics.Vec2J) (st : ChaosPhysics.SysState)
    (r : Rng) :
    (ChaosPhysics.impulseStage env dt level id vel st r).2.1.chaos =
      st.chaos ∧
    (ChaosPhysics.impulseStage env dt level id vel st r).2.2.stream =
      r.stream := by
  unfold ChaosPhysics.impulseStage
  cases hAl : ChaosPhysics.alGet st.impulses id with
  | some t =>
    dsimp only [Rng.next]
    split_ifs <;> exact ⟨rfl, rfl⟩
  | none =>
    dsimp only [Rng.next]
    split_ifs <;> exact ⟨rfl, rfl⟩

/-- The damping stage only advances the stream cursor. -/
theorem dampStage_stream (vel2 : ChaosPhysics.Vec2J) (r : Rng) :
    (ChaosPhysics.dampStage vel2 r).2.stream = r.stream := by
  unfold ChaosPhysics.dampStage
  dsimp only [Rng.next]
  split_ifs <;> rfl

/-- The boost stage only advances the stream cursor. -/
theorem boostStage_stream (vel3 : ChaosPhysics.Vec2J) (r : Rng) :
    (ChaosPhysics.boostStage vel3 r).2.stream = r.stream := by
  unfold ChaosPhysics.boostStage
  dsimp only [Rng.next]
  split_ifs <;> rfl

/-- The cap stage, with a positive chaos level, caps against a positive
maximum speed. -/
theorem capStage_spec (env : ChaosPhysics.Env) (level : ℚ)
    (vel4 : ChaosPhysics.Vec2J) (r : Rng) (hlevel : 0 < level) :
    ∃ maxv r13, 0 < maxv ∧
      ChaosPhysics.capStage env level vel4 r =
        ((if (JSNum.sqrtJ env.sq
            ((vel4.x.mul vel4.x).add (vel4.y.mul vel4.y))).gt (JSNum.fin maxv)
          then vel4.smulJ ((JSNum.fin maxv).div (JSNum.sqrtJ env.sq
            ((vel4.x.mul vel4.x).add (vel4.y.mul vel4.y))))
          else vel4), r13) ∧
      r13.stream = r.stream := by
  refine ⟨(if (r.next).1 < 9/10 then 30 * level else 60 * level),
    (r.next).2, ?_, rfl, rfl⟩
  split_ifs <;> linarith

/-- The guard stage: either the `NaN` check fires (random finite position,
zero velocity) or the integrated position has no `NaN` component. -/
theorem guardStage_spec (pos vel5 : ChaosPhysics.Vec2J) (dt : JSNum)
    (r : Rng) :
    ∃ pos2 vel6 r14,
      ChaosPhysics.guardStage pos vel5 dt r = (pos2, vel6, r14) ∧
      r14.stream = r.stream ∧
      ((∃ qx qy : ℚ, pos2 = ⟨JSNum.fin qx, JSNum.fin qy⟩ ∧
          vel6 = ⟨JSNum.fin 0, JSNum.fin 0⟩) ∨
       (pos2 = pos.addJ (vel5.smulJ dt) ∧ vel6 = vel5 ∧
        (pos.addJ (vel5.smulJ dt)).x.isNaN = false ∧
        (pos.addJ (vel5.smulJ dt)).y.isNaN = false)) := by
  unfold ChaosPhysics.guardStage
  dsimp only [Rng.next]
  by_cases h : ((pos.addJ (vel5.smulJ dt)).x.isNaN = true) ∨
      ((pos.addJ (vel5.smulJ dt)).y.isNaN = true)
  · rw [if_pos h]
    exact ⟨_, _, _, rfl, rfl, Or.inl ⟨_, _, rfl, rfl⟩⟩
  · rw [if_neg h]
    simp only [not_or, Bool.not_eq_true] at h
    exact ⟨_, _, _, rfl, rfl, Or.inr ⟨rfl, rfl, h.1, h.2⟩⟩

/-- The left-edge bounce keeps finite velocities finite and returns either
the clamped edge coordinate or its input coordinate. -/
theorem bounceXLow_spec (px : JSNum) (vel : ChaosPhysics.Vec2J) (r : Rng)
    (hvx : vel.x.isFinite = true) (hvy : vel.y.isFinite = true) :
    ∃ out r15, ChaosPhysics.bounceXLow px vel r = (out, r15) ∧
      (out.1 = JSNum.fin 10 ∨ out.1 = px) ∧
      out.2.x.isFinite = true ∧ out.2.y.isFinite = true ∧
      r15.stream = r.stream := by
  obtain ⟨a, ha⟩ := fin_of_isFinite hvx
  obtain ⟨b, hb⟩ := fin_of_isFinite hvy
  unfold ChaosPhysics.bounceXLow
  dsimp only [Rng.next]
  split_ifs with h1 h2
  · exact ⟨_, _, rfl, Or.inl rfl, by rw [ha]; rfl, by rw [ha]; rfl, rfl⟩
  · exact ⟨_, _, rfl, Or.inl rfl, by rw [ha]; rfl, hvy, rfl⟩
  · exact ⟨_, _, rfl, Or.inr rfl, hvx, hvy, rfl⟩

/-- The right-edge bounce block, same shape. -/
theorem bounceXHigh_spec (px : JSNum) (vel : ChaosPhysics.Vec2J) (r : Rng)
    (hvx : vel.x.isFinite = true) (hvy : vel.y.isFinite = true) :
    ∃ out r16, ChaosPhysics.bounceXHigh px vel r = (out, r16) ∧
      (out.1 = JSNum.fin 790 ∨ out.1 = px) ∧
      out.2.x.isFinite = true ∧ out.2.y.isFinite = true ∧
      r16.stream = r.stream := by
  obtain ⟨a, ha⟩ := fin_of_isFinite hvx
  obtain ⟨b, hb⟩ := fin_of_isFinite hvy
  unfold ChaosPhysics.bounceXHigh
  dsimp only [Rng.next]
  split_ifs with h1 h2
  · exact ⟨_, _, rfl, Or.inl rfl, by rw [ha]; rfl, by rw [ha]; rfl, rfl⟩
  · exact ⟨_, _, rfl, Or.inl rfl, by rw [ha]; rfl, hvy, rfl⟩
  · exact ⟨_, _, rfl, Or.inr rfl, hvx, hvy, rfl⟩

/-- The top-edge bounce block, same shape. -/
theorem bounceYLow_spec (py : JSNum) (vel : ChaosPhysics.Vec2J) (r : Rng)
    (hvx : vel.x.isFinite = true) (hvy : vel.y.isFinite = true) :
    ∃ out r17, ChaosPhysics.bounceYLow py vel r = (out, r17) ∧
      (out.1 = JSNum.fin 10 ∨ out.1 = py) ∧
      out.2.x.isFinite = true ∧ out.2.y.isFinite = true ∧
      r17.stream = r.stream := by
  obtain ⟨a, ha⟩ := fin_of_isFinite hvx
  obtain ⟨b, hb⟩ := fin_of_isFinite hvy
  unfold ChaosPhysics.bounceYLow
  dsimp only [Rng.next]
  split_ifs with h1 h2
  · exact ⟨_, _, rfl, Or.inl rfl, by rw [hb]; rfl, by rw [hb]; rfl, rfl⟩
  · exact ⟨_, _, rfl, Or.inl rfl, hvx, by rw [hb]; rfl, rfl⟩
  · exact ⟨_, _, rfl, Or.inr rfl, hvx, hvy, rfl⟩

/-- The bottom-edge bounce block, same shape. -/
theorem bounceYHigh_spec (py : JSNum) (vel : ChaosPhysics.Vec2J) (r : Rng)
    (hvx : vel.x.isFinite = true) (hvy : vel.y.isFinite = true) :
    ∃ out r18, ChaosPhysics.bounceYHigh py vel r = (out, r18) ∧
      (out.1 = JSNum.fin 490 ∨ out.1 = py) ∧
      out.2.x.isFinite = true ∧ out.2.y.isFinite = true ∧
      r18.stream = r.stream := by
  obtain ⟨a, ha⟩ := fin_of_isFinite hvx
  obtain ⟨b, hb⟩ := fin_of_isFinite hvy
  unfold ChaosPhysics.bounceYHigh
  dsimp only [Rng.next]
  split_ifs with h1 h2
  · exact ⟨_, _, rfl, Or.inl rfl, by rw [hb]; rfl, by rw [hb]; rfl, rfl⟩
  · exact ⟨_, _, rfl, Or.inl rfl, hvx, by rw [hb]; rfl, rfl⟩
  · exact ⟨_, _, rfl, Or.inr rfl, hvx, hvy, rfl⟩

/-- The kick stage keeps finite velocities finite. -/
theorem kickStage_spec (level : ℚ) (vel : ChaosPhysics.Vec2J) (r : Rng)
    (hvx : vel.x.isFinite = true) (hvy : vel.y.isFinite = true) :
    ∃ velF r20, ChaosPhysics.kickStage level vel r = (velF, r20) ∧
      velF.x.isFinite = true ∧ velF.y.isFinite = true ∧
      r20.stream = r.stream := by
  unfold ChaosPhysics.kickStage
  dsimp only [Rng.next]
  split_ifs with h1
  · exact ⟨_, _, rfl, rfl, rfl, rfl⟩
  · exact ⟨_, _, rfl, hvx, hvy, rfl⟩

/-- The full free (non-anchored) pipeline: with a positive chaos level the
resulting position is finite and inside the padded canvas, the resulting
velocity is finite, the chaos map is untouched and the stream is shared. -/
theorem stepFree_spec (env : ChaosPhysics.Env) (dt : JSNum) (level : ℚ)
    (e : ChaosPhysics.EntityP) (st : ChaosPhysics.SysState) (r : Rng)
    (hlevel : 0 < level) :
    ∃ e' st' r',
      ChaosPhysics.stepFree env dt level e st r = (e', st', r') ∧
      (∃ px py : ℚ, e'.pos = ⟨JSNum.fin px, JSNum.fin py⟩ ∧
        10 ≤ px ∧ px ≤ 790 ∧ 10 ≤ py ∧ py ≤ 490) ∧
      e'.vel.x.isFinite = true ∧ e'.vel.y.isFinite = true ∧
      st'.chaos = st.chaos ∧ r'.stream = r.stream := by
  unfold ChaosPhysics.stepFree
  rcases hF : ChaosPhysics.forceStage level e.force r with ⟨force1, r6⟩
  have hs6 : r6.stream = r.stream := by
    have h := forceStage_stream level e.force r
    rw [hF] at h
    exact h
  dsimp only
  rcases hI : ChaosPhysics.impulseStage env dt level e.id e.vel st r6
    with ⟨vel1, st4, r8⟩
  have hIf := impulseStage_facts env dt level e.id e.vel st r6
  rw [hI] at hIf
  dsimp only
  rcases hD : ChaosPhysics.dampStage
    (vel1.addJ ((force1.smulJ ((JSNum.fin 1).div e.mass)).smulJ dt)) r8
    with ⟨vel3, r10⟩
  have hs10 : r10.stream = r8.stream := by
    have h := dampStage_stream
      (vel1.addJ ((force1.smulJ ((JSNum.fin 1).div e.mass)).smulJ dt)) r8
    rw [hD] at h
    exact h
  dsimp only
  rcases hB : ChaosPhysics.boostStage vel3 r10 with ⟨vel4, r12⟩
  have hs12 : r12.stream = r10.stream := by
    have h := boostStage_stream vel3 r10
    rw [hB] at h
    exact h
  dsimp only
  rcases hCap : ChaosPhysics.capStage env level vel4 r12 with ⟨vel5, r13⟩
  obtain ⟨maxv, r13', hmax, hcapeq, hs13'⟩ :=
    capStage_spec env level vel4 r12 hlevel
  rw [hCap] at hcapeq
  injection hcapeq with hv5 hr13
  have hs13 : r13.stream = r12.stream := by
    rw [hr13]
    exact hs13'
  dsimp only
  obtain ⟨pos2, vel6, r14, hgeq, hs14, hcase⟩ :=
    guardStage_spec e.pos vel5 dt r13
  rw [hgeq]
  dsimp only
  have hnanx : pos2.x.isNaN = false := by
    rcases hcase with ⟨qx, qy, hp, hv⟩ | ⟨hp, hv, hnx, hny⟩
    · rw [hp]
      rfl
    · rw [hp]
      exact hnx
  have hnany : pos2.y.isNaN = false := by
    rcases hcase with ⟨qx, qy, hp, hv⟩ | ⟨hp, hv, hnx, hny⟩
    · rw [hp]
      rfl
    · rw [hp]
      exact hny
  have hvel6x : vel6.x.isFinite = true := by
    rcases hcase with ⟨qx, qy, hp, hv⟩ | ⟨hp, hv, hnx, hny⟩
    · rw [hv]
      rfl
    · rw [hv]
      exact (cap_vel_finite env.sq vel4.x vel4.y e.pos.x e.pos.y dt maxv
        hmax vel5 hv5 hnx hny).1
  have hvel6y : vel6.y.isFinite = true := by
    rcases hcase with ⟨qx, qy, hp, hv⟩ | ⟨hp, hv, hnx, hny⟩
    · rw [hv]
      rfl
    · rw [hv]
      exact (cap_vel_finite env.sq vel4.x vel4.y e.pos.x e.pos.y dt maxv
        hmax vel5 hv5 hnx hny).2
  obtain ⟨qpx, hpx, hpx1, hpx2⟩ :=
    clamp_bounds pos2.x hnanx 10 790 (by norm_num)
  obtain ⟨qpy, hpy, hpy1, hpy2⟩ :=
    clamp_bounds pos2.y hnany 10 490 (by norm_num)
  rw [hpx, hpy]
  obtain ⟨out1, r15, hb1, hout1, ho1x, ho1y, hs15⟩ :=
    bounceXLow_spec (JSNum.fin qpx) vel6 r14 hvel6x hvel6y
  rw [hb1]
  dsimp only
  obtain ⟨out2, r16, hb2, hout2, ho2x, ho2y, hs16⟩ :=
    bounceXHigh_spec out1.1 out1.2 r15 ho1x ho1y
  rw [hb2]
  dsimp only
  obtain ⟨out3, r17, hb3, hout3, ho3x, ho3y, hs17⟩ :=
    bounceYLow_spec (JSNum.fin qpy) out2.2 r16 ho2x ho2y
  rw [hb3]
  dsimp only
  obtain ⟨out4, r18, hb4, hout4, ho4x, ho4y, hs18⟩ :=
    bounceYHigh_spec out3.1 out3.2 r17 ho3x ho3y
  rw [hb4]
  dsimp only
  obtain ⟨velF, r20, hk, hkx, hky, hs20⟩ :=
    kickStage_spec level out4.2 r18 ho4x ho4y
  rw [hk]
  dsimp only
  have hfinalx : ∃ px : ℚ, out2.1 = JSNum.fin px ∧ 10 ≤ px ∧ px ≤ 790 := by
    rcases hout2 with h | h
    · exact ⟨790, h, by norm_num, le_refl 790⟩
    · rcases hout1 with h' | h'
      · rw [h, h']
        exact ⟨10, rfl, le_refl 10, by norm_num⟩
      · rw [h, h']
        exact ⟨qpx, rfl, hpx1, hpx2⟩
  have hfinaly : ∃ py : ℚ, out4.1 = JSNum.fin py ∧ 10 ≤ py ∧ py ≤ 490 := by
    rcases hout4 with h | h
    · exact ⟨490, h, by norm_num, le_refl 490⟩
    · rcases hout3 with h' | h'
      · rw [h, h']
        exact ⟨10, rfl, le_refl 10, by norm_num⟩
      · rw [h, h']
        exact ⟨qpy, rfl, hpy1, hpy2⟩
  obtain ⟨pxv, hpxv, hpxv1, hpxv2⟩ := hfinalx
  obtain ⟨pyv, hpyv, hpyv1, hpyv2⟩ := hfinaly
  refine ⟨_, _, _, rfl, ⟨pxv, pyv, ?_, hpxv1, hpxv2, hpyv1, hpyv2⟩,
    hkx, hky, hIf.1, ?_⟩
  · show (⟨out2.1, out4.1⟩ : ChaosPhysics.Vec2J) = _
    rw [hpxv, hpyv]
  · rw [hs20, hs18, hs17, hs16, hs15, hs14, hs13, hs12, hs10, hIf.2, hs6]

/-- Entries of an association-list write: old entries or the new pair. -/
theorem alSet_mem {α : Type} :
    ∀ (m : List (ℕ × α)) (k : ℕ) (v : α) (p : ℕ × α),
      p ∈ ChaosPhysics.alSet m k v → p ∈ m ∨ p = (k, v) := by
  intro m
  induction m with
  | nil =>
    intro k v p hp
    unfold ChaosPhysics.alSet at hp
    rw [List.mem_singleton] at hp
    exact Or.inr hp
  | cons kv rest ih =>
    intro k v p hp
    obtain ⟨k', v'⟩ := kv
    unfold ChaosPhysics.alSet at hp
    split_ifs at hp with h
    · rcases List.mem_cons.mp hp with h' | h'
      · exact Or.inr h'
      · exact Or.inl (List.mem_cons_of_mem _ h')
    · rcases List.mem_cons.mp hp with h' | h'
      · exact Or.inl (h' ▸ List.mem_cons_self _ _)
      · rcases ih k v p h' with h'' | h''
        · exact Or.inl (List.mem_cons_of_mem _ h'')
        · exact Or.inr h''

/-- The tail of `stepEntity` after the chaos bookkeeping: the anchored
short-circuit or the free pipeline, under a positive current level. -/
theorem stepEntity_tail (env : ChaosPhysics.Env) (dt : JSNum)
    (e : ChaosPhysics.EntityP) (cd1 : ChaosPhysics.ChaosData)
    (st1 : ChaosPhysics.SysState) (r2 : Rng)
    (hcd1 : 0 < cd1.level)
    (hst1 : ∀ p ∈ st1.chaos, 0 < (p.2).level)
    (hanch : e.anchoredJoint = true →
      e.pos.x.isFinite = true ∧ e.pos.y.isFinite = true) :
    ∃ e' st' r',
      (if e.anchoredJoint then
        (({ e with
            vel := ⟨JSNum.fin 0, JSNum.fin 0⟩,
            force := ⟨JSNum.fin 0, JSNum.fin 0⟩ } : ChaosPhysics.EntityP),
          ({ st1 with chaos := ChaosPhysics.alSet st1.chaos e.id cd1 } :
            ChaosPhysics.SysState), r2)
      else ChaosPhysics.stepFree env dt cd1.level e
        { st1 with chaos := ChaosPhysics.alSet st1.chaos e.id cd1 } r2) =
        (e', st', r') ∧
      e'.pos.x.isFinite = true ∧ e'.pos.y.isFinite = true ∧
      e'.vel.x.isFinite = true ∧ e'.vel.y.isFinite = true ∧
      (e.anchoredJoint = false →
        ∃ px py : ℚ, e'.pos = ⟨JSNum.fin px, JSNum.fin py⟩ ∧
          10 ≤ px ∧ px ≤ 790 ∧ 10 ≤ py ∧ py ≤ 490) ∧
      (∀ p ∈ st'.chaos, 0 < (p.2).level) ∧
      r'.stream = r2.stream := by
  by_cases hA : e.anchoredJoint = true
  · rw [if_pos hA]
    refine ⟨_, _, _, rfl, (hanch hA).1, (hanch hA).2, rfl, rfl, ?_, ?_, rfl⟩
    · intro h
      rw [hA] at h
      simp at h
    · intro p hp
      dsimp only at hp
      rcases alSet_mem st1.chaos e.id cd1 p hp with h | h
      · exact hst1 p h
      · rw [h]
        exact hcd1
  · rw [if_neg hA]
    have hA' : e.anchoredJoint = false := by simpa using hA
    obtain ⟨e', st', r', hsf, hpos, hvx, hvy, hch, hstream⟩ :=
      stepFree_spec env dt cd1.level e
        { st1 with chaos := ChaosPhysics.alSet st1.chaos e.id cd1 } r2 hcd1
    rw [hsf]
    obtain ⟨px, py, hpe, hb1, hb2, hb3, hb4⟩ := hpos
    refine ⟨_, _, _, rfl, ?_, ?_, hvx, hvy,
      fun _ => ⟨px, py, hpe, hb1, hb2, hb3, hb4⟩, ?_, hstream⟩
    · rw [hpe]
      rfl
    · rw [hpe]
      rfl
    · intro p hp
      rw [hch] at hp
      dsimp only at hp
      rcases alSet_mem st1.chaos e.id cd1 p hp with h | h
      · exact hst1 p h
      · rw [h]
        exact hcd1

/-- One entity's full step: under a valid stream, positive stored chaos
levels and finite positions for anchored entities, the stepped entity has
finite position and velocity (in-bounds when not anchored), the levels stay
positive, and the stream is shared. -/
theorem stepEntity_spec (env : ChaosPhysics.Env) (dt : JSNum)
    (e : ChaosPhysics.EntityP) (st : ChaosPhysics.SysState) (r : Rng)
    (hr : validRng r)
    (hchaos : ∀ p ∈ st.chaos, 0 < (p.2).level)
    (hanch : e.anchoredJoint = true →
      e.pos.x.isFinite = true ∧ e.pos.y.isFinite = true) :
    ∃ e' st' r',
      ChaosPhysics.stepEntity env dt e st r = (e', st', r') ∧
      e'.pos.x.isFinite = true ∧ e'.pos.y.isFinite = true ∧
      e'.vel.x.isFinite = true ∧ e'.vel.y.isFinite = true ∧
      (e.anchoredJoint = false →
        ∃ px py : ℚ, e'.pos = ⟨JSNum.fin px, JSNum.fin py⟩ ∧
          10 ≤ px ∧ px ≤ 790 ∧ 10 ≤ py ∧ py ≤ 490) ∧
      (∀ p ∈ st'.chaos, 0 < (p.2).level) ∧
      r'.stream = r.stream := by
  unfold ChaosPhysics.stepEntity
  cases hAl : ChaosPhysics.alGet st.chaos e.id with
  | some cd =>
    have hcdpos : 0 < cd.level := by
      unfold ChaosPhysics.alGet at hAl
      cases hfind : st.chaos.find? (fun p => p.1 = e.id) with
      | none =>
        rw [hfind] at hAl
        simp at hAl
      | some p =>
        rw [hfind] at hAl
        simp only [Option.map_some'] at hAl
        have hpe : p.2 = cd := by injection hAl
        rw [← hpe]
        exact hchaos p (List.mem_of_find?_eq_some hfind)
    dsimp only
    rcases hn1 : r.next with ⟨q1, ra⟩
    rcases hn2 : ra.next with ⟨q2, rb⟩
    have hsa : ra.stream = r.stream := by
      rw [show ra = (r.next).2 from (congrArg Prod.snd hn1).symm]
      rfl
    have hsb : rb.stream = r.stream := by
      rw [show rb = (ra.next).2 from (congrArg Prod.snd hn2).symm]
      exact hsa
    have hq1 : 0 ≤ q1 := by
      have h : q1 = r.stream r.k := by
        rw [show q1 = (r.next).1 from (congrArg Prod.fst hn1).symm]
        rfl
      rw [h]
      exact (hr r.k).1
    dsimp only
    by_cases hTc : (cd.timer.sub dt).le (JSNum.fin 0) = true
    · rw [if_pos hTc]
      dsimp only
      have hpos : 0 < ((⟨1/2 + q1 * (5/2),
          (JSNum.fin (1/2 + q2 * (5/2))).add
            (JSNum.fin (((e.id % 10 : ℕ) : ℚ) * (1/10))),
          cd.phase⟩ : ChaosPhysics.ChaosData)).level := by
        show 0 < 1/2 + q1 * (5/2)
        nlinarith
      obtain ⟨e', st', r', heq, h1, h2, h3, h4, h5, h6, hstr⟩ :=
        stepEntity_tail env dt e
          ⟨1/2 + q1 * (5/2),
            (JSNum.fin (1/2 + q2 * (5/2))).add
              (JSNum.fin (((e.id % 10 : ℕ) : ℚ) * (1/10))),
            cd.phase⟩ st rb hpos hchaos hanch
      exact ⟨e', st', r', heq, h1, h2, h3, h4, h5, h6, by rw [hstr, hsb]⟩
    · rw [if_neg hTc]
      dsimp only
      have hpos : 0 < ({ cd with timer := cd.timer.sub dt } :
          ChaosPhysics.ChaosData).level := hcdpos
      obtain ⟨e', st', r', heq, h1, h2, h3, h4, h5, h6, hstr⟩ :=
        stepEntity_tail env dt e { cd with timer := cd.timer.sub dt }
          st r hpos hchaos hanch
      exact ⟨e', st', r', heq, h1, h2, h3, h4, h5, h6, hstr⟩
  | none =>
    dsimp only
    rcases hn1 : r.next with ⟨q1, ra⟩
    rcases hn2 : ra.next with ⟨q2, rb⟩
    rcases hn3 : rb.next with ⟨q3, rc⟩
    have hsa : ra.stream = r.stream := by
      rw [show ra = (r.next).2 from (congrArg Prod.snd hn1).symm]
      rfl
    have hsb : rb.stream = r.stream := by
      rw [show rb = (ra.next).2 from (congrArg Prod.snd hn2).symm]
      exact hsa
    have hsc : rc.stream = r.stream := by
      rw [show rc = (rb.next).2 from (congrArg Prod.snd hn3).symm]
      exact hsb
    have hq1 : 0 ≤ q1 := by
      have h : q1 = r.stream r.k := by
        rw [show q1 = (r.next).1 from (congrArg Prod.fst hn1).symm]
        rfl
      rw [h]
      exact (hr r.k).1
    have hcdpos : 0 < (1 : ℚ)/2 + q1 * (3/2) := by nlinarith
    have hst1 : ∀ p ∈ ChaosPhysics.alSet st.chaos e.id
        (⟨1/2 + q1 * (3/2), JSNum.fin (q2 * 3), q3 * env.pi * 2⟩ :
          ChaosPhysics.ChaosData), 0 < (p.2).level := by
      intro p hp
      rcases alSet_mem st.chaos e.id _ p hp with h | h
      · exact hchaos p h
      · rw [h]
        exact hcdpos
    rcases hn4 : rc.next with ⟨q4, rd⟩
    rcases hn5 : rd.next with ⟨q5, re2⟩
    have hsd : rd.stream = r.stream := by
      rw [show rd = (rc.next).2 from (congrArg Prod.snd hn4).symm]
      exact hsc
    have hse : re2.stream = r.stream := by
      rw [show re2 = (rd.next).2 from (congrArg Prod.snd hn5).symm]
      exact hsd
    have hq4 : 0 ≤ q4 := by
      have h : q4 = rc.stream rc.k := by
        rw [show q4 = (rc.next).1 from (congrArg Prod.fst hn4).symm]
        rfl
      rw [h, hsc]
      exact (hr rc.k).1
    dsimp only
    by_cases hTc : ((JSNum.fin (q2 * 3)).sub dt).le (JSNum.fin 0) = true
    · rw [if_pos hTc]
      dsimp only
      have hpos : 0 < ((⟨1/2 + q4 * (5/2),
          (JSNum.fin (1/2 + q5 * (5/2))).add
            (JSNum.fin (((e.id % 10 : ℕ) : ℚ) * (1/10))),
          q3 * env.pi * 2⟩ : ChaosPhysics.ChaosData)).level := by
        show 0 < 1/2 + q4 * (5/2)
        nlinarith
      obtain ⟨e', st', r', heq, h1, h2, h3, h4, h5, h6, hstr⟩ :=
        stepEntity_tail env dt e
          ⟨1/2 + q4 * (5/2),
            (JSNum.fin (1/2 + q5 * (5/2))).add
              (JSNum.fin (((e.id % 10 : ℕ) : ℚ) * (1/10))),
            q3 * env.pi * 2⟩
          (⟨ChaosPhysics.alSet st.chaos e.id
              ⟨1/2 + q1 * (3/2), JSNum.fin (q2 * 3), q3 * env.pi * 2⟩,
            st.impulses⟩ : ChaosPhysics.SysState)
          re2 hpos hst1 hanch
      exact ⟨e', st', r', heq, h1, h2, h3, h4, h5, h6, by rw [hstr, hse]⟩
    · rw [if_neg hTc]
      dsimp only
      have hpos : 0 < ((⟨1/2 + q1 * (3/2), (JSNum.fin (q2 * 3)).sub dt,
          q3 * env.pi * 2⟩ : ChaosPhysics.ChaosData)).level :=
        hcdpos
      obtain ⟨e', st', r', heq, h1, h2, h3, h4, h5, h6, hstr⟩ :=
        stepEntity_tail env dt e
          ⟨1/2 + q1 * (3/2), (JSNum.fin (q2 * 3)).sub dt, q3 * env.pi * 2⟩
          (⟨ChaosPhysics.alSet st.chaos e.id
              ⟨1/2 + q1 * (3/2), JSNum.fin (q2 * 3), q3 * env.pi * 2⟩,
            st.impulses⟩ : ChaosPhysics.SysState)
          rc hpos hst1 hanch
      exact ⟨e', st', r', heq, h1, h2, h3, h4, h5, h6, by rw [hstr, hsc]⟩

/-- **C7**  After one update of the chaotic `PhysicsSystem`, every processed
entity has a finite position and a finite velocity; any non-finite value
arising during integration (for any `deltaTime`, any starting velocity or
force, including `NaN` and infinities) is absorbed by the `NaN` safety
check, which resets the entity to a random in-bounds position with zero
velocity, and the hard clamps then keep every non-anchored entity inside
`[10, 790] × [10, 490]`.  The hypotheses are the system's own invariants:
`Math.random()` draws lie in `[0, 1)`, the stored chaos levels (all written
as `0.5 + random() * c`) are positive, and anchored joints — whose position
the update never touches — start with finite positions. -/
theorem c7_physics_finiteness (env : ChaosPhysics.Env) (dt : JSNum)
    (es : List ChaosPhysics.EntityP) (st : ChaosPhysics.SysState) (r : Rng)
    (hr : validRng r)
    (hchaos : ∀ p ∈ st.chaos, 0 < (p.2).level)
    (hanch : ∀ e ∈ es, e.anchoredJoint = true →
      e.pos.x.isFinite = true ∧ e.pos.y.isFinite = true) :
    ∃ es' st' r',
      ChaosPhysics.runEntitiesP env dt es st r = (es', st', r') ∧
      (∀ e' ∈ es', e'.pos.x.isFinite = true ∧ e'.pos.y.isFinite = true ∧
        e'.vel.x.isFinite = true ∧ e'.vel.y.isFinite = true) ∧
      List.Forall₂ (fun e e' => e.anchoredJoint = false →
        ∃ px py : ℚ, e'.pos = ⟨JSNum.fin px, JSNum.fin py⟩ ∧
          10 ≤ px ∧ px ≤ 790 ∧ 10 ≤ py ∧ py ≤ 490) es es' ∧
      (∀ p ∈ st'.chaos, 0 < (p.2).level) ∧
      r'.stream = r.stream := by
  induction es generalizing st r hr hchaos with
  | nil =>
    exact ⟨[], st, r, rfl, fun e' he' => absurd he' (List.not_mem_nil e'),
      List.Forall₂.nil, hchaos, rfl⟩
  | cons e es ih =>
    obtain ⟨e', st1, r1, hstep, hp1, hp2, hv1, hv2, hbnd, hch1, hs1⟩ :=
      stepEntity_spec env dt e st r hr hchaos (hanch e (List.mem_cons_self e es))
    have hr1 : validRng r1 := by
      intro n
      rw [hs1]
      exact hr n
    obtain ⟨es', st2, r2, hrun, hfin, hfa, hch2, hs2⟩ :=
      ih st1 r1 hr1 hch1 (fun x hx => hanch x (List.mem_cons_of_mem e hx))
    refine ⟨e' :: es', st2, r2, ?_, ?_, List.Forall₂.cons hbnd hfa, hch2,
      by rw [hs2, hs1]⟩
    · simp only [ChaosPhysics.runEntitiesP]
      rw [hstep]
      dsimp only
      rw [hrun]
    · intro x hx
      rcases List.mem_cons.mp hx with h | h
      · rw [h]
        exact ⟨hp1, hp2, hv1, hv2⟩
      · exact hfin x h

/-- Witness for C7: a single free entity with a `NaN` position, a fresh
system state and the constant-half stream — every hypothesis holds and the
update yields a finite, in-bounds result. -/
theorem c7_witness :
    validRng rngHalf ∧
    (∀ p ∈ (⟨[], []⟩ : ChaosPhysics.SysState).chaos, 0 < (p.2).level) ∧
    (∀ e ∈ [c7ent], e.anchoredJoint = true →
      e.pos.x.isFinite = true ∧ e.pos.y.isFinite = true) ∧
    ∃ es' st' r',
      ChaosPhysics.runEntitiesP c7env (JSNum.fin 1) [c7ent] ⟨[], []⟩ rngHalf =
        (es', st', r') ∧
      (∀ e' ∈ es', e'.pos.x.isFinite = true ∧ e'.pos.y.isFinite = true ∧
        e'.vel.x.isFinite = true ∧ e'.vel.y.isFinite = true) ∧
      List.Forall₂ (fun e e' => e.anchoredJoint = false →
        ∃ px py : ℚ, e'.pos = ⟨JSNum.fin px, JSNum.fin py⟩ ∧
          10 ≤ px ∧ px ≤ 790 ∧ 10 ≤ py ∧ py ≤ 490) [c7ent] es' ∧
      (∀ p ∈ st'.chaos, 0 < (p.2).level) ∧
      r'.stream = rngHalf.stream := by
  have h1 : validRng rngHalf := by
    intro n
    constructor <;> norm_num [rngHalf]
  have h2 : ∀ p ∈ (⟨[], []⟩ : ChaosPhysics.SysState).chaos, 0 < (p.2).level := by
    intro p hp
    simp at hp
  have h3 : ∀ e ∈ [c7ent], e.anchoredJoint = true →
      e.pos.x.isFinite = true ∧ e.pos.y.isFinite = true := by
    intro e he hA
    rw [List.mem_singleton] at he
    subst he
    exact absurd hA (by simp [c7ent])
  exact ⟨h1, h2, h3,
    c7_physics_finiteness c7env (JSNum.fin 1) [c7ent] ⟨[], []⟩ rngHalf h1 h2 h3⟩

end CE
